import Mathlib

set_option linter.unusedSectionVars false
set_option linter.unusedVariables false

/-!
# RotatorController: debounced quadrature tracking and velocity-profile control

A shallow embedding of the motion core of the rotator firmware
(`stdUtils.cpp`, `devMotorControl.cpp`, `appPidControl.cpp`, `timerUtils.cpp`).

Conventions of the embedding
* C `int` values are `Int`; signed overflow is undefined behaviour in C, so the
  embedding describes the overflow-free executions.
* C `unsigned long` values are `Nat` reduced modulo `2^32` at every operation
  that can wrap.
* C `float` values are elements of an ordered field `α` (exact arithmetic);
  closed examples are evaluated over `ℚ`.
* Global variables of a translation unit become the fields of a record that is
  passed in and returned.
* Trace output (`iPrintF`) and the debug pins are not part of the state.
-/

/-! ## Arduino.h -/

/-- Arduino logic level `LOW`. -/
def LOW : Int := 0

/-- Arduino logic level `HIGH`. -/
def HIGH : Int := 1

namespace Arduino

/-- The Arduino macro `abs(x) ((x)>0?(x):-(x))`. -/
def abs {α : Type} [LinearOrderedField α] (x : α) : α :=
  if x > 0 then x else -x

/-- The Arduino macro `abs` on `int` arguments. -/
def absInt (x : Int) : Int :=
  if x > 0 then x else -x

end Arduino

/-! ## stdUtils.h -/

/-- The macro `sign_f(a) ((a < 0)? -1.0 : 1.0)`. -/
def sign_f {α : Type} [LinearOrderedField α] (a : α) : α :=
  if a < 0 then -1 else 1

def INPUT_EDGE_NONE : Int := 0
def INPUT_EDGE_FALLING : Int := 1
def INPUT_EDGE_RISING : Int := 2

def statusOK : Nat := 0x01
def statusMOVING : Nat := 0x02
def statusDIRECTION : Nat := 0x04
def statusPID_BUSY : Nat := 0x08
def statusPID_DONE : Nat := 0x10
def statusCALIB_BUSY : Nat := 0x20

def stateIDLE : Nat := 1
def stateCAL_SEARCH : Nat := 2
def stateCAL_GOTO_0 : Nat := 3

/-- The struct `ST_PIN_DEBOUNCE`: the debounced level of a pin and the number
of consecutive samples that disagreed with it. -/
structure ST_PIN_DEBOUNCE where
  CurrentState : Int
  DebounceCount : Int
deriving DecidableEq, Repr

namespace stdUtils

/-- The function `stdUtils::debounceInput(input, level, count)`: the updated
channel and the reported edge. -/
def debounceInput (input : ST_PIN_DEBOUNCE) (level count : Int) :
    ST_PIN_DEBOUNCE × Int :=
  if input.CurrentState = level then
    ({ input with DebounceCount := 0 }, INPUT_EDGE_NONE)
  else
    let input1 : ST_PIN_DEBOUNCE :=
      { input with DebounceCount := input.DebounceCount + 1 }
    if input1.DebounceCount < count then
      (input1, INPUT_EDGE_NONE)
    else
      ({ input1 with CurrentState := level },
        if level = HIGH then INPUT_EDGE_RISING else INPUT_EDGE_FALLING)

/-- Feeds a list of sampled levels to one channel, one `debounceInput` call per
sample, and collects the reported edges in order. -/
def debounceFeed (count : Int) :
    ST_PIN_DEBOUNCE → List Int → ST_PIN_DEBOUNCE × List Int
  | input, [] => (input, [])
  | input, level :: rest =>
    let r := debounceInput input level count
    let rs := debounceFeed count r.1 rest
    (rs.1, r.2 :: rs.2)

/-- The function `stdUtils::SetStatus` on the status byte. -/
def SetStatus (SystemStatus statusMask : Nat) : Nat :=
  (SystemStatus ||| statusMask) % 256

/-- The function `stdUtils::ClearStatus`: `SystemStatus &= (~statusMask)` on a
byte. -/
def ClearStatus (SystemStatus statusMask : Nat) : Nat :=
  SystemStatus &&& (0xFF ^^^ statusMask)

/-- The function `stdUtils::ToggleStatus`. -/
def ToggleStatus (SystemStatus statusMask : Nat) (flag : Bool) : Nat :=
  if flag then (SystemStatus ||| statusMask) % 256
  else SystemStatus &&& (0xFF ^^^ statusMask)

/-- The function `stdUtils::GetStatus`. -/
def GetStatus (SystemStatus statusMask : Nat) : Bool :=
  if SystemStatus &&& statusMask ≠ 0 then true else false

end stdUtils

/-- The state of a channel after `Init`: level `LOW`, no pending samples. -/
def debounceInit : ST_PIN_DEBOUNCE := ⟨LOW, 0⟩

/-- The local define `AMT203_DEBOUNCE_CNT` of `devMotorControl.cpp`. -/
def AMT203_DEBOUNCE_CNT : Int := 2

/-! ## timerUtils.h / timerUtils.cpp -/

/-- The number of values of a 32 bit `unsigned long`. -/
def ULONG_RANGE : Nat := 4294967296

/-- The readings of `millis()` and `micros()` during one call. -/
structure Clock where
  millis : Nat
  micros : Nat
deriving DecidableEq, Repr

/-- The struct `ST_MS_TIMER`. -/
structure ST_MS_TIMER where
  msExpire : Nat
  msPeriod : Nat
  Enabled : Bool
  Expired : Bool
deriving DecidableEq, Repr

namespace timerUtils

/-- The function `timerUtils::msTimerStart`. -/
def msTimerStart (_t : ST_MS_TIMER) (millis interval : Nat) : ST_MS_TIMER :=
  { msExpire := (millis + interval) % ULONG_RANGE
    msPeriod := interval
    Enabled := true
    Expired := false }

/-- The function `timerUtils::msTimerReset`: the timer and the returned flag. -/
def msTimerReset (t : ST_MS_TIMER) (millis : Nat) : ST_MS_TIMER × Bool :=
  if t.msPeriod > 0 then
    ({ t with msExpire := (millis + t.msPeriod) % ULONG_RANGE
              Expired := false
              Enabled := true }, true)
  else (t, t.Enabled)

/-- The function `timerUtils::msTimerStop`. -/
def msTimerStop (t : ST_MS_TIMER) : ST_MS_TIMER :=
  { t with Enabled := false }

/-- The function `timerUtils::msTimerPoll`: the timer and the returned flag. -/
def msTimerPoll (t : ST_MS_TIMER) (millis : Nat) : ST_MS_TIMER × Bool :=
  if t.Enabled = false then (t, false)
  else
    let t1 : ST_MS_TIMER :=
      if !t.Expired then
        (if millis ≥ t.msExpire then { t with Expired := true } else t)
      else t
    (t1, t1.Expired)

end timerUtils

/-! ## devMotorControl.h -/

def AMT203_QUAD_PPR : Int := 4096
def AMT203_QUAD_PPR_NEG_OFFSET : Int := -2048
def AMT203_PULSEWIDTH_ARR_CNT : Nat := 20
def UNKNOWNPOS : Int := -11377
def ROTATE_NONE : Int := 0
def ROTATE_FORWARD : Int := 1
def ROTATE_BACKWARD : Int := -1
def MOTOR_FWD : Bool := false
def MOTOR_REV : Bool := true

/-- Modelled from the spec: the header `halTLC5615.h` is not part of the
sources; the actuator has 1023 discrete levels above zero (10 bit DAC), which
is the value of `TLC5615_MAX_OUTPUT_VAL`. -/
def TLC5615_MAX_OUTPUT_VAL : Int := 1023

/-- The macro `SetOffsetWithinLimit(z)`. -/
def SetOffsetWithinLimit (z : Int) : Int :=
  if z < AMT203_QUAD_PPR_NEG_OFFSET then z + AMT203_QUAD_PPR
  else if z ≥ AMT203_QUAD_PPR + AMT203_QUAD_PPR_NEG_OFFSET then z - AMT203_QUAD_PPR
  else z

/-- The struct `ST_LINEAR`. -/
structure ST_LINEAR (α : Type) where
  M : α
  C : α
deriving DecidableEq

/-- The struct `ST_XFER`. -/
structure ST_XFER (α : Type) where
  Pos : ST_LINEAR α
  Neg : ST_LINEAR α
deriving DecidableEq

/-- The encoder variables of `devMotorControl.cpp`: the three debounce
channels, direction, zero offset, position and the pulse timing. -/
structure EncoderState where
  debounceInput_A : ST_PIN_DEBOUNCE
  debounceInput_B : ST_PIN_DEBOUNCE
  debounceInput_X : ST_PIN_DEBOUNCE
  _direction : Int
  _zero_offset : Int
  _position : Int
  _ZeroOffsetIsKnown : Bool
  _lastEdge_us : Nat
  _now_us : Nat
  _pulsePeriod_us : Nat
  _pulsePeriod_us_arr : List Nat
  _pulsePeriod_us_cnt : Nat
deriving DecidableEq, Repr

/-- The actuator variables of `devMotorControl.cpp` together with the outputs
they drive: the `_EN` and `_REV` pins and the level register of the DAC. -/
structure MotorState (α : Type) where
  _reversing : Bool
  _enabled : Bool
  Xfer : ST_XFER α
  pin_EN : Bool
  pin_REV : Bool
  dacLevel : Nat
deriving DecidableEq

namespace halTLC5615

/-- Modelled from the spec: `halTLC5615.cpp` is not part of the sources; the
actuator driver interface `set_level(quantized_value)` stores the level in the
DAC and returns it. -/
def SetLevel {α : Type} (level : Nat) (m : MotorState α) : MotorState α × Nat :=
  ({ m with dacLevel := level }, level)

/-- Modelled from the spec: `halTLC5615.cpp` is not part of the sources; the
level read back is the last commanded level. -/
def GetLevel_abs {α : Type} (m : MotorState α) : Nat :=
  m.dacLevel

end halTLC5615

/-! ## appPidControl.h -/

/-- The struct `ST_PID`. -/
structure ST_PID (α : Type) where
  Kp : α
  Ki : α
  Kd : α
  Period : α
  bias : α
  Target : α
  Position : α
  MaxAccel : α
  MaxSpeed : α
  MinSpeed : α
  Speed : α
  error : α
  intError : α
  derError : α
  Enable : Bool
  startPos : α
  startTime : Nat
  aiming : Bool
  TimeToTarget : α
deriving DecidableEq

/-- All mutable state of the motion core: the encoder and actuator variables of
`devMotorControl.cpp`, the status byte of `stdUtils`, and `pidSettings`,
`ControlState` and the two timers of `appPidControl.cpp`. -/
structure World (α : Type) where
  enc : EncoderState
  mot : MotorState α
  SystemStatus : Nat
  pidSettings : ST_PID α
  ControlState : Nat
  pidTimer : ST_MS_TIMER
  pidUpdatePosTimer : ST_MS_TIMER
deriving DecidableEq

section Field

variable {α : Type} [LinearOrderedField α] [FloorRing α]

/-- The conversion `(int)x` of a float: truncation toward zero. -/
def truncToInt (x : α) : Int :=
  if 0 ≤ x then ⌊x⌋ else ⌈x⌉

/-- The C library function `roundf`: nearest integer, halves away from zero. -/
def roundf (x : α) : Int :=
  if 0 ≤ x then ⌊x + 1 / 2⌋ else ⌈x - 1 / 2⌉

def MOTOR_SPD_ABS_MAX : α := 36
def MOTOR_SPD_ABS_MIN : α := 1 / 2
def MOTOR_POS_WRAP_MAX : α := 540
def MOTOR_POS_WRAP_MIN : α := -540

/-- The macro `MOTOR_POS_INCREMENT_DEG`, `360.0/AMT203_QUAD_PPR`. -/
def MOTOR_POS_INCREMENT_DEG : α := 360 / 4096

/-- The macro `MOTOR_SPD_INCREMENT_FLT`,
`MOTOR_SPD_ABS_MAX / TLC5615_MAX_OUTPUT_VAL`. -/
def MOTOR_SPD_INCREMENT_FLT : α := 36 / 1023

/-- The coefficients written to `Xfer` by `devMotorControl::Init`
(`MOTOR_CONTROL_REV_INPUT_STATE` is `false`). -/
def XferDefault : ST_XFER α :=
  { Pos := { M := 11417 / 10000, C := -(13754 / 10000) }
    Neg := { M := 11598 / 10000, C := 11071 / 10000 } }

end Field

namespace stdUtils

/-- The function `stdUtils::avgULong`. -/
def avgULong (arr : List Nat) (cnt : Nat) : Nat :=
  ((arr.take cnt).foldl (fun retVal x => (retVal + x) % ULONG_RANGE) 0) / cnt

/-- The function `stdUtils::setFloatParam(param, value, min_Limit, max_Limit)`:
the new value of `*param` and the return code. -/
def setFloatParam {α : Type} [LinearOrderedField α]
    (param value min_Limit max_Limit : α) : α × Int :=
  if value < min_Limit ∨ value > max_Limit then (param, -2)
  else (value, 0)

end stdUtils

/-! ## devMotorControl.cpp -/

namespace devMotorControl

section Field

variable {α : Type} [LinearOrderedField α] [FloorRing α]

/-- The function `devMotorControl::ConvertSpeed_WR_degs`. -/
def ConvertSpeed_WR_degs (Xfer : ST_XFER α) (spdDegreePerSecond : α) : α :=
  if spdDegreePerSecond > 0 then (spdDegreePerSecond - Xfer.Pos.C) / Xfer.Pos.M
  else if spdDegreePerSecond < 0 then (spdDegreePerSecond - Xfer.Neg.C) / Xfer.Neg.M
  else spdDegreePerSecond

/-- The function `devMotorControl::ConvertSpeed_RD_degs`. -/
def ConvertSpeed_RD_degs (Xfer : ST_XFER α) (spdDegreePerSecond : α) : α :=
  if spdDegreePerSecond > 0 then (spdDegreePerSecond * Xfer.Pos.M) + Xfer.Pos.C
  else if spdDegreePerSecond < 0 then (spdDegreePerSecond * Xfer.Neg.M) + Xfer.Neg.C
  else spdDegreePerSecond

/-- The function `devMotorControl::ResetSpeedParams`. -/
def ResetSpeedParams (clk : Clock) (w : World α) : World α :=
  { w with enc :=
    { w.enc with
      _direction := ROTATE_NONE
      _now_us := clk.micros % ULONG_RANGE
      _lastEdge_us := clk.micros % ULONG_RANGE
      _pulsePeriod_us := 0
      _pulsePeriod_us_cnt := 0
      _pulsePeriod_us_arr := List.replicate AMT203_PULSEWIDTH_ARR_CNT 0 } }

/-- The function `devMotorControl::SetSpeed_abs`: the new state and the
returned signed level. -/
def SetSpeed_abs (spdAbsolute : Int) (w : World α) : World α × Int :=
  let spdAbsolute : Int :=
    if Arduino.absInt spdAbsolute > TLC5615_MAX_OUTPUT_VAL then
      (if spdAbsolute < 0 then -TLC5615_MAX_OUTPUT_VAL else TLC5615_MAX_OUTPUT_VAL)
    else spdAbsolute
  let _enabled : Bool := if spdAbsolute ≠ 0 then true else false
  let status1 := stdUtils.ToggleStatus w.SystemStatus statusMOVING _enabled
  let _reversing : Bool := if spdAbsolute < 0 then MOTOR_REV else MOTOR_FWD
  let status2 := stdUtils.ToggleStatus status1 statusDIRECTION _reversing
  let m : MotorState α :=
    { w.mot with
      _enabled := _enabled
      pin_EN := _enabled
      _reversing := _reversing
      pin_REV := _reversing }
  let r := halTLC5615.SetLevel (Arduino.absInt spdAbsolute).toNat m
  ({ w with SystemStatus := status2, mot := r.1 },
    (r.2 : Int) * (if _reversing then ROTATE_FORWARD else ROTATE_BACKWARD))

/-- The function `devMotorControl::Stop`. -/
def Stop (clk : Clock) (w : World α) : World α :=
  let w1 := (SetSpeed_abs 0 w).1
  let w2 := ResetSpeedParams clk w1
  { w2 with SystemStatus := stdUtils.ClearStatus w2.SystemStatus statusMOVING }

/-- The speed that `devMotorControl::SetSpeed_degs` hands to the transfer
function: the requested speed with its magnitude limited to
`[MOTOR_SPD_ABS_MIN, MOTOR_SPD_ABS_MAX]`. -/
def SetSpeed_degs_limit (spdDegreePerSecond : α) : α :=
  if Arduino.abs spdDegreePerSecond > MOTOR_SPD_ABS_MAX then
    (if spdDegreePerSecond < 0 then -MOTOR_SPD_ABS_MAX else MOTOR_SPD_ABS_MAX)
  else if Arduino.abs spdDegreePerSecond < MOTOR_SPD_ABS_MIN then
    (if spdDegreePerSecond < 0 then -MOTOR_SPD_ABS_MIN else MOTOR_SPD_ABS_MIN)
  else spdDegreePerSecond

/-- The function `devMotorControl::SetSpeed_degs`: the new state and the
returned speed. -/
def SetSpeed_degs (spdDegreePerSecond : α) (w : World α) : World α × α :=
  if spdDegreePerSecond = 0 then
    let r := SetSpeed_abs 0 w
    (r.1, (r.2 : α))
  else
    let spd := SetSpeed_degs_limit spdDegreePerSecond
    let r := SetSpeed_abs
      (truncToInt (ConvertSpeed_WR_degs w.mot.Xfer spd / MOTOR_SPD_INCREMENT_FLT)) w
    (r.1, (r.2 : α) * MOTOR_SPD_INCREMENT_FLT)

/-- The function `devMotorControl::KillMotor`. -/
def KillMotor (w : World α) : World α :=
  { w with
    SystemStatus := stdUtils.ClearStatus w.SystemStatus statusMOVING
    mot := { w.mot with pin_EN := false } }

/-- The function `devMotorControl::GetSpeed_AVG`. -/
def GetSpeed_AVG (w : World α) : α :=
  let tmpOmega : α :=
    if w.enc._pulsePeriod_us > 0 then
      (360000000 / 4096) /
        ((stdUtils.avgULong w.enc._pulsePeriod_us_arr AMT203_PULSEWIDTH_ARR_CNT : Nat) : α)
    else 0
  tmpOmega * (if w.enc._direction = ROTATE_BACKWARD then -1 else 1)

/-- The function `devMotorControl::GetSpeed_ENC`. -/
def GetSpeed_ENC (w : World α) : α :=
  let tmpOmega : α :=
    if w.enc._pulsePeriod_us > 0 then
      (360000000 / 4096) / ((w.enc._pulsePeriod_us : Nat) : α)
    else 0
  tmpOmega * (if w.enc._direction = ROTATE_BACKWARD then -1 else 1)

/-- The function `devMotorControl::GetSpeed_DAC`. -/
def GetSpeed_DAC (w : World α) : α :=
  ConvertSpeed_RD_degs w.mot.Xfer
    (((halTLC5615.GetLevel_abs w.mot : Nat) : α) * MOTOR_SPD_INCREMENT_FLT *
      (if w.mot._reversing then -1 else 1))

/-- The function `devMotorControl::GetPosition`. -/
def GetPosition (w : World α) : α :=
  ((w.enc._position : Int) : α) * MOTOR_POS_INCREMENT_DEG

/-- The function `devMotorControl::SetPosition`: the new state and the returned
position in degrees. -/
def SetPosition (newPos : α) (w : World α) : World α × α :=
  let w1 : World α :=
    if GetSpeed_DAC w ≠ 0 then w
    else if w.enc._ZeroOffsetIsKnown then
      let realPosition : Int :=
        SetOffsetWithinLimit ((w.enc._position - w.enc._zero_offset).tmod AMT203_QUAD_PPR)
      let _position : Int := roundf (newPos / MOTOR_POS_INCREMENT_DEG)
      let _zero_offset : Int :=
        SetOffsetWithinLimit ((_position - realPosition).tmod AMT203_QUAD_PPR)
      { w with enc := { w.enc with _position := _position, _zero_offset := _zero_offset } }
    else
      { w with enc :=
        { w.enc with _position := truncToInt (newPos / MOTOR_POS_INCREMENT_DEG) } }
  (w1, GetPosition w1)

/-- The function `devMotorControl::GetRealPosition`. -/
def GetRealPosition (w : World α) : α :=
  let tmpPos : Int :=
    if w.enc._ZeroOffsetIsKnown then w.enc._position - w.enc._zero_offset
    else UNKNOWNPOS
  (tmpPos : α) * MOTOR_POS_INCREMENT_DEG

/-- The function `devMotorControl::GetZeroOffset`. -/
def GetZeroOffset (w : World α) : α :=
  let tmpPos : Int :=
    if w.enc._ZeroOffsetIsKnown then w.enc._zero_offset else UNKNOWNPOS
  (tmpPos : α) * MOTOR_POS_INCREMENT_DEG

end Field

/-- The edges that the three `debounceInput` calls at the start of
`TimerInterruptCallback` report for the sampled pin levels. -/
def pinA_edge (e : EncoderState) (pinA : Int) : Int :=
  (stdUtils.debounceInput e.debounceInput_A pinA AMT203_DEBOUNCE_CNT).2

def pinB_edge (e : EncoderState) (pinB : Int) : Int :=
  (stdUtils.debounceInput e.debounceInput_B pinB AMT203_DEBOUNCE_CNT).2

def pinX_edge (e : EncoderState) (pinX : Int) : Int :=
  (stdUtils.debounceInput e.debounceInput_X pinX AMT203_DEBOUNCE_CNT).2

/-- The A/B part of `TimerInterruptCallback`, entered when `pinA_edge` or
`pinB_edge` is non-zero; `e` already holds the updated debounce channels. -/
def quadratureStep (pinA_edge pinB_edge : Int) (micros : Nat) (e : EncoderState) :
    EncoderState :=
  let _now_us := micros % ULONG_RANGE
  let A := e.debounceInput_A.CurrentState
  let B := e.debounceInput_B.CurrentState
  let dir1 : Int :=
    if (pinA_edge ≠ 0 ∧ A = B) ∨ (pinB_edge ≠ 0 ∧ A ≠ B) then ROTATE_BACKWARD
    else e._direction
  let dir2 : Int :=
    if (pinA_edge ≠ 0 ∧ A ≠ B) ∨ (pinB_edge ≠ 0 ∧ A = B) then ROTATE_FORWARD
    else dir1
  let _pulsePeriod_us := (_now_us + ULONG_RANGE - e._lastEdge_us) % ULONG_RANGE
  { e with
    _now_us := _now_us
    _direction := dir2
    _pulsePeriod_us := _pulsePeriod_us
    _pulsePeriod_us_arr := e._pulsePeriod_us_arr.set e._pulsePeriod_us_cnt _pulsePeriod_us
    _pulsePeriod_us_cnt := (e._pulsePeriod_us_cnt + 1) % AMT203_PULSEWIDTH_ARR_CNT
    _lastEdge_us := _now_us
    _position := e._position + dir2 }

/-- The index part of `TimerInterruptCallback`, entered when `pinX_edge` is
non-zero; `e` already holds the updated debounce channels and position. -/
def indexStep (e : EncoderState) : EncoderState :=
  let zo : Int :=
    if e.debounceInput_X.CurrentState = HIGH then e._position.tmod AMT203_QUAD_PPR
    else e._zero_offset
  { e with
    _ZeroOffsetIsKnown := true
    _zero_offset := SetOffsetWithinLimit zo }

/-- The function `devMotorControl::TimerInterruptCallback` on the encoder
variables, for the sampled levels of the pins `_A`, `_B`, `_X` and the reading
of `micros()`. -/
def TimerInterruptCallback (pinA pinB pinX : Int) (micros : Nat) (e : EncoderState) :
    EncoderState :=
  let a := stdUtils.debounceInput e.debounceInput_A pinA AMT203_DEBOUNCE_CNT
  let b := stdUtils.debounceInput e.debounceInput_B pinB AMT203_DEBOUNCE_CNT
  let x := stdUtils.debounceInput e.debounceInput_X pinX AMT203_DEBOUNCE_CNT
  let e1 : EncoderState :=
    { e with debounceInput_A := a.1, debounceInput_B := b.1, debounceInput_X := x.1 }
  let e2 : EncoderState :=
    if a.2 ≠ 0 ∨ b.2 ≠ 0 then quadratureStep a.2 b.2 micros e1 else e1
  if x.2 ≠ 0 then indexStep e2 else e2

/-- The sampling tick as a step of the whole state: it writes the encoder
variables only. -/
def samplingTick {α : Type} (pinA pinB pinX : Int) (micros : Nat) (w : World α) :
    World α :=
  { w with enc := TimerInterruptCallback pinA pinB pinX micros w.enc }

end devMotorControl

/-! ## appPidControl.cpp -/

namespace appPidControl

section Field

variable {α : Type} [LinearOrderedField α] [FloorRing α]

/-- The function `appPidControl::Start`. -/
def Start (clk : Clock) (w : World α) : World α :=
  { w with
    pidTimer := timerUtils.msTimerStart w.pidTimer clk.millis
      ((truncToInt (w.pidSettings.Period * 1000)).toNat % ULONG_RANGE)
    pidSettings := { w.pidSettings with
      startPos := devMotorControl.GetPosition w
      startTime := clk.millis % ULONG_RANGE
      aiming := true
      Speed := devMotorControl.GetSpeed_DAC w
      intError := 0
      derError := 0
      error := 0
      Enable := true }
    pidUpdatePosTimer := timerUtils.msTimerStart w.pidUpdatePosTimer clk.millis 500
    SystemStatus :=
      stdUtils.ClearStatus (stdUtils.SetStatus w.SystemStatus statusPID_BUSY) statusPID_DONE }

/-- The function `appPidControl::Stop`. -/
def Stop (clk : Clock) (w : World α) : World α :=
  let w1 : World α :=
    { w with
      pidSettings := { w.pidSettings with
        aiming := false
        Speed := devMotorControl.GetSpeed_DAC w
        Enable := false }
      SystemStatus :=
        stdUtils.ClearStatus (stdUtils.ClearStatus w.SystemStatus statusPID_BUSY)
          statusPID_DONE }
  devMotorControl.Stop clk w1

/-- The function `appPidControl::GotoPos`: the new state and the returned
flag. -/
def GotoPos (clk : Clock) (newPos : α) (w : World α) : World α × Bool :=
  if w.ControlState ≠ stateIDLE then (w, false)
  else
    let r := stdUtils.setFloatParam w.pidSettings.Target newPos
      MOTOR_POS_WRAP_MIN MOTOR_POS_WRAP_MAX
    let w1 : World α := { w with pidSettings := { w.pidSettings with Target := r.1 } }
    if r.2 ≠ 0 then (w1, false)
    else
      (Start clk { w1 with pidSettings := { w1.pidSettings with Target := newPos } }, true)

/-- The arrival branch of `PID_Process`: the statements executed when the
position error is below one pulse and the encoder speed is at most `MinSpeed`;
`w` already holds the refreshed `Position` and `TimeToTarget`. -/
def PID_arrived (clk : Clock) (w : World α) : World α × Bool :=
  let w1 := devMotorControl.Stop clk w
  let w2 : World α :=
    if w1.pidSettings.aiming then
      { w1 with
        pidUpdatePosTimer := timerUtils.msTimerStop w1.pidUpdatePosTimer
        SystemStatus :=
          stdUtils.SetStatus (stdUtils.ClearStatus w1.SystemStatus statusPID_BUSY)
            statusPID_DONE
        pidSettings := { w1.pidSettings with aiming := false, Enable := false } }
    else w1
  let w3 : World α := { w2 with pidSettings := { w2.pidSettings with intError := 0 } }
  (w3, w3.pidSettings.Enable)

/-- The speed output of `PID_Process` for a position error `posError`: the new
`pidSettings` (with `error`, `intError`, `derError`, `aiming` and `Speed`
updated) after the PID sum, the acceleration limit and the speed limit. -/
def PID_output (sqrtf : α → α) (posError : α) (p : ST_PID α) : ST_PID α :=
  let spdBound := sqrtf (2 * p.MaxAccel * Arduino.abs posError) * sign_f posError
  let spdError := spdBound - p.Speed
  let intError := p.intError + spdError * p.Period
  let derError := (spdError - p.error) / p.Period
  let spdOutput := p.Kp * spdError + p.Ki * intError + p.Kd * derError + p.bias
  let thisAccel := (spdOutput - p.Speed) / p.Period
  let spdOutput1 :=
    if Arduino.abs thisAccel > p.MaxAccel then
      p.Speed + sign_f thisAccel * p.MaxAccel * p.Period
    else spdOutput
  let spdOutput2 :=
    if Arduino.abs spdOutput1 > p.MaxSpeed then sign_f spdOutput1 * p.MaxSpeed
    else spdOutput1
  { p with
    intError := intError
    derError := derError
    error := spdError
    aiming := true
    Speed := spdOutput2 }

/-- The part of `PID_Process` after the arrival test: the period timer gate,
the recomputation of the speed and the hand-over to the actuator. -/
def PID_recompute (sqrtf : α → α) (clk : Clock) (posError : α) (w : World α) :
    World α × Bool :=
  let poll := timerUtils.msTimerPoll w.pidTimer clk.millis
  let w1 : World α := { w with pidTimer := poll.1 }
  if !poll.2 then (w1, w1.pidSettings.Enable)
  else
    let w2 : World α := { w1 with pidTimer := (timerUtils.msTimerReset w1.pidTimer clk.millis).1 }
    let upd := timerUtils.msTimerPoll w2.pidUpdatePosTimer clk.millis
    let w3 : World α :=
      { w2 with pidUpdatePosTimer :=
        if upd.2 then (timerUtils.msTimerReset upd.1 clk.millis).1 else upd.1 }
    let w4 : World α := { w3 with pidSettings := PID_output sqrtf posError w3.pidSettings }
    let w5 := (devMotorControl.SetSpeed_degs w4.pidSettings.Speed w4).1
    (w5, w5.pidSettings.Enable)

/-- The function `appPidControl::PID_Process`, for the library function `sqrtf`
and the clock readings of the call: the new state and the returned flag. -/
def PID_Process (sqrtf : α → α) (clk : Clock) (w : World α) : World α × Bool :=
  if !w.pidSettings.Enable then (w, false)
  else
    let w1 : World α :=
      { w with pidSettings := { w.pidSettings with
          Position := devMotorControl.GetPosition w
          TimeToTarget :=
            (((clk.millis % ULONG_RANGE + ULONG_RANGE - w.pidSettings.startTime)
              % ULONG_RANGE : Nat) : α) / 1000 } }
    let posError := w1.pidSettings.Target - w1.pidSettings.Position
    let encSpeed := devMotorControl.GetSpeed_ENC w1
    if Arduino.abs posError < MOTOR_POS_INCREMENT_DEG then
      if Arduino.abs encSpeed ≤ w1.pidSettings.MinSpeed then PID_arrived clk w1
      else PID_recompute sqrtf clk posError w1
    else PID_recompute sqrtf clk posError w1

/-- The function `appPidControl::ControlStateHandler`, for the level read on the
index pin by `IsAtRealZero`. -/
def ControlStateHandler (sqrtf : α → α) (clk : Clock) (pinX : Int) (w : World α) :
    World α × Bool :=
  let w1 : World α :=
    if w.ControlState = stateCAL_SEARCH then
      let offset := devMotorControl.GetZeroOffset w
      if Arduino.abs offset < 361 then
        { w with
          pidSettings := { w.pidSettings with Target := offset }
          ControlState := stateCAL_GOTO_0 }
      else w
    else if w.ControlState = stateCAL_GOTO_0 then
      if stdUtils.GetStatus w.SystemStatus statusPID_DONE ∧
          ¬ stdUtils.GetStatus w.SystemStatus statusPID_BUSY then
        if pinX = HIGH then
          let w2 := (devMotorControl.SetPosition 0 w).1
          { w2 with
            SystemStatus := stdUtils.ClearStatus w2.SystemStatus statusCALIB_BUSY
            ControlState := stateIDLE }
        else
          Start clk { w with
            pidSettings := { w.pidSettings with Target := 360 }
            ControlState := stateCAL_SEARCH }
      else w
    else w
  PID_Process sqrtf clk w1

/-- The function `appPidControl::StartCalibration`. -/
def StartCalibration (clk : Clock) (w : World α) : World α :=
  Start clk { w with
    ControlState := stateCAL_SEARCH
    SystemStatus := stdUtils.SetStatus w.SystemStatus statusCALIB_BUSY
    pidSettings := { w.pidSettings with Target := 360 } }

end Field

end appPidControl

/-! ## Predicates and runs used to state the properties -/

section Field

variable {α : Type} [LinearOrderedField α] [FloorRing α]

/-- The arrival test of the controller tick: the position error is below one
pulse in degrees and the encoder speed is at most `MinSpeed` in magnitude. -/
def arrivalTest (w : World α) : Prop :=
  |w.pidSettings.Target - devMotorControl.GetPosition w| < 360 / 4096 ∧
  |devMotorControl.GetSpeed_ENC w| ≤ w.pidSettings.MinSpeed

/-- The control-period timer reports expiry when polled at the given clock
reading, so a tick that is past the arrival test recomputes the output. -/
def periodElapsed (clk : Clock) (w : World α) : Prop :=
  (timerUtils.msTimerPoll w.pidTimer clk.millis).2 = true

/-- What can happen after a controller tick without a new `Start`: a further
controller tick of the main loop or a sampling tick of the timer interrupt. -/
inductive Event where
  | tick (clk : Clock)
  | sample (pinA pinB pinX : Int) (micros : Nat)

/-- Runs one event on the state. -/
def stepEvent (sqrtf : α → α) (w : World α) : Event → World α
  | Event.tick clk => (appPidControl.PID_Process sqrtf clk w).1
  | Event.sample pinA pinB pinX micros => devMotorControl.samplingTick pinA pinB pinX micros w

/-- Runs a sequence of events on the state. -/
def runEvents (sqrtf : α → α) (w : World α) (evs : List Event) : World α :=
  evs.foldl (stepEvent sqrtf) w

end Field

/-! ## Runs of the calibration sequence and of the sampling tick -/

/-- What the firmware executes during a calibration: a pass of the main loop
through `ControlStateHandler` (with the clock readings and the level that
`IsAtRealZero` reads on the index pin) or a sampling tick of the timer
interrupt. -/
inductive CalEvent where
  | handler (clk : Clock) (pinX : Int)
  | sample (pinA pinB pinX : Int) (micros : Nat)

section Field

variable {α : Type} [LinearOrderedField α] [FloorRing α]

/-- Runs one calibration event on the state. -/
def stepCal (sqrtf : α → α) (w : World α) : CalEvent → World α
  | CalEvent.handler clk pinX => (appPidControl.ControlStateHandler sqrtf clk pinX w).1
  | CalEvent.sample pinA pinB pinX micros =>
    devMotorControl.samplingTick pinA pinB pinX micros w

/-- Runs a sequence of calibration events on the state. -/
def runCal (sqrtf : α → α) (w : World α) (evs : List CalEvent) : World α :=
  evs.foldl (stepCal sqrtf) w

end Field

/-- One sample of the timer interrupt: the levels read on the pins `_A`, `_B`,
`_X` and the reading of `micros()`. -/
structure PinSample where
  pinA : Int
  pinB : Int
  pinX : Int
  micros : Nat
deriving DecidableEq, Repr

/-- Runs `TimerInterruptCallback` once per sample, in order. -/
def sampleRun (e : EncoderState) (samples : List PinSample) : EncoderState :=
  samples.foldl
    (fun e s => devMotorControl.TimerInterruptCallback s.pinA s.pinB s.pinX s.micros e) e

/-- The samples of one encoder cycle with phase A leading phase B, two samples
per level (the debounce threshold): A rises, B rises, A falls, B falls. The
index level and the clock reading of each sample are given by `x` and `t`. -/
def cycleALeads (x : Nat → Int) (t : Nat → Nat) : List PinSample :=
  [⟨HIGH, LOW, x 0, t 0⟩, ⟨HIGH, LOW, x 1, t 1⟩, ⟨HIGH, HIGH, x 2, t 2⟩,
    ⟨HIGH, HIGH, x 3, t 3⟩, ⟨LOW, HIGH, x 4, t 4⟩, ⟨LOW, HIGH, x 5, t 5⟩,
    ⟨LOW, LOW, x 6, t 6⟩, ⟨LOW, LOW, x 7, t 7⟩]

/-- The samples of one encoder cycle with phase B leading phase A, two samples
per level: B rises, A rises, B falls, A falls. -/
def cycleBLeads (x : Nat → Int) (t : Nat → Nat) : List PinSample :=
  [⟨LOW, HIGH, x 0, t 0⟩, ⟨LOW, HIGH, x 1, t 1⟩, ⟨HIGH, HIGH, x 2, t 2⟩,
    ⟨HIGH, HIGH, x 3, t 3⟩, ⟨HIGH, LOW, x 4, t 4⟩, ⟨HIGH, LOW, x 5, t 5⟩,
    ⟨LOW, LOW, x 6, t 6⟩, ⟨LOW, LOW, x 7, t 7⟩]

/-- The invariant of a calibration run: while PID-done is set the controller is
disabled and the DAC level is 0, and in state `stateCAL_GOTO_0` the zero offset
is known. -/
def calInv {α : Type} (w : World α) : Prop :=
  (stdUtils.GetStatus w.SystemStatus statusPID_DONE = true →
    w.pidSettings.Enable = false ∧ w.mot.dacLevel = 0) ∧
  (w.ControlState = stateCAL_GOTO_0 → w.enc._ZeroOffsetIsKnown = true)

/-! ## Concrete states used by the closed examples -/

/-- An encoder state more than one revolution below zero, with one `HIGH`
sample pending on the index channel and the zero offset not yet known. -/
def encBelowZero : EncoderState :=
  { debounceInput_A := ⟨LOW, 0⟩
    debounceInput_B := ⟨LOW, 0⟩
    debounceInput_X := ⟨LOW, 1⟩
    _direction := ROTATE_BACKWARD
    _zero_offset := 0
    _position := -5000
    _ZeroOffsetIsKnown := false
    _lastEdge_us := 0
    _now_us := 0
    _pulsePeriod_us := 2400
    _pulsePeriod_us_arr := List.replicate 20 2400
    _pulsePeriod_us_cnt := 0 }

/-- An encoder state with one `HIGH` sample pending on phase A while phase B is
stable `LOW`: the next `HIGH` sample on A commits a rising edge. -/
def encPendingA : EncoderState :=
  { encBelowZero with debounceInput_A := ⟨LOW, 1⟩, debounceInput_X := ⟨LOW, 0⟩ }

/-- A square root on `ℚ` for the closed examples: exact on squares of rationals,
which are the only arguments the examples evaluate it at. -/
def sqrtQ (q : ℚ) : ℚ :=
  (Nat.sqrt q.num.toNat : ℚ) / (Nat.sqrt q.den : ℚ)

/-- The default settings `pidControlDefault` of `appPidControl.cpp`. -/
def pidControlDefault : ST_PID ℚ :=
  { Kp := 80, Ki := 4 / 10, Kd := 2, Period := 1 / 100, bias := 0, Target := 0,
    Position := 0, MaxAccel := 9, MaxSpeed := 36, MinSpeed := 3 / 2, Speed := 0,
    error := 0, intError := 0, derError := 0, Enable := false, startPos := 0,
    startTime := 0, aiming := false, TimeToTarget := 0 }

/-- An encoder at position 0 whose last pulse period of 60000 µs corresponds to
about 1.46 deg/s in the forward direction. -/
def encSlow : EncoderState :=
  { debounceInput_A := ⟨LOW, 0⟩
    debounceInput_B := ⟨LOW, 0⟩
    debounceInput_X := ⟨LOW, 0⟩
    _direction := ROTATE_FORWARD
    _zero_offset := 0
    _position := 0
    _ZeroOffsetIsKnown := false
    _lastEdge_us := 0
    _now_us := 0
    _pulsePeriod_us := 60000
    _pulsePeriod_us_arr := List.replicate 20 60000
    _pulsePeriod_us_cnt := 0 }

/-- The actuator driving forward at DAC level 71 (about 1.5 deg/s). -/
def motSlow : MotorState ℚ :=
  { _reversing := false, _enabled := true, Xfer := XferDefault,
    pin_EN := true, pin_REV := false, dacLevel := 71 }

/-- A control-period timer of 10 ms that expires at 10 ms. -/
def timerDue : ST_MS_TIMER :=
  { msExpire := 10, msPeriod := 10, Enabled := true, Expired := false }

/-- The clock reading 10 ms (10000 µs) after start. -/
def clk10 : Clock := { millis := 10, micros := 10000 }

/-- The clock reading 20 ms (20000 µs) after start. -/
def clk20 : Clock := { millis := 20, micros := 20000 }

/-- The controller aiming at target 0 with a stored command of 1.5 deg/s while
the shaft is at position 0 and turns at about 1.46 deg/s: the arrival test
holds. -/
def worldArriving : World ℚ :=
  { enc := encSlow
    mot := motSlow
    SystemStatus := 0x0B
    pidSettings := { pidControlDefault with Speed := 3 / 2, Enable := true, aiming := true }
    ControlState := stateIDLE
    pidTimer := timerDue
    pidUpdatePosTimer := { msExpire := 500, msPeriod := 500, Enabled := true, Expired := false } }

/-- The controller aiming at target 2 degrees from position 0 with a stored
command of 36 deg/s and all limits at their defaults. -/
def worldFast : World ℚ :=
  { worldArriving with
    pidSettings := { pidControlDefault with
      Target := 2, Speed := 36, Enable := true, aiming := true } }

/-- The state `worldFast` after the speed limit has been lowered to 10 deg/s
through the settings interface. -/
def worldFastLimited : World ℚ :=
  { worldFast with pidSettings := { worldFast.pidSettings with MaxSpeed := 10 } }

/-- The actuator at level 0 while the encoder still reports pulses: the shaft
coasts at about 1.46 deg/s with no speed commanded. -/
def worldCoasting : World ℚ :=
  { worldArriving with
    mot := { motSlow with _enabled := false, pin_EN := false, dacLevel := 0 }
    SystemStatus := 0x01
    pidSettings := pidControlDefault }

/-- The state `worldCoasting` one full turn above zero with the zero offset
known to be 0. -/
def worldOneTurn : World ℚ :=
  { worldCoasting with
    enc := { encSlow with _position := 4096, _ZeroOffsetIsKnown := true } }

/-- The state `worldCoasting` with the zero offset known to be 0 and the shaft
11377 pulses (about 2.78 turns) below zero. -/
def worldFarBelow : World ℚ :=
  { worldCoasting with
    enc := { encSlow with _position := -11377, _ZeroOffsetIsKnown := true } }

/-- An encoder whose index channel is stable `HIGH` with one `LOW` sample
pending, while the zero offset is still marked unknown (the flag as `Init`
leaves it when the index pin reads `LOW` at that moment). -/
def encIndexHigh : EncoderState :=
  { encSlow with debounceInput_X := ⟨HIGH, 1⟩ }

/-- The idle controller with the shaft at rest a quarter turn (1024 pulses,
90 degrees) above zero. -/
def worldQuarterTurn : World ℚ :=
  { worldCoasting with
    enc := { encSlow with _position := 1024, _pulsePeriod_us := 0 } }

/-- A calibration run in which two sampling ticks see the index line high (a
rising edge on the index) and the next main-loop pass retargets the controller
to the zero offset, where it arrives at once. -/
def calRunIndexSeen : List CalEvent :=
  [CalEvent.sample LOW LOW HIGH 10200, CalEvent.sample LOW LOW HIGH 10400,
    CalEvent.handler clk20 HIGH]

namespace appPidControl

/-- The local `spdBound` of `PID_Process` (the deceleration-aware speed bound):
`sqrtf(2*pidSettings.MaxAccel*abs(posError)) * sign_f(posError)`. -/
def PID_spdBound {α : Type} [LinearOrderedField α] (sqrtf : α → α)
    (MaxAccel posError : α) : α :=
  sqrtf (2 * MaxAccel * Arduino.abs posError) * sign_f posError

end appPidControl

namespace stdUtils

/-- The console overload `stdUtils::setFloatParam(name, paramStr, valueStr,
param, min_Limit, max_Limit)` for a matching name and a value string, where
`tmpFloat` is the number `FloatMathStr` computes from the value string: the new
value of `*param` and the return code. -/
def setFloatParamStr {α : Type} [LinearOrderedField α]
    (param tmpFloat min_Limit max_Limit : α) : α × Int :=
  if tmpFloat < min_Limit ∨ tmpFloat > max_Limit then (param, -3)
  else (tmpFloat, 0)

end stdUtils

namespace appPidControl

/-- The two speed-limit commands of the console menu `appPidControl::menuCmd`. -/
inductive MenuParam where
  | MaxSpd
  | MinSpd

/-- The part of `appPidControl::menuCmd` for the commands `MaxSpd` and `MinSpd`
given with a value. -/
def menuCmd {α : Type} [LinearOrderedField α] :
    MenuParam → α → World α → World α
  | MenuParam.MaxSpd, value, w =>
    { w with pidSettings := { w.pidSettings with
        MaxSpeed := (stdUtils.setFloatParamStr w.pidSettings.MaxSpeed value 0
          MOTOR_SPD_ABS_MAX).1 } }
  | MenuParam.MinSpd, value, w =>
    { w with pidSettings := { w.pidSettings with
        MinSpeed := (stdUtils.setFloatParamStr w.pidSettings.MinSpeed value
          MOTOR_SPD_ABS_MIN w.pidSettings.MaxSpeed).1 } }

end appPidControl

/-! ## devComms.cpp -/

def PARAM_READABLE : Nat := 0x01
def PARAM_WRITABLE : Nat := 0x02

/-- The struct `ST_SETTING_ITEM` without its name and default strings: the
access flags and the `Min` and `Max` columns, `none` for `NULL`. -/
structure ST_SETTING_ITEM (α : Type) where
  rdwr : Nat
  Min : Option α
  Max : Option α

namespace devComms

section Field

variable {α : Type} [LinearOrderedField α] [FloorRing α]

/-- The table `SettingsArray` (without its terminating `NULL` row), rows 0 to
21 in the order of the source. -/
def SettingsArray : List (ST_SETTING_ITEM α) :=
  [ ⟨PARAM_READABLE, none, none⟩,
    ⟨PARAM_READABLE ||| PARAM_WRITABLE, some MOTOR_POS_WRAP_MIN, some MOTOR_POS_WRAP_MAX⟩,
    ⟨PARAM_READABLE ||| PARAM_WRITABLE, some MOTOR_POS_WRAP_MIN, some MOTOR_POS_WRAP_MAX⟩,
    ⟨PARAM_READABLE ||| PARAM_WRITABLE, some 2, some MOTOR_SPD_ABS_MAX⟩,
    ⟨PARAM_READABLE ||| PARAM_WRITABLE, some MOTOR_SPD_ABS_MIN, some 5⟩,
    ⟨PARAM_READABLE ||| PARAM_WRITABLE, some 36, some 1⟩,
    ⟨PARAM_READABLE ||| PARAM_WRITABLE, some 0, some 1000⟩,
    ⟨PARAM_READABLE ||| PARAM_WRITABLE, some 0, some 10⟩,
    ⟨PARAM_READABLE ||| PARAM_WRITABLE, some 0, some 100⟩,
    ⟨PARAM_READABLE ||| PARAM_WRITABLE, some (1 / 100), some 1⟩,
    ⟨PARAM_READABLE ||| PARAM_WRITABLE, some 0, some 10⟩,
    ⟨PARAM_READABLE, none, none⟩,
    ⟨PARAM_READABLE, none, none⟩,
    ⟨PARAM_READABLE, some (-360), some 360⟩,
    ⟨PARAM_READABLE, none, none⟩,
    ⟨PARAM_READABLE, none, none⟩,
    ⟨PARAM_READABLE, none, none⟩,
    ⟨PARAM_READABLE, none, none⟩,
    ⟨PARAM_READABLE ||| PARAM_WRITABLE, some (1 / 2), some 10⟩,
    ⟨PARAM_READABLE ||| PARAM_WRITABLE, some (1 / 2), some 10⟩,
    ⟨PARAM_READABLE ||| PARAM_WRITABLE, some (1 / 2), some 10⟩,
    ⟨PARAM_READABLE ||| PARAM_WRITABLE, some (1 / 2), some 10⟩ ]

/-- The checks of `devComms::isWrSettingsValid` on one parameter of a `seta`
message (`absolute = true`): the index is inside the table, the parameter is
writable, and the value `val` that `FloatMathStr` computes from the value
string is not below `Min` and not above `Max`. -/
def isWrSettingValid (paramIndex : Nat) (val : α) : Bool :=
  if paramIndex + 1 ≥ 23 then false
  else
    match (SettingsArray : List (ST_SETTING_ITEM α)).get? paramIndex with
    | none => false
    | some item =>
      if item.rdwr &&& PARAM_WRITABLE ≠ PARAM_WRITABLE then false
      else if (match item.Min with | some m => decide (val < m) | none => false) then false
      else if (match item.Max with | some m => decide (val > m) | none => false) then false
      else true

/-- The function `devComms::isWrSettingsValid` on the parameter-value pairs of
a `seta` message: every pair passes the checks. -/
def isWrSettingsValid (params : List (Nat × α)) : Bool :=
  params.all (fun p => isWrSettingValid p.1 p.2)

/-- The function `devComms::setParamValueStr`: the state after the write. -/
def setParamValueStr (clk : Clock) (paramIndex : Nat) (finalValue : α) (w : World α) :
    World α :=
  match paramIndex with
  | 1 => (devMotorControl.SetPosition finalValue w).1
  | 2 => (appPidControl.GotoPos clk finalValue w).1
  | 3 => { w with pidSettings := { w.pidSettings with MaxSpeed := finalValue } }
  | 4 => { w with pidSettings := { w.pidSettings with MinSpeed := finalValue } }
  | 5 => { w with pidSettings := { w.pidSettings with MaxAccel := finalValue } }
  | 6 => { w with pidSettings := { w.pidSettings with Kp := finalValue } }
  | 7 => { w with pidSettings := { w.pidSettings with Ki := finalValue } }
  | 8 => { w with pidSettings := { w.pidSettings with Kd := finalValue } }
  | 9 => { w with pidSettings := { w.pidSettings with Period := finalValue } }
  | 10 => { w with pidSettings := { w.pidSettings with bias := finalValue } }
  | 18 => { w with mot := { w.mot with
      Xfer := { w.mot.Xfer with Pos := { w.mot.Xfer.Pos with M := finalValue } } } }
  | 19 => { w with mot := { w.mot with
      Xfer := { w.mot.Xfer with Pos := { w.mot.Xfer.Pos with C := finalValue } } } }
  | 20 => { w with mot := { w.mot with
      Xfer := { w.mot.Xfer with Neg := { w.mot.Xfer.Neg with M := finalValue } } } }
  | 21 => { w with mot := { w.mot with
      Xfer := { w.mot.Xfer with Neg := { w.mot.Xfer.Neg with C := finalValue } } } }
  | _ => w

/-- The function `devComms::writeSetting` for a `seta` message: when all pairs
are valid, each value is written in turn. -/
def writeSetting (clk : Clock) (params : List (Nat × α)) (w : World α) : World α :=
  if !isWrSettingsValid params then w
  else params.foldl (fun v p => setParamValueStr clk p.1 p.2 v) w

end Field

end devComms

/-- A calibration sweep in progress: started from the shaft at rest at 90
degrees, the index has been seen at pulse 1400 and the shaft is now at pulse
1500. -/
def worldSearching : World ℚ :=
  { appPidControl.StartCalibration clk10 worldQuarterTurn with
    enc := { encSlow with _position := 1500, _zero_offset := 1400,
                          _ZeroOffsetIsKnown := true } }

/-- The calibration state `stateCAL_GOTO_0` after the controller has arrived at
the zero offset of 1400 pulses: the shaft is at rest there, PID-done and
calibration-busy are set and the controller is disabled. -/
def worldAtOffset : World ℚ :=
  { worldCoasting with
    enc := { encSlow with _position := 1400, _zero_offset := 1400,
                          _ZeroOffsetIsKnown := true, _pulsePeriod_us := 0 }
    SystemStatus := 0x31
    ControlState := stateCAL_GOTO_0
    pidSettings := { pidControlDefault with Target := 1400 * 360 / 4096 } }

/-- The calibration state `stateCAL_GOTO_0` entered after the sweep had already
arrived at its 360 degree target: the shaft is at rest at pulse 4096, the index
was seen there (zero offset 0), PID-done and calibration-busy are set and the
controller is disabled. -/
def worldSweepDone : World ℚ :=
  { worldCoasting with
    enc := { encSlow with _position := 4096, _zero_offset := 0,
                          _ZeroOffsetIsKnown := true, _pulsePeriod_us := 0 }
    SystemStatus := 0x31
    ControlState := stateCAL_GOTO_0
    pidSettings := { pidControlDefault with Target := 0 } }

/-- The controller at its default settings aiming at target 90 degrees from the
shaft at rest at position 0, with the control period due, over any field. -/
def worldTarget90 {α : Type} [LinearOrderedField α] : World α :=
  { enc := { encSlow with _direction := ROTATE_NONE, _pulsePeriod_us := 0 }
    mot := { _reversing := false, _enabled := false, Xfer := XferDefault,
             pin_EN := false, pin_REV := false, dacLevel := 0 }
    SystemStatus := 0x09
    pidSettings :=
      { Kp := 80, Ki := 4 / 10, Kd := 2, Period := 1 / 100, bias := 0, Target := 90,
        Position := 0, MaxAccel := 9, MaxSpeed := 36, MinSpeed := 3 / 2, Speed := 0,
        error := 0, intError := 0, derError := 0, Enable := true, startPos := 0,
        startTime := 0, aiming := true, TimeToTarget := 0 }
    ControlState := stateIDLE
    pidTimer := timerDue
    pidUpdatePosTimer := { msExpire := 500, msPeriod := 500, Enabled := true, Expired := false } }

/-- A control-period timer of 10 ms that expires at 30 ms. -/
def timerPending : ST_MS_TIMER :=
  { msExpire := 30, msPeriod := 10, Enabled := true, Expired := false }

/-- The state `worldFast` between two control periods: the period timer expires
only at 30 ms. -/
def worldFastPending : World ℚ :=
  { worldFast with pidTimer := timerPending }

/-! ## Initialisation and the operations of the controller interface -/

section Field

variable {α : Type} [LinearOrderedField α] [FloorRing α]

/-- The global variables before `Init`: the zero-initialised static storage of
the C program (`SystemStatus`, `ControlState`, the timers, the settings and the
tracker variables are all 0 or false). -/
def powerOn : World α :=
  { enc :=
      { debounceInput_A := ⟨0, 0⟩, debounceInput_B := ⟨0, 0⟩, debounceInput_X := ⟨0, 0⟩
        _direction := 0, _zero_offset := 0, _position := 0, _ZeroOffsetIsKnown := false
        _lastEdge_us := 0, _now_us := 0, _pulsePeriod_us := 0
        _pulsePeriod_us_arr := List.replicate AMT203_PULSEWIDTH_ARR_CNT 0
        _pulsePeriod_us_cnt := 0 }
    mot := { _reversing := false, _enabled := false
             Xfer := { Pos := { M := 0, C := 0 }, Neg := { M := 0, C := 0 } }
             pin_EN := false, pin_REV := false, dacLevel := 0 }
    SystemStatus := 0
    pidSettings :=
      { Kp := 0, Ki := 0, Kd := 0, Period := 0, bias := 0, Target := 0, Position := 0,
        MaxAccel := 0, MaxSpeed := 0, MinSpeed := 0, Speed := 0, error := 0,
        intError := 0, derError := 0, Enable := false, startPos := 0, startTime := 0,
        aiming := false, TimeToTarget := 0 }
    ControlState := 0
    pidTimer := { msExpire := 0, msPeriod := 0, Enabled := false, Expired := false }
    pidUpdatePosTimer := { msExpire := 0, msPeriod := 0, Enabled := false, Expired := false } }

/-- The function `devMotorControl::Init` (first call, DAC initialised): the
outputs are switched off, the debounce channels and the transfer coefficients
are loaded, the timer interrupt samples the pins during `delay(100)` (the list
`samples`), then position and offset are zeroed, the known flag is read from the
index pin (`pinX`), and `SetPosition(0.0)` and `Stop()` are called. -/
def devMotorControl.Init (samples : List PinSample) (pinX : Int) (clk : Clock)
    (w : World α) : World α :=
  let w1 : World α :=
    { w with
      SystemStatus :=
        stdUtils.ClearStatus (stdUtils.ClearStatus w.SystemStatus statusMOVING)
          statusDIRECTION
      mot := { w.mot with
        _enabled := false, pin_EN := false, _reversing := false, pin_REV := false,
        Xfer := XferDefault }
      enc := { w.enc with
        debounceInput_A := ⟨LOW, 0⟩, debounceInput_B := ⟨LOW, 0⟩,
        debounceInput_X := ⟨LOW, 0⟩ } }
  let w2 : World α := { w1 with enc := sampleRun w1.enc samples }
  let w3 : World α :=
    { w2 with enc := { w2.enc with
        _position := 0, _zero_offset := 0,
        _ZeroOffsetIsKnown := if pinX = HIGH then true else false } }
  devMotorControl.Stop clk (devMotorControl.SetPosition 0 w3).1

/-- The constant `pidControlDefault` of `appPidControl.cpp`, over any field. -/
def appPidControl.pidControlDefault : ST_PID α :=
  { Kp := 80, Ki := 4 / 10, Kd := 2, Period := 1 / 100, bias := 0, Target := 0,
    Position := 0, MaxAccel := 9, MaxSpeed := MOTOR_SPD_ABS_MAX, MinSpeed := 3 / 2,
    Speed := 0, error := 0, intError := 0, derError := 0, Enable := false, startPos := 0,
    startTime := 0, aiming := false, TimeToTarget := 0 }

/-- The function `appPidControl::Init` (first call). -/
def appPidControl.Init (samples : List PinSample) (pinX : Int) (clk : Clock)
    (w : World α) : World α :=
  let w1 : World α :=
    { w with
      pidTimer := timerUtils.msTimerStop w.pidTimer
      pidUpdatePosTimer := timerUtils.msTimerStop w.pidUpdatePosTimer
      pidSettings := { (appPidControl.pidControlDefault : ST_PID α) with Target := 0 } }
  let w2 := devMotorControl.Init samples pinX clk w1
  { w2 with ControlState := stateIDLE }

end Field

/-- The operations that act on the controller after `Init`: the calls of the
controller interface, the main-loop passes and the sampling tick of the timer
interrupt, each with the clock and pin readings it makes. -/
inductive Op (α : Type) where
  | Start (clk : Clock)
  | Stop (clk : Clock)
  | GotoPos (clk : Clock) (newPos : α)
  | StartCalibration (clk : Clock)
  | ControlStateHandler (clk : Clock) (pinX : Int)
  | PID_Process (clk : Clock)
  | TimerInterruptCallback (pinA pinB pinX : Int) (micros : Nat)

section Field

variable {α : Type} [LinearOrderedField α] [FloorRing α]

/-- Runs one operation on the state. -/
def stepOp (sqrtf : α → α) (w : World α) : Op α → World α
  | Op.Start clk => appPidControl.Start clk w
  | Op.Stop clk => appPidControl.Stop clk w
  | Op.GotoPos clk newPos => (appPidControl.GotoPos clk newPos w).1
  | Op.StartCalibration clk => appPidControl.StartCalibration clk w
  | Op.ControlStateHandler clk pinX => (appPidControl.ControlStateHandler sqrtf clk pinX w).1
  | Op.PID_Process clk => (appPidControl.PID_Process sqrtf clk w).1
  | Op.TimerInterruptCallback pinA pinB pinX micros =>
    devMotorControl.samplingTick pinA pinB pinX micros w

/-- Runs a sequence of operations on the state. -/
def runOps (sqrtf : α → α) (w : World α) (ops : List (Op α)) : World α :=
  ops.foldl (stepOp sqrtf) w

/-- The relation between the controller flags and the PID status bits:
`Enable` equals `aiming`, PID-busy is set exactly when `Enable` is true, and
PID-busy and PID-done are not both set. -/
def pidFlagsInv (w : World α) : Prop :=
  w.pidSettings.Enable = w.pidSettings.aiming ∧
  stdUtils.GetStatus w.SystemStatus statusPID_BUSY = w.pidSettings.Enable ∧
  ¬ (stdUtils.GetStatus w.SystemStatus statusPID_BUSY = true ∧
      stdUtils.GetStatus w.SystemStatus statusPID_DONE = true)

/-- The relation between the calibration-busy bit and the calibration state:
the bit is set exactly when the state is not `stateIDLE`. -/
def calBusyInv (w : World α) : Prop :=
  stdUtils.GetStatus w.SystemStatus statusCALIB_BUSY = true ↔ w.ControlState ≠ stateIDLE

end Field

/-! ## The pulse-period history of a run of sampling ticks -/

/-- The periods recorded during a run of sampling ticks, oldest first: one
entry, the new `_pulsePeriod_us`, for every tick that commits an edge on phase A
or phase B. -/
def periodLog : EncoderState → List PinSample → List Nat
  | _, [] => []
  | e, s :: rest =>
    if devMotorControl.pinA_edge e s.pinA ≠ 0 ∨ devMotorControl.pinB_edge e s.pinB ≠ 0 then
      (devMotorControl.TimerInterruptCallback s.pinA s.pinB s.pinX s.micros e)._pulsePeriod_us
        :: periodLog
            (devMotorControl.TimerInterruptCallback s.pinA s.pinB s.pinX s.micros e) rest
    else
      periodLog (devMotorControl.TimerInterruptCallback s.pinA s.pinB s.pinX s.micros e) rest

/-- The history array as a circular buffer of the recorded periods `log`: the
write index is `log.length % 20`, the array has 20 slots, each of the last 20
recorded periods sits in the slot of its index modulo 20, and the slots not yet
written hold 0. -/
def historyInv (log : List Nat) (e : EncoderState) : Prop :=
  e._pulsePeriod_us_cnt = log.length % AMT203_PULSEWIDTH_ARR_CNT ∧
  e._pulsePeriod_us_arr.length = AMT203_PULSEWIDTH_ARR_CNT ∧
  (∀ j : Nat, j < log.length → log.length ≤ j + AMT203_PULSEWIDTH_ARR_CNT →
    e._pulsePeriod_us_arr[j % AMT203_PULSEWIDTH_ARR_CNT]? = log[j]?) ∧
  (∀ k : Nat, k < AMT203_PULSEWIDTH_ARR_CNT → log.length ≤ k →
    e._pulsePeriod_us_arr[k]? = some 0)

/-- The state `worldCoasting` with one `HIGH` sample pending on phase A. -/
def worldPendingA : World ℚ :=
  { worldCoasting with enc := { encSlow with debounceInput_A := ⟨LOW, 1⟩ } }

/-! ## CRC-8 and the serial responses of devComms.cpp -/

def CRC_POLYNOMIAL : Nat := 0x8C

/-- The bytes of a C string literal (without the terminating NUL). -/
def cstr (s : String) : List Nat :=
  s.toList.map Char.toNat

namespace stdUtils

/-- One pass of the bit loop shared by `crc8` and `crc8_str`, on the pair
`(crc, extract)`. -/
def crc8_bit (st : Nat × Nat) : Nat × Nat :=
  let sum := (st.1 ^^^ st.2) &&& 0x01
  let crc := st.1 >>> 1
  (if sum ≠ 0 then crc ^^^ CRC_POLYNOMIAL else crc, st.2 >>> 1)

/-- The function `stdUtils::crc8(crc_start, data)`: eight passes of the bit
loop. -/
def crc8 (crc_start data : Nat) : Nat :=
  (crc8_bit (crc8_bit (crc8_bit (crc8_bit (crc8_bit (crc8_bit (crc8_bit (crc8_bit
    (crc_start, data))))))))).1

/-- The function `stdUtils::crc8_str(crc_start, str)` on the bytes of the string
before its NUL; `crc8_str(str)` is the same with `crc_start = 0`. -/
def crc8_str (crc_start : Nat) (str : List Nat) : Nat :=
  str.foldl crc8 crc_start

end stdUtils

namespace devComms

/-- The string `ResponseMsgHeader`. -/
def ResponseMsgHeader : List Nat := cstr "[ROT-R]"

/-- The string `CmdMsgHeader`. -/
def CmdMsgHeader : List Nat := cstr "[ROT-C]"

/-- The bytes that `serialputc` writes for the characters of a `PrintF` output:
a carriage return is sent before every newline. -/
def serialputc (text : List Nat) : List Nat :=
  text.flatMap (fun c => if c = 10 then [13, 10] else [c])

/-- One upper-case hexadecimal digit, as printed by `%X`. -/
def hexDigit (d : Nat) : Nat :=
  if d < 10 then 48 + d else 55 + d

/-- The conversion `%02X` of a byte. -/
def fmt02X (b : Nat) : List Nat :=
  [hexDigit (b / 16), hexDigit (b % 16)]

/-- The conversion `%03d` of a non-negative number: its decimal digits, padded
with zeros to three characters. -/
def fmt03d (n : Nat) : List Nat :=
  List.replicate (3 - (Nat.toDigits 10 n).length) 48 ++ (Nat.toDigits 10 n).map Char.toNat

/-- The function `devComms::CmdResponseOK`: the CRC it computes and the bytes it
transmits. -/
def CmdResponseOK (msg : List Nat) : Nat × List Nat :=
  let crc := stdUtils.crc8_str 0 ResponseMsgHeader
  let crc := stdUtils.crc8_str crc (cstr "OK")
  let crc := if msg ≠ [] then stdUtils.crc8_str crc (cstr " ") else crc
  let crc := stdUtils.crc8_str crc msg
  (crc, serialputc (ResponseMsgHeader ++ cstr "OK" ++ (if msg = [] then [] else cstr " ")
    ++ msg ++ cstr "|" ++ fmt02X crc ++ cstr "\n"))

/-- The function `devComms::CmdResponseError`: the CRC it computes and the bytes
it transmits in its three `PrintF` calls. -/
def CmdResponseError (errCode : Nat) (msg : List Nat) : Nat × List Nat :=
  let crc := stdUtils.crc8_str 0 ResponseMsgHeader
  let crc := stdUtils.crc8_str crc (cstr "ERR ")
  let crc := stdUtils.crc8_str crc (fmt03d errCode)
  let crc :=
    if msg ≠ [] then stdUtils.crc8_str (stdUtils.crc8_str crc (cstr "")) msg else crc
  (crc, serialputc (ResponseMsgHeader ++ cstr "ERR " ++ fmt03d errCode)
    ++ (if msg ≠ [] then serialputc (cstr " ") else [])
    ++ serialputc (msg ++ cstr "|" ++ fmt02X crc ++ cstr "\n"))

end devComms

/-! ## The receive state machine of devComms.cpp -/

def COMMS_RX_BUFF_LEN : Nat := 80
def msIDLE : Nat := 0
def msMESSAGE : Nat := 7
def msCRC_H : Nat := 8
def msCRC_L : Nat := 9

/-- The struct `ST_COMMS` without the contents of `RxBuff`
(`char RxBuff[COMMS_RX_BUFF_LEN + 1]`): the index into the buffer, the two CRC
bytes and the message state. -/
structure ST_COMMS where
  InPtr : Nat
  CRC_rx : Nat
  CRC_calc : Nat
  MsgState : Nat
deriving DecidableEq, Repr

namespace stdUtils

/-- The function `stdUtils::charToNibble`. -/
def charToNibble (hexDigit : Nat) : Nat :=
  if 48 ≤ hexDigit ∧ hexDigit ≤ 57 then hexDigit - 48
  else if 65 ≤ hexDigit ∧ hexDigit ≤ 70 then 0x0A + (hexDigit - 65)
  else if 97 ≤ hexDigit ∧ hexDigit ≤ 102 then 0x0A + (hexDigit - 97)
  else 0

end stdUtils

/-- Equality of the results of fallible steps is decidable. -/
instance decEqExcept {ε β : Type} [DecidableEq ε] [DecidableEq β] :
    DecidableEq (Except ε β)
  | Except.ok a, Except.ok b =>
    if h : a = b then isTrue (congrArg Except.ok h)
    else isFalse (fun e => h (Except.ok.inj e))
  | Except.error a, Except.error b =>
    if h : a = b then isTrue (congrArg Except.error h)
    else isFalse (fun e => h (Except.error.inj e))
  | Except.ok _, Except.error _ => isFalse (fun e => Except.noConfusion e)
  | Except.error _, Except.ok _ => isFalse (fun e => Except.noConfusion e)

namespace devComms

/-- A write to `RxBuff[i]`: it succeeds for the 81 slots of the array and is
reported as an error carrying the index otherwise. -/
def writeRxBuff (i : Nat) (c : ST_COMMS) : Except Nat ST_COMMS :=
  if i < COMMS_RX_BUFF_LEN + 1 then Except.ok c else Except.error i

/-- The function `devComms::ParseByteForHeader`: the state and the returned
message state. -/
def ParseByteForHeader (rxData : Nat) (c : ST_COMMS) : ST_COMMS × Nat :=
  let c1 : ST_COMMS := { c with InPtr := 0 }
  if CmdMsgHeader[c1.MsgState]? = some rxData then
    ({ c1 with CRC_calc :=
        stdUtils.crc8 (if c1.MsgState = msIDLE then 0 else c1.CRC_calc) rxData },
      c1.MsgState + 1)
  else if CmdMsgHeader[0]? = some rxData then
    ({ c1 with CRC_calc := stdUtils.crc8 0 rxData }, msIDLE + 1)
  else (c1, msIDLE)

/-- The function `devComms::ParseByteForPayload` (`DEBUG_COMMS` not defined):
the overflow test sends error 900 and falls through to the write. -/
def ParseByteForPayload (rxData : Nat) (c : ST_COMMS) : Except Nat (ST_COMMS × Nat) :=
  if rxData = 124 then Except.ok (c, msCRC_H)
  else
    match writeRxBuff c.InPtr c with
    | Except.error i => Except.error i
    | Except.ok c1 =>
      Except.ok
        ({ c1 with InPtr := c1.InPtr + 1, CRC_calc := stdUtils.crc8 c1.CRC_calc rxData },
          msMESSAGE)

/-- The function `devComms::ParseByteForTail`; `ParseLine`, called when the CRC
matches, does not write `stDev_Comms`. -/
def ParseByteForTail (rxData : Nat) (c : ST_COMMS) : ST_COMMS × Nat :=
  if ¬ ((48 ≤ rxData ∧ rxData ≤ 57) ∨ (65 ≤ rxData ∧ rxData ≤ 70)
      ∨ (97 ≤ rxData ∧ rxData ≤ 102)) then (c, msIDLE)
  else if c.MsgState = msCRC_H then
    ({ c with CRC_rx := (stdUtils.charToNibble rxData * 16) % 256 }, c.MsgState + 1)
  else ({ c with CRC_rx := c.CRC_rx ||| stdUtils.charToNibble rxData }, msIDLE)

/-- The body of the loop of `devComms::Read` for one received byte. -/
def ReadByte (c : ST_COMMS) (rxData : Nat) : Except Nat ST_COMMS :=
  if rxData = 10 then Except.ok c
  else if rxData = 13 then Except.ok { c with InPtr := 0, MsgState := msIDLE }
  else
    let r : Except Nat ST_COMMS :=
      if c.MsgState < msMESSAGE then
        let p := ParseByteForHeader rxData c
        Except.ok { p.1 with MsgState := p.2 }
      else if c.MsgState = msMESSAGE then
        match ParseByteForPayload rxData c with
        | Except.error i => Except.error i
        | Except.ok p => Except.ok { p.1 with MsgState := p.2 }
      else
        let p := ParseByteForTail rxData c
        Except.ok { p.1 with MsgState := p.2 }
    match r with
    | Except.error i => Except.error i
    | Except.ok c1 => writeRxBuff c1.InPtr c1

/-- The function `devComms::Read` on the bytes available on the serial port:
the state after the last byte, or the index of the first write outside
`RxBuff`. -/
def Read : ST_COMMS → List Nat → Except Nat ST_COMMS
  | c, [] => Except.ok c
  | c, rxData :: rest =>
    match ReadByte c rxData with
    | Except.error i => Except.error i
    | Except.ok c1 => Read c1 rest

/-- The zero-initialised `stDev_Comms`. -/
def stDev_Comms : ST_COMMS :=
  { InPtr := 0, CRC_rx := 0, CRC_calc := 0, MsgState := msIDLE }

end devComms

/-! ## Debounced edge detector -/

theorem debounceFeed_replicate_pending (n : Int) (level : Int) (k : Nat) :
    ∀ input : ST_PIN_DEBOUNCE, input.CurrentState ≠ level →
      input.DebounceCount + (k : Int) < n →
      stdUtils.debounceFeed n input (List.replicate k level) =
        (⟨input.CurrentState, input.DebounceCount + k⟩,
          List.replicate k INPUT_EDGE_NONE) := by
  induction k with
  | zero => intro input _ _; simp [stdUtils.debounceFeed]
  | succ k ih =>
    intro input hne hlt
    have h1 : input.DebounceCount + 1 < n := by push_cast at hlt; omega
    have step : stdUtils.debounceInput input level n =
        (⟨input.CurrentState, input.DebounceCount + 1⟩, INPUT_EDGE_NONE) := by
      simp [stdUtils.debounceInput, hne, h1]
    have := ih ⟨input.CurrentState, input.DebounceCount + 1⟩ hne
      (by push_cast at hlt ⊢; omega)
    simp only [List.replicate_succ, stdUtils.debounceFeed, step, this]
    push_cast
    simp only [Prod.mk.injEq, ST_PIN_DEBOUNCE.mk.injEq, true_and, and_true]
    omega

theorem debounceFeed_append (n : Int) (xs ys : List Int) :
    ∀ input : ST_PIN_DEBOUNCE,
      stdUtils.debounceFeed n input (xs ++ ys) =
        ((stdUtils.debounceFeed n (stdUtils.debounceFeed n input xs).1 ys).1,
          (stdUtils.debounceFeed n input xs).2 ++
            (stdUtils.debounceFeed n (stdUtils.debounceFeed n input xs).1 ys).2) := by
  induction xs with
  | nil => intro input; simp [stdUtils.debounceFeed]
  | cons x xs ih => intro input; simp [stdUtils.debounceFeed, ih]

/-- C9: a `debounceInput` call whose sampled level equals the stable level
returns no edge, resets the pending count to 0 and keeps the stable level. -/
theorem debounceInput_same_level (input : ST_PIN_DEBOUNCE) (count : Int) :
    (stdUtils.debounceInput input input.CurrentState count).2 = INPUT_EDGE_NONE ∧
    (stdUtils.debounceInput input input.CurrentState count).1.DebounceCount = 0 ∧
    (stdUtils.debounceInput input input.CurrentState count).1.CurrentState
      = input.CurrentState := by
  simp [stdUtils.debounceInput]

/-- C8: with threshold `n ≥ 1` and no pending samples, every proper prefix of
`n` samples of a level other than the stable one yields only `INPUT_EDGE_NONE`
and keeps the stable level, and the `n`-th sample commits the sampled level and
reports `INPUT_EDGE_RISING` for `HIGH` and `INPUT_EDGE_FALLING` otherwise. -/
theorem debounceInput_commits_on_nth_sample (n : Nat) (input : ST_PIN_DEBOUNCE)
    (level : Int) (hn : 1 ≤ n) (h0 : input.DebounceCount = 0)
    (hne : input.CurrentState ≠ level) :
    (∀ k : Nat, k < n →
      stdUtils.debounceFeed n input (List.replicate k level) =
        (⟨input.CurrentState, k⟩, List.replicate k INPUT_EDGE_NONE)) ∧
    stdUtils.debounceFeed n input (List.replicate n level) =
      (⟨level, n⟩,
        List.replicate (n - 1) INPUT_EDGE_NONE ++
          [if level = HIGH then INPUT_EDGE_RISING else INPUT_EDGE_FALLING]) := by
  have pre : ∀ k : Nat, k < n →
      stdUtils.debounceFeed n input (List.replicate k level) =
        (⟨input.CurrentState, k⟩, List.replicate k INPUT_EDGE_NONE) := by
    intro k hk
    have := debounceFeed_replicate_pending n level k input hne (by rw [h0]; omega)
    rw [this, h0]; simp
  refine ⟨pre, ?_⟩
  obtain ⟨m, rfl⟩ : ∃ m, n = m + 1 := ⟨n - 1, by omega⟩
  have hlast : stdUtils.debounceInput ⟨input.CurrentState, (m : Int)⟩ level
      ((m + 1 : Nat) : Int) =
      (⟨level, ((m + 1 : Nat) : Int)⟩,
        if level = HIGH then INPUT_EDGE_RISING else INPUT_EDGE_FALLING) := by
    simp [stdUtils.debounceInput, hne]
  rw [List.replicate_succ', debounceFeed_append, pre m (by omega)]
  simp only [stdUtils.debounceFeed, hlast, Nat.add_sub_cancel]

/-- C8 at threshold 2: from level `LOW` with nothing pending, the first `HIGH`
sample reports no edge and the second one commits `HIGH` with a rising edge. -/
theorem debounceInput_commits_on_nth_sample_witness :
    stdUtils.debounceFeed 2 ⟨LOW, 0⟩ [HIGH] = (⟨LOW, 1⟩, [INPUT_EDGE_NONE]) ∧
    stdUtils.debounceFeed 2 ⟨LOW, 0⟩ [HIGH, HIGH] =
      (⟨HIGH, 2⟩, [INPUT_EDGE_NONE, INPUT_EDGE_RISING]) := by
  have h := debounceInput_commits_on_nth_sample 2 ⟨LOW, 0⟩ HIGH (by decide) rfl
    (by decide)
  exact ⟨h.1 1 (by decide), h.2⟩

/-- The commit in `debounceInput` does not reset `DebounceCount`: the state
reached from the initial state by two `HIGH` samples keeps the count 2, and a
single `LOW` sample right after it is committed at once (falling edge), as is
the `HIGH` sample that follows (rising edge). -/
theorem debounceInput_stale_count_after_commit :
    (stdUtils.debounceFeed AMT203_DEBOUNCE_CNT debounceInit [HIGH, HIGH]).1
      = ⟨HIGH, 2⟩ ∧
    stdUtils.debounceInput ⟨HIGH, 2⟩ LOW AMT203_DEBOUNCE_CNT
      = (⟨LOW, 3⟩, INPUT_EDGE_FALLING) ∧
    stdUtils.debounceInput ⟨LOW, 3⟩ HIGH AMT203_DEBOUNCE_CNT
      = (⟨HIGH, 4⟩, INPUT_EDGE_RISING) := by
  decide

/-- C7 (counterexample): the state with stable level `LOW` and one pending
sample is reached from the initial state by one `HIGH` sample; there a sample
of the opposite level `HIGH` is the second consecutive one, so it reports a
rising edge and moves the stable level to `HIGH`. -/
theorem debounceInput_glitch_counterexample :
    (stdUtils.debounceFeed AMT203_DEBOUNCE_CNT debounceInit [HIGH]).1 = ⟨LOW, 1⟩ ∧
    (stdUtils.debounceInput ⟨LOW, 1⟩ HIGH AMT203_DEBOUNCE_CNT).2 = INPUT_EDGE_RISING ∧
    (stdUtils.debounceInput ⟨LOW, 1⟩ HIGH AMT203_DEBOUNCE_CNT).2 ≠ INPUT_EDGE_NONE ∧
    (stdUtils.debounceInput ⟨LOW, 1⟩ HIGH AMT203_DEBOUNCE_CNT).1.CurrentState = HIGH := by
  decide

/-- C7 (amended): with threshold 2, for every channel state in which no
disagreeing sample is pending (`DebounceCount = 0`), one sample of a level
other than the stable one followed by one sample of the stable level returns
`INPUT_EDGE_NONE` on both calls and leaves the stable level unchanged after
each of them. -/
theorem debounceInput_rejects_single_glitch (input : ST_PIN_DEBOUNCE) (level : Int)
    (h0 : input.DebounceCount = 0) (hne : input.CurrentState ≠ level) :
    (stdUtils.debounceInput input level AMT203_DEBOUNCE_CNT).2 = INPUT_EDGE_NONE ∧
    (stdUtils.debounceInput input level AMT203_DEBOUNCE_CNT).1.CurrentState
      = input.CurrentState ∧
    (stdUtils.debounceInput (stdUtils.debounceInput input level AMT203_DEBOUNCE_CNT).1
      input.CurrentState AMT203_DEBOUNCE_CNT).2 = INPUT_EDGE_NONE ∧
    (stdUtils.debounceInput (stdUtils.debounceInput input level AMT203_DEBOUNCE_CNT).1
      input.CurrentState AMT203_DEBOUNCE_CNT).1.CurrentState = input.CurrentState := by
  have h1 : stdUtils.debounceInput input level AMT203_DEBOUNCE_CNT
      = (⟨input.CurrentState, 1⟩, INPUT_EDGE_NONE) := by
    simp [stdUtils.debounceInput, hne, h0, AMT203_DEBOUNCE_CNT]
  rw [h1]
  simp [stdUtils.debounceInput]

/-- C7 (amended) on the initial state: a `HIGH` glitch of one sample on a
channel that is stable `LOW` is rejected. -/
theorem debounceInput_rejects_single_glitch_witness :
    stdUtils.debounceFeed AMT203_DEBOUNCE_CNT debounceInit [HIGH, LOW]
      = (⟨LOW, 0⟩, [INPUT_EDGE_NONE, INPUT_EDGE_NONE]) ∧
    (stdUtils.debounceInput (stdUtils.debounceInput debounceInit HIGH
      AMT203_DEBOUNCE_CNT).1 debounceInit.CurrentState AMT203_DEBOUNCE_CNT).2
      = INPUT_EDGE_NONE :=
  ⟨by decide,
    (debounceInput_rejects_single_glitch debounceInit HIGH rfl (by decide)).2.2.1⟩

/-! ## Quadrature position tracker -/

theorem tmod_PPR_bounds (p : Int) :
    -4096 < p.tmod 4096 ∧ p.tmod 4096 < 4096 ∧ (p.tmod 4096 - p) % 4096 = 0 := by
  have h1 := Int.tmod_add_tdiv p 4096
  rcases le_or_lt 0 p with hp | hp
  · have := Int.tmod_nonneg 4096 hp
    have := Int.tmod_lt_of_pos p (show (0 : Int) < 4096 by decide)
    omega
  · have hq : p.tmod 4096 = -((-p).tmod 4096) := by
      have h2 := Int.tmod_add_tdiv (-p) 4096
      have h3 : (-p).tdiv 4096 = -(p.tdiv 4096) := Int.neg_tdiv p 4096
      omega
    have := Int.tmod_nonneg 4096 (show (0 : Int) ≤ -p by omega)
    have := Int.tmod_lt_of_pos (-p) (show (0 : Int) < 4096 by decide)
    omega

theorem SetOffsetWithinLimit_tmod (p : Int) :
    -2048 ≤ SetOffsetWithinLimit (p.tmod AMT203_QUAD_PPR) ∧
    SetOffsetWithinLimit (p.tmod AMT203_QUAD_PPR) < 2048 ∧
    (SetOffsetWithinLimit (p.tmod AMT203_QUAD_PPR) - p) % 4096 = 0 := by
  obtain ⟨h1, h2, h3⟩ := tmod_PPR_bounds p
  simp only [SetOffsetWithinLimit, AMT203_QUAD_PPR, AMT203_QUAD_PPR_NEG_OFFSET]
  split_ifs <;> omega

theorem debounceInput_rising_level (input : ST_PIN_DEBOUNCE) (level count : Int)
    (h : (stdUtils.debounceInput input level count).2 = INPUT_EDGE_RISING) :
    (stdUtils.debounceInput input level count).1.CurrentState = HIGH := by
  simp only [stdUtils.debounceInput] at h ⊢
  by_cases h1 : input.CurrentState = level
  · simp [h1, INPUT_EDGE_NONE, INPUT_EDGE_RISING] at h
  · by_cases h2 : input.DebounceCount + 1 < count
    · simp [h1, h2, INPUT_EDGE_NONE, INPUT_EDGE_RISING] at h
    · by_cases h3 : level = HIGH
      · rw [if_neg h1, if_neg h2]; exact h3
      · simp [h1, h2, h3, INPUT_EDGE_FALLING, INPUT_EDGE_RISING] at h

/-- C1: in a sampling tick in which the debounced phase A or phase B channel
reports an edge the position moves by exactly +1 or exactly -1, and in a tick
in which neither reports an edge the position is unchanged. -/
theorem TimerInterruptCallback_position_step (e : EncoderState)
    (pinA pinB pinX : Int) (micros : Nat) :
    ((devMotorControl.pinA_edge e pinA ≠ 0 ∨ devMotorControl.pinB_edge e pinB ≠ 0) →
      (devMotorControl.TimerInterruptCallback pinA pinB pinX micros e)._position
          = e._position + 1 ∨
      (devMotorControl.TimerInterruptCallback pinA pinB pinX micros e)._position
          = e._position - 1) ∧
    ((devMotorControl.pinA_edge e pinA = 0 ∧ devMotorControl.pinB_edge e pinB = 0) →
      (devMotorControl.TimerInterruptCallback pinA pinB pinX micros e)._position
          = e._position) := by
  simp only [devMotorControl.pinA_edge, devMotorControl.pinB_edge,
    devMotorControl.TimerInterruptCallback, devMotorControl.indexStep,
    devMotorControl.quadratureStep, ROTATE_FORWARD, ROTATE_BACKWARD]
  constructor
  · intro h
    simp only [h, if_true]
    split_ifs <;> simp_all <;> tauto
  · rintro ⟨ha, hb⟩
    simp [ha, hb]
    split_ifs <;> rfl

/-- C1 on two ticks: a tick that commits a rising edge on phase A moves the
position by one pulse, and a tick without an edge on A or B leaves it alone. -/
theorem TimerInterruptCallback_position_step_witness :
    ((devMotorControl.TimerInterruptCallback HIGH LOW LOW 2400 encPendingA)._position
        = encPendingA._position + 1 ∨
      (devMotorControl.TimerInterruptCallback HIGH LOW LOW 2400 encPendingA)._position
        = encPendingA._position - 1) ∧
    (devMotorControl.TimerInterruptCallback LOW LOW HIGH 2400 encBelowZero)._position
      = encBelowZero._position :=
  ⟨(TimerInterruptCallback_position_step encPendingA HIGH LOW LOW 2400).1
      (Or.inl (by decide)),
    (TimerInterruptCallback_position_step encBelowZero LOW LOW HIGH 2400).2
      ⟨by decide, by decide⟩⟩

/-- C2: after a sampling tick in which the index channel reports a rising edge
the zero offset is known, lies in `[-PPR/2, PPR/2)` and is congruent modulo
`PPR` to the position held after that tick's A/B update. -/
theorem TimerInterruptCallback_index_rising (e : EncoderState)
    (pinA pinB pinX : Int) (micros : Nat)
    (h : devMotorControl.pinX_edge e pinX = INPUT_EDGE_RISING) :
    (devMotorControl.TimerInterruptCallback pinA pinB pinX micros e)._ZeroOffsetIsKnown
      = true ∧
    -(AMT203_QUAD_PPR / 2) ≤
      (devMotorControl.TimerInterruptCallback pinA pinB pinX micros e)._zero_offset ∧
    (devMotorControl.TimerInterruptCallback pinA pinB pinX micros e)._zero_offset
      < AMT203_QUAD_PPR / 2 ∧
    (devMotorControl.TimerInterruptCallback pinA pinB pinX micros e)._zero_offset ≡
      (devMotorControl.TimerInterruptCallback pinA pinB pinX micros e)._position
      [ZMOD AMT203_QUAD_PPR] := by
  have hlvl := debounceInput_rising_level _ _ _ h
  have hx : (stdUtils.debounceInput e.debounceInput_X pinX AMT203_DEBOUNCE_CNT).2 ≠ 0 := by
    have h' := h
    simp only [devMotorControl.pinX_edge] at h'
    rw [h']; decide
  have key : ∀ e2 : EncoderState, e2.debounceInput_X.CurrentState = HIGH →
      (devMotorControl.indexStep e2)._ZeroOffsetIsKnown = true ∧
      -(AMT203_QUAD_PPR / 2) ≤ (devMotorControl.indexStep e2)._zero_offset ∧
      (devMotorControl.indexStep e2)._zero_offset < AMT203_QUAD_PPR / 2 ∧
      (devMotorControl.indexStep e2)._zero_offset ≡
        (devMotorControl.indexStep e2)._position [ZMOD AMT203_QUAD_PPR] := by
    intro e2 h2
    obtain ⟨b1, b2, b3⟩ := SetOffsetWithinLimit_tmod e2._position
    simp only [AMT203_QUAD_PPR] at b1 b2 b3
    refine ⟨by simp [devMotorControl.indexStep], ?_, ?_, ?_⟩ <;>
      simp only [devMotorControl.indexStep, h2, if_true, AMT203_QUAD_PPR, Int.ModEq] <;>
      omega
  simp only [devMotorControl.TimerInterruptCallback, hx, ne_eq, not_false_eq_true, if_true]
  apply key
  split_ifs
  · simpa [devMotorControl.quadratureStep] using hlvl
  · simpa using hlvl

/-- C2 at a position of -5000 pulses: the index rising edge gives the offset
-904, which is -5000 reduced into `[-2048, 2048)`. -/
theorem TimerInterruptCallback_index_rising_witness :
    (devMotorControl.TimerInterruptCallback LOW LOW HIGH 100 encBelowZero)._ZeroOffsetIsKnown
      = true ∧
    -(AMT203_QUAD_PPR / 2) ≤
      (devMotorControl.TimerInterruptCallback LOW LOW HIGH 100 encBelowZero)._zero_offset ∧
    (devMotorControl.TimerInterruptCallback LOW LOW HIGH 100 encBelowZero)._zero_offset
      < AMT203_QUAD_PPR / 2 ∧
    (devMotorControl.TimerInterruptCallback LOW LOW HIGH 100 encBelowZero)._zero_offset ≡
      (devMotorControl.TimerInterruptCallback LOW LOW HIGH 100 encBelowZero)._position
      [ZMOD AMT203_QUAD_PPR] :=
  TimerInterruptCallback_index_rising encBelowZero LOW LOW HIGH 100 (by decide)

/-! ## Status byte -/

theorem and_two_pow_ne_zero (s i : Nat) : (s &&& 2 ^ i ≠ 0) ↔ s.testBit i = true := by
  constructor
  · intro h
    by_contra hb
    apply h
    apply Nat.eq_of_testBit_eq
    intro j
    simp only [Nat.testBit_and, Nat.zero_testBit, Nat.testBit_two_pow]
    by_cases hij : i = j
    · subst hij; simp [hb]
    · simp [hij]
  · intro hb h
    have : (s &&& 2 ^ i).testBit i = true := by
      simp [Nat.testBit_and, Nat.testBit_two_pow, hb]
    rw [h] at this
    simp at this

theorem GetStatus_bit (s i : Nat) : stdUtils.GetStatus s (2 ^ i) = s.testBit i := by
  unfold stdUtils.GetStatus
  by_cases h : s.testBit i = true
  · rw [if_pos ((and_two_pow_ne_zero s i).2 h), h]
  · rw [if_neg (fun hh => h ((and_two_pow_ne_zero s i).1 hh))]
    simpa using h

theorem testBit_SetStatus (s i j : Nat) :
    (stdUtils.SetStatus s (2 ^ i)).testBit j
      = (decide (j < 8) && (s.testBit j || decide (i = j))) := by
  unfold stdUtils.SetStatus
  rw [show (256 : Nat) = 2 ^ 8 by norm_num, Nat.testBit_mod_two_pow]
  simp [Nat.testBit_two_pow]

theorem testBit_255 (j : Nat) : Nat.testBit 255 j = decide (j < 8) := by
  rw [show (255 : Nat) = 2 ^ 8 - 1 by norm_num, Nat.testBit_two_pow_sub_one]

theorem testBit_ClearStatus (s i j : Nat) (hi : i < 8) :
    (stdUtils.ClearStatus s (2 ^ i)).testBit j
      = (s.testBit j && decide (j < 8) && !decide (i = j)) := by
  unfold stdUtils.ClearStatus
  simp only [Nat.testBit_and, Nat.testBit_xor, testBit_255, Nat.testBit_two_pow]
  by_cases h1 : j < 8 <;> by_cases h2 : i = j <;> simp [h1, h2]
  omega

theorem testBit_ToggleStatus_other (s i j : Nat) (flag : Bool) (hi : i < 8) (hj : j < 8)
    (hij : i ≠ j) :
    (stdUtils.ToggleStatus s (2 ^ i) flag).testBit j = s.testBit j := by
  cases flag
  · have := testBit_ClearStatus s i j hi
    simp only [stdUtils.ClearStatus] at this
    simp [stdUtils.ToggleStatus, this, hj, hij]
  · have := testBit_SetStatus s i j
    simp only [stdUtils.SetStatus] at this
    simp [stdUtils.ToggleStatus, this, hj, hij]

theorem status_masks :
    statusMOVING = 2 ^ 1 ∧ statusDIRECTION = 2 ^ 2 ∧ statusPID_BUSY = 2 ^ 3 ∧
    statusPID_DONE = 2 ^ 4 ∧ statusCALIB_BUSY = 2 ^ 5 := by
  decide

/-! ## Velocity-profile controller -/

section Field

variable {α : Type} [LinearOrderedField α]

theorem Arduino_abs_eq (x : α) : Arduino.abs x = |x| := by
  unfold Arduino.abs
  split_ifs with h
  · exact (abs_of_pos h).symm
  · exact (abs_of_nonpos (not_lt.mp h)).symm

theorem sign_f_mul_abs (M : α) (x : α) (hM : 0 ≤ M) : |sign_f x * M| = M := by
  unfold sign_f
  split_ifs <;> simp [abs_of_nonneg hM]

theorem PID_output_speed_limit (sqrtf : α → α) (posError : α) (p : ST_PID α)
    (hM : 0 ≤ p.MaxSpeed) :
    |(appPidControl.PID_output sqrtf posError p).Speed| ≤ p.MaxSpeed := by
  simp only [appPidControl.PID_output, Arduino_abs_eq]
  split_ifs with h1 h2 h2
  · rw [sign_f_mul_abs _ _ hM]
  · exact not_lt.mp h2
  · rw [sign_f_mul_abs _ _ hM]
  · exact not_lt.mp h2

theorem speed_limit_keeps_accel_limit (out Speed MaxSpeed bound : α)
    (hS : |Speed| ≤ MaxSpeed) (hout : |out - Speed| ≤ bound) :
    |(if |out| > MaxSpeed then sign_f out * MaxSpeed else out) - Speed| ≤ bound := by
  have hb := abs_le.mp hS
  have ho := abs_le.mp hout
  split_ifs with h
  · unfold sign_f
    rw [abs_le]
    split_ifs with hneg
    · have : out < -MaxSpeed := by
        rcases lt_abs.mp h with h' | h'
        · linarith
        · linarith
      constructor <;> linarith
    · have : MaxSpeed < out := by
        rcases lt_abs.mp h with h' | h'
        · exact h'
        · push_neg at hneg; linarith
      constructor <;> linarith
  · exact hout

theorem accel_limit_bound (raw Speed MaxAccel Period : α)
    (hP : 0 < Period) (hA : 0 ≤ MaxAccel) :
    |(if |(raw - Speed) / Period| > MaxAccel then
        Speed + sign_f ((raw - Speed) / Period) * MaxAccel * Period
      else raw) - Speed| ≤ MaxAccel * Period := by
  have hAP : 0 ≤ MaxAccel * Period := mul_nonneg hA hP.le
  split_ifs with h1
  · unfold sign_f
    split_ifs <;> simp [abs_of_nonneg hAP]
  · have h1' := not_lt.mp h1
    rw [abs_div, abs_of_pos hP, div_le_iff₀ hP] at h1'
    exact h1'

theorem PID_output_accel_limit (sqrtf : α → α) (posError : α) (p : ST_PID α)
    (hP : 0 < p.Period) (hA : 0 ≤ p.MaxAccel) (hS : |p.Speed| ≤ p.MaxSpeed) :
    |(appPidControl.PID_output sqrtf posError p).Speed - p.Speed|
      ≤ p.MaxAccel * p.Period := by
  simp only [appPidControl.PID_output, Arduino_abs_eq]
  exact speed_limit_keeps_accel_limit _ _ _ _ hS (accel_limit_bound _ _ _ _ hP hA)

end Field

section Process

variable {α : Type} [LinearOrderedField α] [FloorRing α]

theorem SetSpeed_abs_frame (spd : Int) (w : World α) :
    (devMotorControl.SetSpeed_abs spd w).1.pidSettings = w.pidSettings ∧
    (devMotorControl.SetSpeed_abs spd w).1.enc = w.enc ∧
    (devMotorControl.SetSpeed_abs spd w).1.pidTimer = w.pidTimer ∧
    (devMotorControl.SetSpeed_abs spd w).1.pidUpdatePosTimer = w.pidUpdatePosTimer ∧
    (devMotorControl.SetSpeed_abs spd w).1.ControlState = w.ControlState := by
  simp [devMotorControl.SetSpeed_abs]

theorem SetSpeed_degs_frame (spd : α) (w : World α) :
    (devMotorControl.SetSpeed_degs spd w).1.pidSettings = w.pidSettings ∧
    (devMotorControl.SetSpeed_degs spd w).1.enc = w.enc ∧
    (devMotorControl.SetSpeed_degs spd w).1.pidTimer = w.pidTimer ∧
    (devMotorControl.SetSpeed_degs spd w).1.pidUpdatePosTimer = w.pidUpdatePosTimer ∧
    (devMotorControl.SetSpeed_degs spd w).1.ControlState = w.ControlState := by
  unfold devMotorControl.SetSpeed_degs
  split_ifs
  · exact SetSpeed_abs_frame _ _
  · exact SetSpeed_abs_frame _ _

theorem GetSpeed_ENC_congr (w w1 : World α) (h : w1.enc = w.enc) :
    devMotorControl.GetSpeed_ENC w1 = devMotorControl.GetSpeed_ENC w := by
  simp [devMotorControl.GetSpeed_ENC, h]

theorem PID_Process_not_arrived (sqrtf : α → α) (clk : Clock) (w : World α)
    (hen : w.pidSettings.Enable = true) (harr : ¬ arrivalTest w) :
    appPidControl.PID_Process sqrtf clk w =
      appPidControl.PID_recompute sqrtf clk
        (w.pidSettings.Target - devMotorControl.GetPosition w)
        { w with pidSettings := { w.pidSettings with
            Position := devMotorControl.GetPosition w
            TimeToTarget :=
              (((clk.millis % ULONG_RANGE + ULONG_RANGE - w.pidSettings.startTime)
                % ULONG_RANGE : Nat) : α) / 1000 } } := by
  unfold appPidControl.PID_Process
  rw [if_neg (by simp [hen])]
  simp only []
  split_ifs with h1 h2
  · exfalso
    apply harr
    refine ⟨?_, ?_⟩
    · rw [Arduino_abs_eq, MOTOR_POS_INCREMENT_DEG] at h1; exact h1
    · rw [Arduino_abs_eq] at h2
      simp only [devMotorControl.GetSpeed_ENC] at h2 ⊢
      exact h2
  · rfl
  · rfl

theorem PID_Process_arrived (sqrtf : α → α) (clk : Clock) (w : World α)
    (hen : w.pidSettings.Enable = true) (harr : arrivalTest w) :
    appPidControl.PID_Process sqrtf clk w =
      appPidControl.PID_arrived clk
        { w with pidSettings := { w.pidSettings with
            Position := devMotorControl.GetPosition w
            TimeToTarget :=
              (((clk.millis % ULONG_RANGE + ULONG_RANGE - w.pidSettings.startTime)
                % ULONG_RANGE : Nat) : α) / 1000 } } := by
  unfold appPidControl.PID_Process
  rw [if_neg (by simp [hen])]
  simp only []
  have h1 : Arduino.abs (w.pidSettings.Target - devMotorControl.GetPosition w)
      < (MOTOR_POS_INCREMENT_DEG : α) := by
    rw [Arduino_abs_eq, MOTOR_POS_INCREMENT_DEG]; exact harr.1
  have h2 : Arduino.abs (devMotorControl.GetSpeed_ENC w) ≤ w.pidSettings.MinSpeed := by
    rw [Arduino_abs_eq]; exact harr.2
  rw [if_pos h1, if_pos]
  simp only [devMotorControl.GetSpeed_ENC] at h2 ⊢
  exact h2

theorem PID_Process_recomputes (sqrtf : α → α) (clk : Clock) (w : World α)
    (hen : w.pidSettings.Enable = true) (harr : ¬ arrivalTest w)
    (hdue : periodElapsed clk w) :
    (appPidControl.PID_Process sqrtf clk w).1.pidSettings =
      appPidControl.PID_output sqrtf
        (w.pidSettings.Target - devMotorControl.GetPosition w)
        { w.pidSettings with
          Position := devMotorControl.GetPosition w
          TimeToTarget :=
            (((clk.millis % ULONG_RANGE + ULONG_RANGE - w.pidSettings.startTime)
              % ULONG_RANGE : Nat) : α) / 1000 } ∧
    (appPidControl.PID_Process sqrtf clk w).1.mot =
      (devMotorControl.SetSpeed_degs
        (appPidControl.PID_Process sqrtf clk w).1.pidSettings.Speed w).1.mot := by
  rw [PID_Process_not_arrived sqrtf clk w hen harr]
  unfold periodElapsed at hdue
  simp only [appPidControl.PID_recompute, hdue, Bool.not_true, Bool.false_eq_true, if_false]
  refine ⟨(SetSpeed_degs_frame _ _).1, ?_⟩
  rw [(SetSpeed_degs_frame _ _).1]
  simp only [devMotorControl.SetSpeed_degs, devMotorControl.SetSpeed_abs]
  split_ifs <;> rfl

end Process

/-! ## Closed evaluations of the controller tick -/

theorem sqrtQ_36 : sqrtQ 36 = 6 := by
  have h1 : sqrtQ 36 = (Nat.sqrt 36 : ℚ) / (Nat.sqrt 1 : ℚ) := rfl
  have h2 : Nat.sqrt 36 = 6 := by norm_num [Nat.sqrt, Nat.sqrt.iter]
  have h3 : Nat.sqrt 1 = 1 := by norm_num [Nat.sqrt]
  rw [h1, h2, h3]
  norm_num

theorem worldFast_not_arrived : ¬ arrivalTest worldFast := by
  intro h
  have h1 := h.1
  norm_num [worldFast, worldArriving, pidControlDefault, devMotorControl.GetPosition,
    encSlow, MOTOR_POS_INCREMENT_DEG] at h1

theorem worldFastLimited_not_arrived : ¬ arrivalTest worldFastLimited := by
  intro h
  have h1 := h.1
  norm_num [worldFastLimited, worldFast, worldArriving, pidControlDefault,
    devMotorControl.GetPosition, encSlow, MOTOR_POS_INCREMENT_DEG] at h1

theorem worldFastLimited_speed :
    (appPidControl.PID_Process sqrtQ clk10 worldFastLimited).1.pidSettings.Speed = 10 := by
  rw [(PID_Process_recomputes sqrtQ clk10 worldFastLimited rfl
    worldFastLimited_not_arrived (by unfold periodElapsed; rfl)).1]
  simp only [appPidControl.PID_output, worldFastLimited, worldFast, worldArriving,
    pidControlDefault, devMotorControl.GetPosition, encSlow, Arduino.abs, sign_f]
  norm_num [sqrtQ_36]

/-- C3: on a tick of the enabled controller that recomputes the output, with
`MaxSpeed ≥ 0`, the stored `Speed` has magnitude at most `MaxSpeed` whatever
the gains, bias, errors and previous speed are, and it is the value handed to
`SetSpeed_degs`. -/
theorem PID_Process_speed_within_MaxSpeed {α : Type} [LinearOrderedField α]
    [FloorRing α] (sqrtf : α → α) (clk : Clock) (w : World α)
    (hen : w.pidSettings.Enable = true) (hmax : 0 ≤ w.pidSettings.MaxSpeed)
    (harr : ¬ arrivalTest w) (hdue : periodElapsed clk w) :
    |(appPidControl.PID_Process sqrtf clk w).1.pidSettings.Speed|
      ≤ w.pidSettings.MaxSpeed ∧
    (appPidControl.PID_Process sqrtf clk w).1.mot =
      (devMotorControl.SetSpeed_degs
        (appPidControl.PID_Process sqrtf clk w).1.pidSettings.Speed w).1.mot := by
  obtain ⟨hp, hm⟩ := PID_Process_recomputes sqrtf clk w hen harr hdue
  refine ⟨?_, hm⟩
  rw [hp]
  exact PID_output_speed_limit sqrtf _ _ hmax

/-- C3 with the default limit: from a stored speed of 36 deg/s and
`MaxSpeed = 36` the recomputed speed does not exceed 36 in magnitude. -/
theorem PID_Process_speed_within_MaxSpeed_witness :
    |(appPidControl.PID_Process sqrtQ clk10 worldFast).1.pidSettings.Speed| ≤ 36 ∧
    (appPidControl.PID_Process sqrtQ clk10 worldFast).1.mot =
      (devMotorControl.SetSpeed_degs
        (appPidControl.PID_Process sqrtQ clk10 worldFast).1.pidSettings.Speed
        worldFast).1.mot :=
  PID_Process_speed_within_MaxSpeed sqrtQ clk10 worldFast rfl
    (by norm_num [worldFast, pidControlDefault]) worldFast_not_arrived
    (by unfold periodElapsed; rfl)

/-- C4 (counterexample): with the stored speed at 36 deg/s and `MaxSpeed`
lowered to 10 deg/s, a recomputing tick with `Period = 0.01 > 0` and
`MaxAccel = 9 ≥ 0` stores the speed 10, which differs from the previous speed
by 26, more than `MaxAccel × Period = 0.09`. -/
theorem PID_Process_accel_limit_counterexample :
    worldFastLimited.pidSettings.Enable = true ∧
    0 < worldFastLimited.pidSettings.Period ∧
    0 ≤ worldFastLimited.pidSettings.MaxAccel ∧
    ¬ arrivalTest worldFastLimited ∧
    periodElapsed clk10 worldFastLimited ∧
    ¬ (|(appPidControl.PID_Process sqrtQ clk10 worldFastLimited).1.pidSettings.Speed
          - worldFastLimited.pidSettings.Speed|
        ≤ worldFastLimited.pidSettings.MaxAccel * worldFastLimited.pidSettings.Period) := by
  refine ⟨rfl, ?_, ?_, worldFastLimited_not_arrived, by unfold periodElapsed; rfl, ?_⟩
  · norm_num [worldFastLimited, worldFast, pidControlDefault]
  · norm_num [worldFastLimited, worldFast, pidControlDefault]
  · rw [worldFastLimited_speed]
    norm_num [worldFastLimited, worldFast, pidControlDefault]

/-- C4 (amended): on a tick of the enabled controller that recomputes the
output, with `Period > 0`, `MaxAccel ≥ 0` and the previous stored speed within
the speed limit (`|Speed| ≤ MaxSpeed`), the new stored speed differs from the
previous one by at most `MaxAccel × Period`. -/
theorem PID_Process_accel_within_MaxAccel {α : Type} [LinearOrderedField α]
    [FloorRing α] (sqrtf : α → α) (clk : Clock) (w : World α)
    (hen : w.pidSettings.Enable = true) (hP : 0 < w.pidSettings.Period)
    (hA : 0 ≤ w.pidSettings.MaxAccel)
    (hS : |w.pidSettings.Speed| ≤ w.pidSettings.MaxSpeed)
    (harr : ¬ arrivalTest w) (hdue : periodElapsed clk w) :
    |(appPidControl.PID_Process sqrtf clk w).1.pidSettings.Speed - w.pidSettings.Speed|
      ≤ w.pidSettings.MaxAccel * w.pidSettings.Period := by
  rw [(PID_Process_recomputes sqrtf clk w hen harr hdue).1]
  exact PID_output_accel_limit sqrtf _ _ hP hA hS

/-- C4 (amended) at the default limits: from a stored speed of 36 deg/s with
`MaxSpeed = 36` the recomputed speed differs from 36 by at most 0.09. -/
theorem PID_Process_accel_within_MaxAccel_witness :
    |(appPidControl.PID_Process sqrtQ clk10 worldFast).1.pidSettings.Speed
        - worldFast.pidSettings.Speed|
      ≤ worldFast.pidSettings.MaxAccel * worldFast.pidSettings.Period :=
  PID_Process_accel_within_MaxAccel sqrtQ clk10 worldFast rfl
    (by norm_num [worldFast, pidControlDefault])
    (by norm_num [worldFast, pidControlDefault])
    (by norm_num [worldFast, pidControlDefault]) worldFast_not_arrived
    (by unfold periodElapsed; rfl)

/-! ## Arrival -/

section Arrival

variable {α : Type} [LinearOrderedField α] [FloorRing α]

theorem SetSpeed_abs_status (spd : Int) (w : World α) (j : Nat) (hj : j < 8)
    (h1 : 1 ≠ j) (h2 : 2 ≠ j) :
    (devMotorControl.SetSpeed_abs spd w).1.SystemStatus.testBit j
      = w.SystemStatus.testBit j := by
  simp only [devMotorControl.SetSpeed_abs, status_masks.1, status_masks.2.1]
  rw [testBit_ToggleStatus_other _ 2 j _ (by norm_num) hj h2,
    testBit_ToggleStatus_other _ 1 j _ (by norm_num) hj h1]

theorem SetSpeed_degs_status (spd : α) (w : World α) (j : Nat) (hj : j < 8)
    (h1 : 1 ≠ j) (h2 : 2 ≠ j) :
    (devMotorControl.SetSpeed_degs spd w).1.SystemStatus.testBit j
      = w.SystemStatus.testBit j := by
  unfold devMotorControl.SetSpeed_degs
  split_ifs
  · exact SetSpeed_abs_status _ _ j hj h1 h2
  · exact SetSpeed_abs_status _ _ j hj h1 h2

theorem PID_recompute_keeps (sqrtf : α → α) (clk : Clock) (posError : α) (w : World α) :
    (appPidControl.PID_recompute sqrtf clk posError w).1.pidSettings.Enable
      = w.pidSettings.Enable ∧
    (appPidControl.PID_recompute sqrtf clk posError w).1.enc = w.enc ∧
    stdUtils.GetStatus (appPidControl.PID_recompute sqrtf clk posError w).1.SystemStatus
      statusPID_DONE = stdUtils.GetStatus w.SystemStatus statusPID_DONE ∧
    stdUtils.GetStatus (appPidControl.PID_recompute sqrtf clk posError w).1.SystemStatus
      statusPID_BUSY = stdUtils.GetStatus w.SystemStatus statusPID_BUSY := by
  by_cases hpoll : (timerUtils.msTimerPoll w.pidTimer clk.millis).2 = true
  · simp only [appPidControl.PID_recompute, hpoll, Bool.not_true, Bool.false_eq_true,
      if_false]
    refine ⟨?_, ?_, ?_, ?_⟩
    · rw [(SetSpeed_degs_frame _ _).1]; rfl
    · rw [(SetSpeed_degs_frame _ _).2.1]
    · rw [status_masks.2.2.2.1, GetStatus_bit, GetStatus_bit,
        SetSpeed_degs_status _ _ 4 (by norm_num) (by norm_num) (by norm_num)]
    · rw [status_masks.2.2.1, GetStatus_bit, GetStatus_bit,
        SetSpeed_degs_status _ _ 3 (by norm_num) (by norm_num) (by norm_num)]
  · have hpoll' : (timerUtils.msTimerPoll w.pidTimer clk.millis).2 = false := by
      simpa using hpoll
    simp [appPidControl.PID_recompute, hpoll']

theorem Stop_effect (clk : Clock) (w : World α) :
    (devMotorControl.Stop clk w).pidSettings = w.pidSettings ∧
    (devMotorControl.Stop clk w).pidTimer = w.pidTimer ∧
    (devMotorControl.Stop clk w).pidUpdatePosTimer = w.pidUpdatePosTimer ∧
    (devMotorControl.Stop clk w).ControlState = w.ControlState ∧
    (devMotorControl.Stop clk w).mot =
      { w.mot with _enabled := false, pin_EN := false, _reversing := false,
                   pin_REV := false, dacLevel := 0 } := by
  refine ⟨rfl, rfl, rfl, rfl, ?_⟩
  simp [devMotorControl.Stop, devMotorControl.ResetSpeedParams,
    devMotorControl.SetSpeed_abs, halTLC5615.SetLevel, Arduino.absInt,
    TLC5615_MAX_OUTPUT_VAL, MOTOR_FWD]

theorem PID_arrived_effect (clk : Clock) (w : World α) :
    (appPidControl.PID_arrived clk w).1.mot.dacLevel = 0 ∧
    (appPidControl.PID_arrived clk w).1.mot.pin_EN = false ∧
    (appPidControl.PID_arrived clk w).1.mot._enabled = false ∧
    (appPidControl.PID_arrived clk w).1.pidSettings.intError = 0 ∧
    (appPidControl.PID_arrived clk w).1.pidSettings.Speed = w.pidSettings.Speed ∧
    (appPidControl.PID_arrived clk w).1.pidSettings.error = w.pidSettings.error ∧
    (appPidControl.PID_arrived clk w).1.pidSettings.derError = w.pidSettings.derError ∧
    (appPidControl.PID_arrived clk w).1.pidTimer = w.pidTimer ∧
    (w.pidSettings.aiming = true →
      (appPidControl.PID_arrived clk w).1.pidSettings.aiming = false ∧
      (appPidControl.PID_arrived clk w).1.pidSettings.Enable = false ∧
      stdUtils.GetStatus (appPidControl.PID_arrived clk w).1.SystemStatus statusPID_DONE
        = true ∧
      stdUtils.GetStatus (appPidControl.PID_arrived clk w).1.SystemStatus statusPID_BUSY
        = false) := by
  obtain ⟨hpid, htim, -, -, hmot⟩ := Stop_effect clk w
  have hfields :
      (appPidControl.PID_arrived clk w).1.mot = (devMotorControl.Stop clk w).mot ∧
      (appPidControl.PID_arrived clk w).1.pidTimer = (devMotorControl.Stop clk w).pidTimer ∧
      (appPidControl.PID_arrived clk w).1.pidSettings.Speed
        = (devMotorControl.Stop clk w).pidSettings.Speed ∧
      (appPidControl.PID_arrived clk w).1.pidSettings.error
        = (devMotorControl.Stop clk w).pidSettings.error ∧
      (appPidControl.PID_arrived clk w).1.pidSettings.derError
        = (devMotorControl.Stop clk w).pidSettings.derError := by
    simp only [appPidControl.PID_arrived]
    split_ifs <;> exact ⟨rfl, rfl, rfl, rfl, rfl⟩
  obtain ⟨f1, f2, f3, f4, f5⟩ := hfields
  refine ⟨by rw [f1, hmot], by rw [f1, hmot], by rw [f1, hmot], rfl, by rw [f3, hpid],
    by rw [f4, hpid], by rw [f5, hpid], by rw [f2, htim], ?_⟩
  intro haim
  have haim' : (devMotorControl.Stop clk w).pidSettings.aiming = true := by
    rw [hpid]; exact haim
  simp only [appPidControl.PID_arrived, haim', if_true]
  refine ⟨trivial, trivial, ?_, ?_⟩
  · rw [status_masks.2.2.2.1, status_masks.2.2.1, GetStatus_bit, testBit_SetStatus]
    simp
  · rw [status_masks.2.2.2.1, status_masks.2.2.1, GetStatus_bit, testBit_SetStatus,
      testBit_ClearStatus _ _ _ (by norm_num)]
    simp

end Arrival

theorem worldArriving_arrived : arrivalTest worldArriving := by
  constructor
  · norm_num [worldArriving, pidControlDefault, devMotorControl.GetPosition, encSlow]
  · norm_num [worldArriving, pidControlDefault, devMotorControl.GetSpeed_ENC, encSlow,
      ROTATE_FORWARD, ROTATE_BACKWARD, abs_le]

/-- C5: for an enabled controller, `PID_Process` takes the arrival branch
exactly when the position error is below one pulse (360/4096 degrees) and the
encoder speed is at most `MinSpeed` in magnitude. In that branch the actuator
level is 0 with the motor-enable output off, `intError` is 0, the PID output is
not recomputed (`Speed`, `error`, `derError` and the period timer are
untouched), and if `aiming` was set then `aiming` and `Enable` are cleared,
PID-done is set and PID-busy is cleared. Otherwise the tick continues with the
period gate and the recomputation, the controller stays enabled, the encoder
variables are not reset and the PID-done and PID-busy flags keep their values. -/
theorem PID_Process_arrival_branch {α : Type} [LinearOrderedField α] [FloorRing α]
    (sqrtf : α → α) (clk : Clock) (w : World α)
    (hen : w.pidSettings.Enable = true) :
    (arrivalTest w →
      (appPidControl.PID_Process sqrtf clk w).1.mot.dacLevel = 0 ∧
      (appPidControl.PID_Process sqrtf clk w).1.mot.pin_EN = false ∧
      (appPidControl.PID_Process sqrtf clk w).1.mot._enabled = false ∧
      (appPidControl.PID_Process sqrtf clk w).1.pidSettings.intError = 0 ∧
      (appPidControl.PID_Process sqrtf clk w).1.pidSettings.Speed = w.pidSettings.Speed ∧
      (appPidControl.PID_Process sqrtf clk w).1.pidSettings.error = w.pidSettings.error ∧
      (appPidControl.PID_Process sqrtf clk w).1.pidSettings.derError
        = w.pidSettings.derError ∧
      (appPidControl.PID_Process sqrtf clk w).1.pidTimer = w.pidTimer ∧
      (w.pidSettings.aiming = true →
        (appPidControl.PID_Process sqrtf clk w).1.pidSettings.aiming = false ∧
        (appPidControl.PID_Process sqrtf clk w).1.pidSettings.Enable = false ∧
        stdUtils.GetStatus (appPidControl.PID_Process sqrtf clk w).1.SystemStatus
          statusPID_DONE = true ∧
        stdUtils.GetStatus (appPidControl.PID_Process sqrtf clk w).1.SystemStatus
          statusPID_BUSY = false)) ∧
    (¬ arrivalTest w →
      appPidControl.PID_Process sqrtf clk w =
        appPidControl.PID_recompute sqrtf clk
          (w.pidSettings.Target - devMotorControl.GetPosition w)
          { w with pidSettings := { w.pidSettings with
              Position := devMotorControl.GetPosition w
              TimeToTarget :=
                (((clk.millis % ULONG_RANGE + ULONG_RANGE - w.pidSettings.startTime)
                  % ULONG_RANGE : Nat) : α) / 1000 } } ∧
      (appPidControl.PID_Process sqrtf clk w).1.pidSettings.Enable = true ∧
      (appPidControl.PID_Process sqrtf clk w).1.enc = w.enc ∧
      stdUtils.GetStatus (appPidControl.PID_Process sqrtf clk w).1.SystemStatus
        statusPID_DONE = stdUtils.GetStatus w.SystemStatus statusPID_DONE ∧
      stdUtils.GetStatus (appPidControl.PID_Process sqrtf clk w).1.SystemStatus
        statusPID_BUSY = stdUtils.GetStatus w.SystemStatus statusPID_BUSY) := by
  constructor
  · intro harr
    rw [PID_Process_arrived sqrtf clk w hen harr]
    exact PID_arrived_effect clk _
  · intro harr
    refine ⟨PID_Process_not_arrived sqrtf clk w hen harr, ?_⟩
    rw [PID_Process_not_arrived sqrtf clk w hen harr]
    obtain ⟨k1, k2, k3, k4⟩ := PID_recompute_keeps sqrtf clk
      (w.pidSettings.Target - devMotorControl.GetPosition w)
      { w with pidSettings := { w.pidSettings with
          Position := devMotorControl.GetPosition w
          TimeToTarget :=
            (((clk.millis % ULONG_RANGE + ULONG_RANGE - w.pidSettings.startTime)
              % ULONG_RANGE : Nat) : α) / 1000 } }
    exact ⟨by rw [k1]; exact hen, k2, k3, k4⟩

/-- C5 at a state that is aiming within one pulse of the target at about
1.46 deg/s: the tick stops the actuator, clears `intError`, keeps the stored
speed, clears `aiming` and `Enable`, sets PID-done and clears PID-busy. -/
theorem PID_Process_arrival_branch_witness :
    arrivalTest worldArriving ∧
    (appPidControl.PID_Process sqrtQ clk10 worldArriving).1.mot.dacLevel = 0 ∧
    (appPidControl.PID_Process sqrtQ clk10 worldArriving).1.mot.pin_EN = false ∧
    (appPidControl.PID_Process sqrtQ clk10 worldArriving).1.pidSettings.intError = 0 ∧
    (appPidControl.PID_Process sqrtQ clk10 worldArriving).1.pidSettings.aiming = false ∧
    (appPidControl.PID_Process sqrtQ clk10 worldArriving).1.pidSettings.Enable = false ∧
    stdUtils.GetStatus (appPidControl.PID_Process sqrtQ clk10 worldArriving).1.SystemStatus
      statusPID_DONE = true ∧
    stdUtils.GetStatus (appPidControl.PID_Process sqrtQ clk10 worldArriving).1.SystemStatus
      statusPID_BUSY = false := by
  have h := (PID_Process_arrival_branch sqrtQ clk10 worldArriving rfl).1
    worldArriving_arrived
  obtain ⟨h1, h2, -, h4, -, -, -, -, h9⟩ := h
  obtain ⟨a1, a2, a3, a4⟩ := h9 rfl
  exact ⟨worldArriving_arrived, h1, h2, h4, a1, a2, a3, a4⟩

/-! ## After arrival -/

section AfterArrival

variable {α : Type} [LinearOrderedField α] [FloorRing α]

theorem PID_Process_disabled (sqrtf : α → α) (clk : Clock) (w : World α)
    (h : w.pidSettings.Enable = false) :
    appPidControl.PID_Process sqrtf clk w = (w, false) := by
  simp [appPidControl.PID_Process, h]

theorem runEvents_disabled (sqrtf : α → α) (evs : List Event) :
    ∀ w : World α, w.pidSettings.Enable = false →
      (runEvents sqrtf w evs).pidSettings = w.pidSettings ∧
      (runEvents sqrtf w evs).mot = w.mot ∧
      (runEvents sqrtf w evs).SystemStatus = w.SystemStatus ∧
      (runEvents sqrtf w evs).pidTimer = w.pidTimer ∧
      (runEvents sqrtf w evs).pidUpdatePosTimer = w.pidUpdatePosTimer ∧
      (runEvents sqrtf w evs).ControlState = w.ControlState := by
  induction evs with
  | nil => intro w _; exact ⟨rfl, rfl, rfl, rfl, rfl, rfl⟩
  | cons ev evs ih =>
    intro w hw
    cases ev with
    | tick clk =>
      have hstep : stepEvent sqrtf w (Event.tick clk) = w := by
        simp [stepEvent, PID_Process_disabled sqrtf clk w hw]
      simp only [runEvents, List.foldl_cons, hstep]
      exact ih w hw
    | sample pinA pinB pinX micros =>
      have := ih (devMotorControl.samplingTick pinA pinB pinX micros w) hw
      simpa [runEvents, stepEvent, devMotorControl.samplingTick] using this

theorem GetSpeed_DAC_level_zero (w : World α) (h : w.mot.dacLevel = 0) :
    devMotorControl.GetSpeed_DAC w = 0 := by
  simp [devMotorControl.GetSpeed_DAC, devMotorControl.ConvertSpeed_RD_degs,
    halTLC5615.GetLevel_abs, h]

end AfterArrival

/-- C6 (counterexample): the controller arrives while aiming with a stored
`Speed` of 1.5 deg/s; after the arrival tick and one further tick the stored
`Speed` is still 1.5, not 0. -/
theorem PID_Process_arrival_speed_counterexample :
    worldArriving.pidSettings.Enable = true ∧
    worldArriving.pidSettings.aiming = true ∧
    arrivalTest worldArriving ∧
    (appPidControl.PID_Process sqrtQ clk20
      (appPidControl.PID_Process sqrtQ clk10 worldArriving).1).1.pidSettings.Speed = 3 / 2 ∧
    (appPidControl.PID_Process sqrtQ clk20
      (appPidControl.PID_Process sqrtQ clk10 worldArriving).1).1.pidSettings.Speed ≠ 0 := by
  have h1 : (appPidControl.PID_Process sqrtQ clk10 worldArriving).1.pidSettings.Speed
      = 3 / 2 := by
    rw [PID_Process_arrived sqrtQ clk10 worldArriving rfl worldArriving_arrived,
      (PID_arrived_effect clk10 _).2.2.2.2.1]
    rfl
  have h2 : (appPidControl.PID_Process sqrtQ clk10 worldArriving).1.pidSettings.Enable
      = false := by
    rw [PID_Process_arrived sqrtQ clk10 worldArriving rfl worldArriving_arrived]
    exact ((PID_arrived_effect clk10 _).2.2.2.2.2.2.2.2 rfl).2.1
  rw [PID_Process_disabled sqrtQ clk20 _ h2, h1]
  exact ⟨rfl, rfl, worldArriving_arrived, rfl, by norm_num⟩

/-- C6 (amended): after a tick that detected arrival while aiming, every
sequence of further controller ticks and sampling ticks (no `Start` in between)
leaves the speed commanded to the actuator at 0 (DAC level 0, motor-enable
output off, `GetSpeed_DAC = 0`) and `Enable = false`, changes no controller
state (the stored `Speed` keeps the value it had before arrival), status flag,
timer or calibration state, keeps PID-done set, and every further tick returns
`false` without executing anything, so the arrival report is not run again. -/
theorem PID_Process_after_arrival {α : Type} [LinearOrderedField α] [FloorRing α]
    (sqrtf : α → α) (clk : Clock) (w : World α) (evs : List Event)
    (hen : w.pidSettings.Enable = true) (haim : w.pidSettings.aiming = true)
    (harr : arrivalTest w) :
    (runEvents sqrtf (appPidControl.PID_Process sqrtf clk w).1 evs).pidSettings
      = (appPidControl.PID_Process sqrtf clk w).1.pidSettings ∧
    (runEvents sqrtf (appPidControl.PID_Process sqrtf clk w).1 evs).pidSettings.Enable
      = false ∧
    (runEvents sqrtf (appPidControl.PID_Process sqrtf clk w).1 evs).pidSettings.aiming
      = false ∧
    (runEvents sqrtf (appPidControl.PID_Process sqrtf clk w).1 evs).pidSettings.Speed
      = w.pidSettings.Speed ∧
    (runEvents sqrtf (appPidControl.PID_Process sqrtf clk w).1 evs).mot.dacLevel = 0 ∧
    (runEvents sqrtf (appPidControl.PID_Process sqrtf clk w).1 evs).mot.pin_EN = false ∧
    devMotorControl.GetSpeed_DAC
      (runEvents sqrtf (appPidControl.PID_Process sqrtf clk w).1 evs) = 0 ∧
    (runEvents sqrtf (appPidControl.PID_Process sqrtf clk w).1 evs).SystemStatus
      = (appPidControl.PID_Process sqrtf clk w).1.SystemStatus ∧
    stdUtils.GetStatus
      (runEvents sqrtf (appPidControl.PID_Process sqrtf clk w).1 evs).SystemStatus
      statusPID_DONE = true ∧
    (runEvents sqrtf (appPidControl.PID_Process sqrtf clk w).1 evs).pidTimer
      = (appPidControl.PID_Process sqrtf clk w).1.pidTimer ∧
    (runEvents sqrtf (appPidControl.PID_Process sqrtf clk w).1 evs).pidUpdatePosTimer
      = (appPidControl.PID_Process sqrtf clk w).1.pidUpdatePosTimer ∧
    (runEvents sqrtf (appPidControl.PID_Process sqrtf clk w).1 evs).ControlState
      = (appPidControl.PID_Process sqrtf clk w).1.ControlState ∧
    ∀ clk2 : Clock,
      appPidControl.PID_Process sqrtf clk2
          (runEvents sqrtf (appPidControl.PID_Process sqrtf clk w).1 evs)
        = (runEvents sqrtf (appPidControl.PID_Process sqrtf clk w).1 evs, false) := by
  have hA := PID_arrived_effect clk
    { w with pidSettings := { w.pidSettings with
        Position := devMotorControl.GetPosition w
        TimeToTarget :=
          (((clk.millis % ULONG_RANGE + ULONG_RANGE - w.pidSettings.startTime)
            % ULONG_RANGE : Nat) : α) / 1000 } }
  rw [← PID_Process_arrived sqrtf clk w hen harr] at hA
  obtain ⟨a1, a2, -, -, a5, -, -, -, a9⟩ := hA
  obtain ⟨b1, b2, b3, b4⟩ := a9 haim
  obtain ⟨r1, r2, r3, r4, r5, r6⟩ :=
    runEvents_disabled sqrtf evs (appPidControl.PID_Process sqrtf clk w).1 b2
  refine ⟨r1, by rw [r1, b2], by rw [r1, b1], by rw [r1, a5], by rw [r2, a1],
    by rw [r2, a2], ?_, r3, by rw [r3, b3], r4, r5, r6, ?_⟩
  · exact GetSpeed_DAC_level_zero _ (by rw [r2, a1])
  · intro clk2
    exact PID_Process_disabled sqrtf clk2 _ (by rw [r1, b2])

/-- C6 (amended) on a run of a controller tick, a sampling tick and another
controller tick after the arrival of `worldArriving`. -/
theorem PID_Process_after_arrival_witness :
    (runEvents sqrtQ (appPidControl.PID_Process sqrtQ clk10 worldArriving).1
      [Event.tick clk20, Event.sample HIGH LOW LOW 20100, Event.tick clk20]).pidSettings.Enable
      = false ∧
    (runEvents sqrtQ (appPidControl.PID_Process sqrtQ clk10 worldArriving).1
      [Event.tick clk20, Event.sample HIGH LOW LOW 20100, Event.tick clk20]).mot.dacLevel
      = 0 ∧
    (runEvents sqrtQ (appPidControl.PID_Process sqrtQ clk10 worldArriving).1
      [Event.tick clk20, Event.sample HIGH LOW LOW 20100, Event.tick clk20]).pidSettings.Speed
      = worldArriving.pidSettings.Speed := by
  have h := PID_Process_after_arrival sqrtQ clk10 worldArriving
    [Event.tick clk20, Event.sample HIGH LOW LOW 20100, Event.tick clk20] rfl rfl
    worldArriving_arrived
  exact ⟨h.2.1, h.2.2.2.2.1, h.2.2.2.1⟩

/-! ## Setting the position -/

/-- C10 (counterexample): with the DAC at level 0 and the encoder reporting a
pulse period of 60000 µs, `GetSpeed_ENC` is non-zero (about 1.46 deg/s) and
`SetPosition 90` is accepted: the position changes from 0 to 1024 pulses. -/
theorem SetPosition_moving_counterexample :
    devMotorControl.GetSpeed_ENC worldCoasting ≠ 0 ∧
    worldCoasting.enc._position = 0 ∧
    (devMotorControl.SetPosition 90 worldCoasting).1.enc._position = 1024 := by
  refine ⟨?_, rfl, ?_⟩
  · norm_num [devMotorControl.GetSpeed_ENC, worldCoasting, worldArriving, encSlow,
      ROTATE_FORWARD, ROTATE_BACKWARD]
  · have h0 : devMotorControl.GetSpeed_DAC worldCoasting = 0 :=
      GetSpeed_DAC_level_zero _ rfl
    have hk : worldCoasting.enc._ZeroOffsetIsKnown = false := rfl
    simp only [devMotorControl.SetPosition, h0, ne_eq, not_true_eq_false, if_false, hk,
      Bool.false_eq_true]
    norm_num [truncToInt, MOTOR_POS_INCREMENT_DEG]

/-- C10 (amended): for every state in which the speed set on the DAC
(`GetSpeed_DAC`) is non-zero and every `newPos`, `SetPosition newPos` is
rejected: the whole state, and so position, zero offset and zero-known flag, is
unchanged. -/
theorem SetPosition_rejected_while_driven {α : Type} [LinearOrderedField α]
    [FloorRing α] (newPos : α) (w : World α)
    (h : devMotorControl.GetSpeed_DAC w ≠ 0) :
    (devMotorControl.SetPosition newPos w).1 = w ∧
    (devMotorControl.SetPosition newPos w).1.enc._position = w.enc._position ∧
    (devMotorControl.SetPosition newPos w).1.enc._zero_offset = w.enc._zero_offset ∧
    (devMotorControl.SetPosition newPos w).1.enc._ZeroOffsetIsKnown
      = w.enc._ZeroOffsetIsKnown := by
  have : (devMotorControl.SetPosition newPos w).1 = w := by
    simp [devMotorControl.SetPosition, h]
  rw [this]
  exact ⟨rfl, rfl, rfl, rfl⟩

theorem worldArriving_driven : devMotorControl.GetSpeed_DAC worldArriving ≠ 0 := by
  norm_num [devMotorControl.GetSpeed_DAC, devMotorControl.ConvertSpeed_RD_degs,
    halTLC5615.GetLevel_abs, worldArriving, motSlow, XferDefault, MOTOR_SPD_INCREMENT_FLT]

/-- C10 (amended) with the DAC at level 71 (about 1.5 deg/s forward):
`SetPosition 90` leaves the state as it is. -/
theorem SetPosition_rejected_while_driven_witness :
    devMotorControl.GetSpeed_DAC worldArriving ≠ 0 ∧
    (devMotorControl.SetPosition 90 worldArriving).1 = worldArriving :=
  ⟨worldArriving_driven,
    (SetPosition_rejected_while_driven 90 worldArriving worldArriving_driven).1⟩

/-! ## Target range check -/

/-- C12: with the calibration state Idle, `GotoPos` rejects every target outside
`[-540, 540]` degrees (it returns `false` and leaves the whole state, and so
target, `Enable`, `aiming`, the errors and the status flags, unchanged) and
accepts every target inside the closed range: it returns `true`, stores the
target and starts the controller (`Enable = aiming = true`). -/
theorem GotoPos_range_check {α : Type} [LinearOrderedField α] [FloorRing α]
    (clk : Clock) (newPos : α) (w : World α) (hidle : w.ControlState = stateIDLE) :
    ((newPos < -540 ∨ 540 < newPos) → appPidControl.GotoPos clk newPos w = (w, false)) ∧
    ((-540 ≤ newPos ∧ newPos ≤ 540) →
      (appPidControl.GotoPos clk newPos w).2 = true ∧
      (appPidControl.GotoPos clk newPos w).1.pidSettings.Target = newPos ∧
      (appPidControl.GotoPos clk newPos w).1.pidSettings.Enable = true ∧
      (appPidControl.GotoPos clk newPos w).1.pidSettings.aiming = true ∧
      (appPidControl.GotoPos clk newPos w).1 =
        appPidControl.Start clk
          { w with pidSettings := { w.pidSettings with Target := newPos } }) := by
  constructor
  · intro hout
    have hcond : newPos < (MOTOR_POS_WRAP_MIN : α) ∨ newPos > (MOTOR_POS_WRAP_MAX : α) := by
      simpa [MOTOR_POS_WRAP_MIN, MOTOR_POS_WRAP_MAX] using hout
    have hst : ¬ (w.ControlState ≠ stateIDLE) := by simp [hidle]
    unfold appPidControl.GotoPos
    rw [if_neg hst]
    simp only [stdUtils.setFloatParam, if_pos hcond]
    rfl
  · rintro ⟨hlo, hhi⟩
    have hcond : ¬ (newPos < (MOTOR_POS_WRAP_MIN : α) ∨ newPos > (MOTOR_POS_WRAP_MAX : α)) := by
      simp only [MOTOR_POS_WRAP_MIN, MOTOR_POS_WRAP_MAX, not_or, not_lt]
      exact ⟨hlo, hhi⟩
    have hst : ¬ (w.ControlState ≠ stateIDLE) := by simp [hidle]
    unfold appPidControl.GotoPos
    rw [if_neg hst]
    simp only [stdUtils.setFloatParam, if_neg hcond]
    exact ⟨rfl, rfl, rfl, rfl, rfl⟩

/-- C12 at the bounds: the targets 540 and -540 are accepted and 541 is
rejected from the idle state `worldCoasting`. -/
theorem GotoPos_range_check_witness :
    (appPidControl.GotoPos clk10 (540 : ℚ) worldCoasting).2 = true ∧
    (appPidControl.GotoPos clk10 (-540 : ℚ) worldCoasting).1.pidSettings.Target = -540 ∧
    appPidControl.GotoPos clk10 (541 : ℚ) worldCoasting = (worldCoasting, false) :=
  ⟨((GotoPos_range_check clk10 (540 : ℚ) worldCoasting rfl).2
      ⟨by norm_num, by norm_num⟩).1,
    ((GotoPos_range_check clk10 (-540 : ℚ) worldCoasting rfl).2
      ⟨by norm_num, by norm_num⟩).2.1,
    (GotoPos_range_check clk10 (541 : ℚ) worldCoasting rfl).1 (Or.inr (by norm_num))⟩

/-! ## Position queries -/

theorem pulses_to_degrees_range {α : Type} [LinearOrderedField α] (n : Int) :
    (-2048 ≤ n ∧ n < 2048) ↔
      ((-180 : α) ≤ (n : α) * MOTOR_POS_INCREMENT_DEG ∧
        (n : α) * MOTOR_POS_INCREMENT_DEG < 180) := by
  have h1 : (n : α) * MOTOR_POS_INCREMENT_DEG = (n : α) * 45 / 512 := by
    unfold MOTOR_POS_INCREMENT_DEG; ring
  rw [h1]
  constructor
  · rintro ⟨a, b⟩
    have a' : ((-2048 : Int) : α) ≤ (n : α) := by exact_mod_cast a
    have b' : (n : α) < ((2048 : Int) : α) := by exact_mod_cast b
    push_cast at a' b'
    constructor
    · rw [le_div_iff₀ (by norm_num)]; linarith
    · rw [div_lt_iff₀ (by norm_num)]; linarith
  · rintro ⟨a, b⟩
    rw [le_div_iff₀ (by norm_num)] at a
    rw [div_lt_iff₀ (by norm_num)] at b
    have a' : ((-2048 : Int) : α) ≤ (n : α) := by push_cast; linarith
    have b' : (n : α) < ((2048 : Int) : α) := by push_cast; linarith
    exact ⟨by exact_mod_cast a', by exact_mod_cast b'⟩

/-- C13 (counterexample): with the zero offset known to be 0 and the position
one full turn (4096 pulses) above it, `GetRealPosition` returns 360 degrees,
which is not below 180, while the position reduced modulo `PPR` into
`[-PPR/2, PPR/2)` is 0. -/
theorem GetRealPosition_unnormalised_counterexample :
    worldOneTurn.enc._ZeroOffsetIsKnown = true ∧
    devMotorControl.GetRealPosition worldOneTurn = 360 ∧
    ¬ (devMotorControl.GetRealPosition worldOneTurn < 180) ∧
    SetOffsetWithinLimit
      ((worldOneTurn.enc._position - worldOneTurn.enc._zero_offset).tmod AMT203_QUAD_PPR)
      = 0 := by
  decide!

/-- C13 (amended): whenever the zero offset is known, `GetRealPosition` returns
`(position - zero_offset) × 360/PPR` without reduction modulo `PPR`, so that
`GetPosition = GetRealPosition + GetZeroOffset`; it differs from the value
normalised into `[-PPR/2, PPR/2)` by a whole number of turns, and it lies in
`[-180, 180)` exactly when `position - zero_offset` lies in `[-PPR/2, PPR/2)`. -/
theorem GetRealPosition_known {α : Type} [LinearOrderedField α] [FloorRing α]
    (w : World α) (hk : w.enc._ZeroOffsetIsKnown = true) :
    devMotorControl.GetRealPosition w =
      ((w.enc._position - w.enc._zero_offset : Int) : α) * (360 / 4096) ∧
    devMotorControl.GetPosition w =
      devMotorControl.GetRealPosition w + devMotorControl.GetZeroOffset w ∧
    (∃ k : Int, devMotorControl.GetRealPosition w =
      ((SetOffsetWithinLimit
        ((w.enc._position - w.enc._zero_offset).tmod AMT203_QUAD_PPR) : Int) : α)
        * (360 / 4096) + 360 * (k : α)) ∧
    ((-2048 ≤ w.enc._position - w.enc._zero_offset ∧
        w.enc._position - w.enc._zero_offset < 2048) ↔
      ((-180 : α) ≤ devMotorControl.GetRealPosition w ∧
        devMotorControl.GetRealPosition w < 180)) := by
  have hreal : devMotorControl.GetRealPosition w =
      ((w.enc._position - w.enc._zero_offset : Int) : α) * MOTOR_POS_INCREMENT_DEG := by
    simp [devMotorControl.GetRealPosition, hk]
  have hzero : devMotorControl.GetZeroOffset w =
      ((w.enc._zero_offset : Int) : α) * MOTOR_POS_INCREMENT_DEG := by
    simp [devMotorControl.GetZeroOffset, hk]
  refine ⟨?_, ?_, ?_, ?_⟩
  · rw [hreal, MOTOR_POS_INCREMENT_DEG]
  · rw [hreal, hzero, devMotorControl.GetPosition]
    push_cast
    ring
  · obtain ⟨-, -, h3⟩ := SetOffsetWithinLimit_tmod (w.enc._position - w.enc._zero_offset)
    obtain ⟨k, hk'⟩ := Int.dvd_of_emod_eq_zero h3
    refine ⟨-k, ?_⟩
    have hp : ((w.enc._position - w.enc._zero_offset : Int) : α) =
        ((SetOffsetWithinLimit
          ((w.enc._position - w.enc._zero_offset).tmod AMT203_QUAD_PPR) : Int) : α)
          - 4096 * (k : α) := by
      have : w.enc._position - w.enc._zero_offset =
          SetOffsetWithinLimit
            ((w.enc._position - w.enc._zero_offset).tmod AMT203_QUAD_PPR) - 4096 * k := by
        omega
      exact_mod_cast this
    rw [hreal, hp, MOTOR_POS_INCREMENT_DEG]
    push_cast
    ring
  · rw [hreal]
    exact pulses_to_degrees_range _

/-- C13 (amended) one full turn above a known zero: the real position is 360
degrees. -/
theorem GetRealPosition_known_witness :
    devMotorControl.GetRealPosition worldOneTurn =
      ((worldOneTurn.enc._position - worldOneTurn.enc._zero_offset : Int) : ℚ)
        * (360 / 4096) ∧
    devMotorControl.GetPosition worldOneTurn =
      devMotorControl.GetRealPosition worldOneTurn
        + devMotorControl.GetZeroOffset worldOneTurn :=
  ⟨(GetRealPosition_known worldOneTurn rfl).1, (GetRealPosition_known worldOneTurn rfl).2.1⟩

/-- C14 (counterexample): with the zero offset known to be 0 and the position
at -11377 pulses, `GetRealPosition` returns the very value it returns when the
zero offset is unknown. -/
theorem GetRealPosition_sentinel_counterexample :
    worldFarBelow.enc._ZeroOffsetIsKnown = true ∧
    worldCoasting.enc._ZeroOffsetIsKnown = false ∧
    devMotorControl.GetRealPosition worldFarBelow
      = devMotorControl.GetRealPosition worldCoasting ∧
    devMotorControl.GetRealPosition worldFarBelow = -11377 * (360 / 4096) := by
  decide!

/-- C14 (amended): whenever the zero offset is unknown, `GetRealPosition` and
`GetZeroOffset` both return the sentinel `-11377 × 360/4096` degrees, which is
below -180 and has magnitude at least 361; whenever it is known,
`GetZeroOffset` returns `zero_offset × 360/PPR`, which for an offset in
`[-PPR/2, PPR/2)` lies in `[-180, 180)` and so differs from the sentinel. -/
theorem unknown_position_sentinel {α : Type} [LinearOrderedField α] [FloorRing α]
    (w : World α) :
    (w.enc._ZeroOffsetIsKnown = false →
      devMotorControl.GetRealPosition w = -11377 * (360 / 4096) ∧
      devMotorControl.GetZeroOffset w = -11377 * (360 / 4096)) ∧
    ((-11377 : α) * (360 / 4096) < -180 ∧ 361 ≤ |(-11377 : α) * (360 / 4096)|) ∧
    (w.enc._ZeroOffsetIsKnown = true →
      devMotorControl.GetZeroOffset w = (w.enc._zero_offset : α) * (360 / 4096)) ∧
    (w.enc._ZeroOffsetIsKnown = true → -2048 ≤ w.enc._zero_offset →
      w.enc._zero_offset < 2048 →
      -180 ≤ devMotorControl.GetZeroOffset w ∧ devMotorControl.GetZeroOffset w < 180 ∧
      devMotorControl.GetZeroOffset w ≠ -11377 * (360 / 4096)) := by
  have hs : (-11377 : α) * (360 / 4096) < -180 := by norm_num
  refine ⟨?_, ⟨hs, ?_⟩, ?_, ?_⟩
  · intro hk
    simp [devMotorControl.GetRealPosition, devMotorControl.GetZeroOffset, hk, UNKNOWNPOS,
      MOTOR_POS_INCREMENT_DEG]
  · rw [abs_of_neg (by linarith)]
    norm_num
  · intro hk
    simp [devMotorControl.GetZeroOffset, hk, MOTOR_POS_INCREMENT_DEG]
  · intro hk hlo hhi
    have hz : devMotorControl.GetZeroOffset w =
        (w.enc._zero_offset : α) * MOTOR_POS_INCREMENT_DEG := by
      simp [devMotorControl.GetZeroOffset, hk]
    have hr := (pulses_to_degrees_range (α := α) w.enc._zero_offset).1 ⟨hlo, hhi⟩
    rw [← hz] at hr
    exact ⟨hr.1, hr.2, fun h => by rw [h] at hr; linarith [hr.1]⟩

/-- C14 (amended) on a state whose zero offset is unknown and on one where it is
known to be 0. -/
theorem unknown_position_sentinel_witness :
    (devMotorControl.GetRealPosition worldCoasting = -11377 * (360 / 4096) ∧
      devMotorControl.GetZeroOffset worldCoasting = -11377 * (360 / 4096)) ∧
    devMotorControl.GetZeroOffset worldOneTurn
      = (worldOneTurn.enc._zero_offset : ℚ) * (360 / 4096) :=
  ⟨(unknown_position_sentinel worldCoasting).1 rfl,
    (unknown_position_sentinel worldOneTurn).2.2.1 rfl⟩

/-- C17: for every state, `Start` leaves the target, the gains and the limits
unchanged, clears `intError`, `error` and `derError`, loads `Speed` with
`GetSpeed_DAC`, snapshots `startPos` from `GetPosition`, sets `Enable` and
`aiming`, sets PID-busy and clears PID-done. -/
theorem Start_effect {α : Type} [LinearOrderedField α] [FloorRing α]
    (clk : Clock) (w : World α) :
    (appPidControl.Start clk w).pidSettings.Target = w.pidSettings.Target ∧
    (appPidControl.Start clk w).pidSettings.Kp = w.pidSettings.Kp ∧
    (appPidControl.Start clk w).pidSettings.Ki = w.pidSettings.Ki ∧
    (appPidControl.Start clk w).pidSettings.Kd = w.pidSettings.Kd ∧
    (appPidControl.Start clk w).pidSettings.Period = w.pidSettings.Period ∧
    (appPidControl.Start clk w).pidSettings.bias = w.pidSettings.bias ∧
    (appPidControl.Start clk w).pidSettings.MaxAccel = w.pidSettings.MaxAccel ∧
    (appPidControl.Start clk w).pidSettings.MaxSpeed = w.pidSettings.MaxSpeed ∧
    (appPidControl.Start clk w).pidSettings.MinSpeed = w.pidSettings.MinSpeed ∧
    (appPidControl.Start clk w).pidSettings.intError = 0 ∧
    (appPidControl.Start clk w).pidSettings.error = 0 ∧
    (appPidControl.Start clk w).pidSettings.derError = 0 ∧
    (appPidControl.Start clk w).pidSettings.Speed = devMotorControl.GetSpeed_DAC w ∧
    (appPidControl.Start clk w).pidSettings.startPos = devMotorControl.GetPosition w ∧
    (appPidControl.Start clk w).pidSettings.Enable = true ∧
    (appPidControl.Start clk w).pidSettings.aiming = true ∧
    stdUtils.GetStatus (appPidControl.Start clk w).SystemStatus statusPID_BUSY = true ∧
    stdUtils.GetStatus (appPidControl.Start clk w).SystemStatus statusPID_DONE = false ∧
    (appPidControl.Start clk w).enc = w.enc ∧
    (appPidControl.Start clk w).mot = w.mot := by
  refine ⟨rfl, rfl, rfl, rfl, rfl, rfl, rfl, rfl, rfl, rfl, rfl, rfl, rfl, rfl, rfl, rfl,
    ?_, ?_, rfl, rfl⟩
  · simp only [appPidControl.Start]
    rw [status_masks.2.2.2.1, status_masks.2.2.1, GetStatus_bit,
      testBit_ClearStatus _ _ _ (by norm_num), testBit_SetStatus]
    simp
  · simp only [appPidControl.Start]
    rw [status_masks.2.2.2.1, status_masks.2.2.1, GetStatus_bit,
      testBit_ClearStatus _ _ _ (by norm_num)]
    simp

/-! ## Start and stop of the controller -/

section StopStatus

variable {α : Type} [LinearOrderedField α] [FloorRing α]

theorem devMotorControl_Stop_status
    (clk : Clock) (w : World α) (j : Nat) (hj : j < 8) (h2 : 2 ≠ j) :
    (devMotorControl.Stop clk w).SystemStatus.testBit j
      = (w.SystemStatus.testBit j && !decide (1 = j)) := by
  have h : (devMotorControl.Stop clk w).SystemStatus =
      stdUtils.ClearStatus (devMotorControl.SetSpeed_abs 0 w).1.SystemStatus (2 ^ 1) := rfl
  rw [h, testBit_ClearStatus _ _ _ (by norm_num)]
  by_cases h1 : 1 = j
  · simp [h1]
  · rw [SetSpeed_abs_status _ _ j hj h1 h2]
    simp [hj, h1]

end StopStatus

/-- C18: for every state, after `appPidControl::Stop` the flags `aiming` and
`Enable` are false, the DAC level is 0 with the motor-enable output off, and the
moving, PID-busy and PID-done flags are cleared. -/
theorem appPidControl_Stop_effect {α : Type} [LinearOrderedField α] [FloorRing α]
    (clk : Clock) (w : World α) :
    (appPidControl.Stop clk w).pidSettings.aiming = false ∧
    (appPidControl.Stop clk w).pidSettings.Enable = false ∧
    (appPidControl.Stop clk w).mot.dacLevel = 0 ∧
    (appPidControl.Stop clk w).mot.pin_EN = false ∧
    (appPidControl.Stop clk w).mot._enabled = false ∧
    stdUtils.GetStatus (appPidControl.Stop clk w).SystemStatus statusMOVING = false ∧
    stdUtils.GetStatus (appPidControl.Stop clk w).SystemStatus statusPID_BUSY = false ∧
    stdUtils.GetStatus (appPidControl.Stop clk w).SystemStatus statusPID_DONE = false := by
  unfold appPidControl.Stop
  simp only []
  obtain ⟨hpid, -, -, -, hmot⟩ := Stop_effect clk
    ({ w with
      pidSettings := { w.pidSettings with
        aiming := false
        Speed := devMotorControl.GetSpeed_DAC w
        Enable := false }
      SystemStatus :=
        stdUtils.ClearStatus (stdUtils.ClearStatus w.SystemStatus statusPID_BUSY)
          statusPID_DONE } : World α)
  refine ⟨by rw [hpid], by rw [hpid], by rw [hmot], by rw [hmot], by rw [hmot], ?_, ?_, ?_⟩
  · rw [status_masks.1, GetStatus_bit,
      devMotorControl_Stop_status _ _ 1 (by norm_num) (by norm_num)]
    simp
  · rw [status_masks.2.2.1, GetStatus_bit,
      devMotorControl_Stop_status _ _ 3 (by norm_num) (by norm_num)]
    simp only [status_masks.2.2.2.1, status_masks.2.2.1]
    rw [testBit_ClearStatus _ _ _ (by norm_num), testBit_ClearStatus _ _ _ (by norm_num)]
    simp
  · rw [status_masks.2.2.2.1, GetStatus_bit,
      devMotorControl_Stop_status _ _ 4 (by norm_num) (by norm_num)]
    simp only [status_masks.2.2.1]
    rw [testBit_ClearStatus _ _ _ (by norm_num)]
    simp

/-- C19: whenever `Enable` is false, `PID_Process` returns `false` and leaves the
whole state (controller settings, status byte, encoder variables, actuator
outputs and timers) as it was. -/
theorem PID_Process_noop_when_disabled {α : Type} [LinearOrderedField α] [FloorRing α]
    (sqrtf : α → α) (clk : Clock) (w : World α) (h : w.pidSettings.Enable = false) :
    (appPidControl.PID_Process sqrtf clk w).2 = false ∧
    (appPidControl.PID_Process sqrtf clk w).1 = w ∧
    (appPidControl.PID_Process sqrtf clk w).1.pidSettings = w.pidSettings ∧
    (appPidControl.PID_Process sqrtf clk w).1.SystemStatus = w.SystemStatus ∧
    (appPidControl.PID_Process sqrtf clk w).1.enc = w.enc ∧
    (appPidControl.PID_Process sqrtf clk w).1.mot = w.mot := by
  rw [PID_Process_disabled sqrtf clk w h]
  exact ⟨rfl, rfl, rfl, rfl, rfl, rfl⟩

/-- C19 on the idle state `worldCoasting`, whose controller is disabled. -/
theorem PID_Process_noop_when_disabled_witness :
    (appPidControl.PID_Process sqrtQ clk10 worldCoasting).2 = false ∧
    (appPidControl.PID_Process sqrtQ clk10 worldCoasting).1 = worldCoasting :=
  ⟨(PID_Process_noop_when_disabled sqrtQ clk10 worldCoasting rfl).1,
    (PID_Process_noop_when_disabled sqrtQ clk10 worldCoasting rfl).2.1⟩

/-- C20 (counterexample): from a shaft at rest at 90 degrees (1024 pulses)
`StartCalibration` sets the target to 360 degrees, which is 270 and not 360
degrees away from the current position. -/
theorem StartCalibration_target_counterexample :
    devMotorControl.GetPosition worldQuarterTurn = 90 ∧
    (appPidControl.StartCalibration clk10 worldQuarterTurn).pidSettings.Target = 360 ∧
    (appPidControl.StartCalibration clk10 worldQuarterTurn).pidSettings.Target
      ≠ devMotorControl.GetPosition worldQuarterTurn + 360 := by
  decide!

/-- C20 (amended): for every state, `StartCalibration` sets the calibration state
to `stateCAL_SEARCH`, sets calibration-busy and starts the controller
(`Enable = aiming = true`, PID-busy set, PID-done cleared) with the absolute
target 360 degrees; that target is 360 degrees away from the current position
exactly when the current position is 0. -/
theorem StartCalibration_effect {α : Type} [LinearOrderedField α] [FloorRing α]
    (clk : Clock) (w : World α) :
    (appPidControl.StartCalibration clk w).ControlState = stateCAL_SEARCH ∧
    stdUtils.GetStatus (appPidControl.StartCalibration clk w).SystemStatus
      statusCALIB_BUSY = true ∧
    (appPidControl.StartCalibration clk w).pidSettings.Enable = true ∧
    (appPidControl.StartCalibration clk w).pidSettings.aiming = true ∧
    stdUtils.GetStatus (appPidControl.StartCalibration clk w).SystemStatus
      statusPID_BUSY = true ∧
    stdUtils.GetStatus (appPidControl.StartCalibration clk w).SystemStatus
      statusPID_DONE = false ∧
    (appPidControl.StartCalibration clk w).pidSettings.Target = 360 ∧
    ((appPidControl.StartCalibration clk w).pidSettings.Target
        = devMotorControl.GetPosition w + 360 ↔ w.enc._position = 0) := by
  refine ⟨rfl, ?_, rfl, rfl, ?_, ?_, rfl, ?_⟩
  · simp only [appPidControl.StartCalibration, appPidControl.Start]
    rw [status_masks.2.2.2.1, status_masks.2.2.1, status_masks.2.2.2.2, GetStatus_bit,
      testBit_ClearStatus _ _ _ (by norm_num), testBit_SetStatus, testBit_SetStatus]
    simp
  · simp only [appPidControl.StartCalibration, appPidControl.Start]
    rw [status_masks.2.2.2.1, status_masks.2.2.1, GetStatus_bit,
      testBit_ClearStatus _ _ _ (by norm_num), testBit_SetStatus]
    simp
  · simp only [appPidControl.StartCalibration, appPidControl.Start]
    rw [status_masks.2.2.2.1, status_masks.2.2.1, GetStatus_bit,
      testBit_ClearStatus _ _ _ (by norm_num)]
    simp
  · have ht : (appPidControl.StartCalibration clk w).pidSettings.Target = 360 := rfl
    rw [ht, devMotorControl.GetPosition, MOTOR_POS_INCREMENT_DEG]
    constructor
    · intro h
      have h0 : ((w.enc._position : Int) : α) * (360 / 4096) = 0 := by linarith
      have : ((w.enc._position : Int) : α) = 0 := by
        rcases mul_eq_zero.mp h0 with h1 | h1
        · exact h1
        · norm_num at h1
      exact_mod_cast this
    · intro h
      rw [h]; simp

/-! ## Index edges -/

theorem debounceInput_falling_level (input : ST_PIN_DEBOUNCE) (level count : Int)
    (h : (stdUtils.debounceInput input level count).2 = INPUT_EDGE_FALLING) :
    (stdUtils.debounceInput input level count).1.CurrentState ≠ HIGH := by
  simp only [stdUtils.debounceInput] at h ⊢
  by_cases h1 : input.CurrentState = level
  · simp [h1, INPUT_EDGE_NONE, INPUT_EDGE_FALLING] at h
  · by_cases h2 : input.DebounceCount + 1 < count
    · simp [h1, h2, INPUT_EDGE_NONE, INPUT_EDGE_FALLING] at h
    · by_cases h3 : level = HIGH
      · rw [if_neg h1, if_neg h2, if_pos h3] at h
        have h' : INPUT_EDGE_RISING = INPUT_EDGE_FALLING := h
        exact absurd h' (by decide)
      · rw [if_neg h1, if_neg h2]; exact h3

/-- C15 (failing input): the index channel is stable `HIGH` with one `LOW` sample
pending and the zero offset is marked unknown; the next `LOW` sample reports a
falling edge, and the tick sets `_ZeroOffsetIsKnown` although no offset was
measured. -/
theorem TimerInterruptCallback_index_falling_sets_known :
    devMotorControl.pinX_edge encIndexHigh LOW = INPUT_EDGE_FALLING ∧
    encIndexHigh._ZeroOffsetIsKnown = false ∧
    (devMotorControl.TimerInterruptCallback LOW LOW LOW 100 encIndexHigh)._ZeroOffsetIsKnown
      = true ∧
    (devMotorControl.TimerInterruptCallback LOW LOW LOW 100 encIndexHigh)._zero_offset
      = encIndexHigh._zero_offset := by
  decide

/-- A falling index edge leaves the zero reference alone when the offset is
already known and lies in `[-PPR/2, PPR/2)`: the flag stays set and the
re-normalisation of the stored offset changes nothing. -/
theorem TimerInterruptCallback_index_falling_known (e : EncoderState)
    (pinA pinB pinX : Int) (micros : Nat)
    (h : devMotorControl.pinX_edge e pinX = INPUT_EDGE_FALLING)
    (hk : e._ZeroOffsetIsKnown = true)
    (hlo : -2048 ≤ e._zero_offset) (hhi : e._zero_offset < 2048) :
    (devMotorControl.TimerInterruptCallback pinA pinB pinX micros e)._ZeroOffsetIsKnown
      = e._ZeroOffsetIsKnown ∧
    (devMotorControl.TimerInterruptCallback pinA pinB pinX micros e)._zero_offset
      = e._zero_offset := by
  rw [hk]
  have hlvl := debounceInput_falling_level _ _ _ h
  have hx : (stdUtils.debounceInput e.debounceInput_X pinX AMT203_DEBOUNCE_CNT).2 ≠ 0 := by
    have h' := h
    simp only [devMotorControl.pinX_edge] at h'
    rw [h']; decide
  have hso : SetOffsetWithinLimit e._zero_offset = e._zero_offset := by
    simp only [SetOffsetWithinLimit, AMT203_QUAD_PPR, AMT203_QUAD_PPR_NEG_OFFSET]
    split_ifs <;> omega
  simp only [devMotorControl.TimerInterruptCallback, hx, ne_eq, not_false_eq_true, if_true]
  split_ifs <;>
    simp [devMotorControl.indexStep, devMotorControl.quadratureStep, hlvl, hso]

/-! ## Direction over an encoder cycle -/

theorem TimerInterruptCallback_AB (e : EncoderState) (pinA pinB pinX : Int) (micros : Nat) :
    (devMotorControl.TimerInterruptCallback pinA pinB pinX micros e).debounceInput_A
      = (stdUtils.debounceInput e.debounceInput_A pinA AMT203_DEBOUNCE_CNT).1 ∧
    (devMotorControl.TimerInterruptCallback pinA pinB pinX micros e).debounceInput_B
      = (stdUtils.debounceInput e.debounceInput_B pinB AMT203_DEBOUNCE_CNT).1 ∧
    (devMotorControl.TimerInterruptCallback pinA pinB pinX micros e)._direction
      = (if devMotorControl.pinA_edge e pinA ≠ 0 ∨ devMotorControl.pinB_edge e pinB ≠ 0 then
          (devMotorControl.quadratureStep (devMotorControl.pinA_edge e pinA)
            (devMotorControl.pinB_edge e pinB) micros
            { e with
              debounceInput_A :=
                (stdUtils.debounceInput e.debounceInput_A pinA AMT203_DEBOUNCE_CNT).1
              debounceInput_B :=
                (stdUtils.debounceInput e.debounceInput_B pinB AMT203_DEBOUNCE_CNT).1 })._direction
        else e._direction) ∧
    (devMotorControl.TimerInterruptCallback pinA pinB pinX micros e)._position
      = (if devMotorControl.pinA_edge e pinA ≠ 0 ∨ devMotorControl.pinB_edge e pinB ≠ 0 then
          (devMotorControl.quadratureStep (devMotorControl.pinA_edge e pinA)
            (devMotorControl.pinB_edge e pinB) micros
            { e with
              debounceInput_A :=
                (stdUtils.debounceInput e.debounceInput_A pinA AMT203_DEBOUNCE_CNT).1
              debounceInput_B :=
                (stdUtils.debounceInput e.debounceInput_B pinB AMT203_DEBOUNCE_CNT).1 })._position
        else e._position) := by
  simp only [devMotorControl.TimerInterruptCallback, devMotorControl.pinA_edge,
    devMotorControl.pinB_edge]
  refine ⟨?_, ?_, ?_, ?_⟩ <;> split_ifs <;>
    simp [devMotorControl.indexStep, devMotorControl.quadratureStep]

theorem sampleRun_append (e : EncoderState) (xs ys : List PinSample) :
    sampleRun e (xs ++ ys) = sampleRun (sampleRun e xs) ys := by
  simp [sampleRun, List.foldl_append]

/-- Two consecutive samples that change phase A to `new` while phase B stays at
its stable level: the second one commits the edge on A, and the direction is
forward when the new A differs from B and backward when it equals B. -/
theorem edge_on_A (e : EncoderState) (la lb cb new : Int) (x1 x2 : Int) (t1 t2 : Nat)
    (hA : e.debounceInput_A = ⟨la, 0⟩) (hB : e.debounceInput_B = ⟨lb, cb⟩)
    (hne : la ≠ new) :
    (sampleRun e [⟨new, lb, x1, t1⟩])._position = e._position ∧
    (sampleRun e [⟨new, lb, x1, t1⟩, ⟨new, lb, x2, t2⟩]).debounceInput_A = ⟨new, 2⟩ ∧
    (sampleRun e [⟨new, lb, x1, t1⟩, ⟨new, lb, x2, t2⟩]).debounceInput_B = ⟨lb, 0⟩ ∧
    (sampleRun e [⟨new, lb, x1, t1⟩, ⟨new, lb, x2, t2⟩])._direction
      = (if new ≠ lb then ROTATE_FORWARD else ROTATE_BACKWARD) ∧
    (sampleRun e [⟨new, lb, x1, t1⟩, ⟨new, lb, x2, t2⟩])._position
      = e._position + (if new ≠ lb then ROTATE_FORWARD else ROTATE_BACKWARD) := by
  obtain ⟨a1, b1, d1, p1⟩ := TimerInterruptCallback_AB e new lb x1 t1
  have hA1 : stdUtils.debounceInput e.debounceInput_A new AMT203_DEBOUNCE_CNT
      = (⟨la, 1⟩, INPUT_EDGE_NONE) := by
    rw [hA]; simp [stdUtils.debounceInput, hne, AMT203_DEBOUNCE_CNT]
  have hB1 : stdUtils.debounceInput e.debounceInput_B lb AMT203_DEBOUNCE_CNT
      = (⟨lb, 0⟩, INPUT_EDGE_NONE) := by
    rw [hB]; simp [stdUtils.debounceInput]
  simp only [devMotorControl.pinA_edge, devMotorControl.pinB_edge, hA1, hB1,
    INPUT_EDGE_NONE, ne_eq, not_true_eq_false, or_self, if_false] at a1 b1 d1 p1
  obtain ⟨a2, b2, d2, p2⟩ := TimerInterruptCallback_AB
    (devMotorControl.TimerInterruptCallback new lb x1 t1 e) new lb x2 t2
  have hA2 : stdUtils.debounceInput ⟨la, 1⟩ new AMT203_DEBOUNCE_CNT
      = (⟨new, 2⟩, if new = HIGH then INPUT_EDGE_RISING else INPUT_EDGE_FALLING) := by
    simp [stdUtils.debounceInput, hne, AMT203_DEBOUNCE_CNT]
  have hB2 : stdUtils.debounceInput ⟨lb, 0⟩ lb AMT203_DEBOUNCE_CNT
      = (⟨lb, 0⟩, INPUT_EDGE_NONE) := by
    simp [stdUtils.debounceInput]
  have hedge : (if new = HIGH then INPUT_EDGE_RISING else INPUT_EDGE_FALLING) ≠ 0 := by
    split_ifs <;> decide
  simp only [devMotorControl.pinA_edge, devMotorControl.pinB_edge, a1, b1, hA2, hB2,
    devMotorControl.quadratureStep, hedge, INPUT_EDGE_NONE, ne_eq, not_true_eq_false,
    not_false_eq_true, true_or, if_true, true_and, false_and, or_false, false_or,
    p1, d1] at a2 b2 d2 p2
  refine ⟨?_, ?_, ?_, ?_, ?_⟩
  · simpa [sampleRun] using p1
  · simpa [sampleRun] using a2
  · simpa [sampleRun] using b2
  · simp only [sampleRun, List.foldl_cons, List.foldl_nil]
    rw [d2]
    by_cases h : new = lb <;> simp [h]
  · simp only [sampleRun, List.foldl_cons, List.foldl_nil]
    rw [p2]
    by_cases h : new = lb <;> simp [h]

/-- Two consecutive samples that change phase B to `new` while phase A stays at
its stable level: the second one commits the edge on B, and the direction is
forward when the new B equals A and backward when it differs from A. -/
theorem edge_on_B (e : EncoderState) (la ca lb new : Int) (x1 x2 : Int) (t1 t2 : Nat)
    (hA : e.debounceInput_A = ⟨la, ca⟩) (hB : e.debounceInput_B = ⟨lb, 0⟩)
    (hne : lb ≠ new) :
    (sampleRun e [⟨la, new, x1, t1⟩])._position = e._position ∧
    (sampleRun e [⟨la, new, x1, t1⟩, ⟨la, new, x2, t2⟩]).debounceInput_A = ⟨la, 0⟩ ∧
    (sampleRun e [⟨la, new, x1, t1⟩, ⟨la, new, x2, t2⟩]).debounceInput_B = ⟨new, 2⟩ ∧
    (sampleRun e [⟨la, new, x1, t1⟩, ⟨la, new, x2, t2⟩])._direction
      = (if la = new then ROTATE_FORWARD else ROTATE_BACKWARD) ∧
    (sampleRun e [⟨la, new, x1, t1⟩, ⟨la, new, x2, t2⟩])._position
      = e._position + (if la = new then ROTATE_FORWARD else ROTATE_BACKWARD) := by
  obtain ⟨a1, b1, d1, p1⟩ := TimerInterruptCallback_AB e la new x1 t1
  have hA1 : stdUtils.debounceInput e.debounceInput_A la AMT203_DEBOUNCE_CNT
      = (⟨la, 0⟩, INPUT_EDGE_NONE) := by
    rw [hA]; simp [stdUtils.debounceInput]
  have hB1 : stdUtils.debounceInput e.debounceInput_B new AMT203_DEBOUNCE_CNT
      = (⟨lb, 1⟩, INPUT_EDGE_NONE) := by
    rw [hB]; simp [stdUtils.debounceInput, hne, AMT203_DEBOUNCE_CNT]
  simp only [devMotorControl.pinA_edge, devMotorControl.pinB_edge, hA1, hB1,
    INPUT_EDGE_NONE, ne_eq, not_true_eq_false, or_self, if_false] at a1 b1 d1 p1
  obtain ⟨a2, b2, d2, p2⟩ := TimerInterruptCallback_AB
    (devMotorControl.TimerInterruptCallback la new x1 t1 e) la new x2 t2
  have hA2 : stdUtils.debounceInput ⟨la, 0⟩ la AMT203_DEBOUNCE_CNT
      = (⟨la, 0⟩, INPUT_EDGE_NONE) := by
    simp [stdUtils.debounceInput]
  have hB2 : stdUtils.debounceInput ⟨lb, 1⟩ new AMT203_DEBOUNCE_CNT
      = (⟨new, 2⟩, if new = HIGH then INPUT_EDGE_RISING else INPUT_EDGE_FALLING) := by
    simp [stdUtils.debounceInput, hne, AMT203_DEBOUNCE_CNT]
  have hedge : (if new = HIGH then INPUT_EDGE_RISING else INPUT_EDGE_FALLING) ≠ 0 := by
    split_ifs <;> decide
  simp only [devMotorControl.pinA_edge, devMotorControl.pinB_edge, a1, b1, hA2, hB2,
    devMotorControl.quadratureStep, hedge, INPUT_EDGE_NONE, ne_eq, not_true_eq_false,
    not_false_eq_true, or_true, if_true, true_and, false_and, or_false, false_or,
    p1, d1] at a2 b2 d2 p2
  refine ⟨?_, ?_, ?_, ?_, ?_⟩
  · simpa [sampleRun] using p1
  · simpa [sampleRun] using a2
  · simpa [sampleRun] using b2
  · simp only [sampleRun, List.foldl_cons, List.foldl_nil]
    rw [d2]
    by_cases h : la = new <;> simp [h]
  · simp only [sampleRun, List.foldl_cons, List.foldl_nil]
    rw [p2]
    by_cases h : la = new <;> simp [h]

/-- One sampling tick that reads `new` on phase A while phase B reads its
debounced level: phase B reports no edge and clears its count; when phase A
reports an edge the direction becomes forward if the new A differs from B and
backward if it equals B, and the position moves by that direction; otherwise
direction and position are unchanged. -/
theorem tick_on_A (e : EncoderState) (lb new : Int) (x : Int) (t : Nat)
    (hB : e.debounceInput_B.CurrentState = lb) :
    (devMotorControl.TimerInterruptCallback new lb x t e).debounceInput_A
      = (stdUtils.debounceInput e.debounceInput_A new AMT203_DEBOUNCE_CNT).1 ∧
    (devMotorControl.TimerInterruptCallback new lb x t e).debounceInput_B
      = { e.debounceInput_B with DebounceCount := 0 } ∧
    (devMotorControl.TimerInterruptCallback new lb x t e)._direction
      = (if (stdUtils.debounceInput e.debounceInput_A new AMT203_DEBOUNCE_CNT).2 ≠ 0 then
          (if (stdUtils.debounceInput e.debounceInput_A new
                AMT203_DEBOUNCE_CNT).1.CurrentState ≠ lb
            then ROTATE_FORWARD else ROTATE_BACKWARD)
        else e._direction) ∧
    (devMotorControl.TimerInterruptCallback new lb x t e)._position
      = (if (stdUtils.debounceInput e.debounceInput_A new AMT203_DEBOUNCE_CNT).2 ≠ 0 then
          e._position +
            (if (stdUtils.debounceInput e.debounceInput_A new
                  AMT203_DEBOUNCE_CNT).1.CurrentState ≠ lb
              then ROTATE_FORWARD else ROTATE_BACKWARD)
        else e._position) := by
  obtain ⟨a1, b1, d1, p1⟩ := TimerInterruptCallback_AB e new lb x t
  have hB1 : stdUtils.debounceInput e.debounceInput_B lb AMT203_DEBOUNCE_CNT
      = ({ e.debounceInput_B with DebounceCount := 0 }, INPUT_EDGE_NONE) := by
    simp [stdUtils.debounceInput, hB]
  rw [hB1] at b1
  simp only [devMotorControl.pinA_edge, devMotorControl.pinB_edge, hB1, INPUT_EDGE_NONE,
    ne_eq, not_true_eq_false, or_false, devMotorControl.quadratureStep, false_and,
    hB] at d1 p1
  refine ⟨a1, b1, ?_, ?_⟩
  · rw [d1]
    by_cases hedge : (stdUtils.debounceInput e.debounceInput_A new AMT203_DEBOUNCE_CNT).2 = 0
    · simp [hedge]
    · by_cases hl : (stdUtils.debounceInput e.debounceInput_A new
          AMT203_DEBOUNCE_CNT).1.CurrentState = lb <;> simp [hedge, hl]
  · rw [p1]
    by_cases hedge : (stdUtils.debounceInput e.debounceInput_A new AMT203_DEBOUNCE_CNT).2 = 0
    · simp [hedge]
    · by_cases hl : (stdUtils.debounceInput e.debounceInput_A new
          AMT203_DEBOUNCE_CNT).1.CurrentState = lb <;> simp [hedge, hl]

/-- Two consecutive samples of a level that differs from the debounced level of
a channel whose count is not negative: exactly one of the two calls reports an
edge (the second when the count was 0, the first when a count was left over),
and afterwards the debounced level is the new one with a non-negative count. -/
theorem debounceInput_two_samples (input : ST_PIN_DEBOUNCE) (new : Int)
    (hne : input.CurrentState ≠ new) (hc : 0 ≤ input.DebounceCount) :
    ((stdUtils.debounceInput input new AMT203_DEBOUNCE_CNT).2 = 0 ∧
      (stdUtils.debounceInput input new AMT203_DEBOUNCE_CNT).1.CurrentState
        = input.CurrentState ∧
      (stdUtils.debounceInput (stdUtils.debounceInput input new AMT203_DEBOUNCE_CNT).1 new
        AMT203_DEBOUNCE_CNT).2 ≠ 0 ∨
     (stdUtils.debounceInput input new AMT203_DEBOUNCE_CNT).2 ≠ 0 ∧
      (stdUtils.debounceInput input new AMT203_DEBOUNCE_CNT).1.CurrentState = new ∧
      (stdUtils.debounceInput (stdUtils.debounceInput input new AMT203_DEBOUNCE_CNT).1 new
        AMT203_DEBOUNCE_CNT).2 = 0) ∧
    (stdUtils.debounceInput (stdUtils.debounceInput input new AMT203_DEBOUNCE_CNT).1 new
      AMT203_DEBOUNCE_CNT).1.CurrentState = new ∧
    0 ≤ (stdUtils.debounceInput (stdUtils.debounceInput input new AMT203_DEBOUNCE_CNT).1 new
      AMT203_DEBOUNCE_CNT).1.DebounceCount := by
  obtain ⟨l, c⟩ := input
  simp only at hne hc
  have hedge : (if new = HIGH then INPUT_EDGE_RISING else INPUT_EDGE_FALLING) ≠ 0 := by
    split_ifs <;> decide
  by_cases h1 : c + 1 < 2
  · have hc0 : c = 0 := by omega
    subst hc0
    have r1 : stdUtils.debounceInput ⟨l, 0⟩ new AMT203_DEBOUNCE_CNT
        = (⟨l, 1⟩, INPUT_EDGE_NONE) := by
      simp [stdUtils.debounceInput, hne, AMT203_DEBOUNCE_CNT]
    have r2 : stdUtils.debounceInput ⟨l, 1⟩ new AMT203_DEBOUNCE_CNT
        = (⟨new, 2⟩, if new = HIGH then INPUT_EDGE_RISING else INPUT_EDGE_FALLING) := by
      simp [stdUtils.debounceInput, hne, AMT203_DEBOUNCE_CNT]
    rw [r1, r2]
    exact ⟨Or.inl ⟨rfl, rfl, hedge⟩, rfl, by norm_num⟩
  · have r1 : stdUtils.debounceInput ⟨l, c⟩ new AMT203_DEBOUNCE_CNT
        = (⟨new, c + 1⟩, if new = HIGH then INPUT_EDGE_RISING else INPUT_EDGE_FALLING) := by
      simp [stdUtils.debounceInput, hne, AMT203_DEBOUNCE_CNT, h1]
    have r2 : stdUtils.debounceInput ⟨new, c + 1⟩ new AMT203_DEBOUNCE_CNT
        = (⟨new, 0⟩, INPUT_EDGE_NONE) := by
      simp [stdUtils.debounceInput]
    rw [r1, r2]
    exact ⟨Or.inr ⟨hedge, rfl, rfl⟩, rfl, le_refl _⟩

/-- Two consecutive samples that change phase A to `new` while phase B stays at
its debounced level, from any non-negative count on A: one edge on A is
committed, the direction is forward when the new A differs from B and backward
when it equals B, and the position moves by that direction. -/
theorem pair_on_A (e : EncoderState) (la lb new : Int) (x1 x2 : Int) (t1 t2 : Nat)
    (hA : e.debounceInput_A.CurrentState = la) (hcA : 0 ≤ e.debounceInput_A.DebounceCount)
    (hB : e.debounceInput_B.CurrentState = lb) (hne : la ≠ new) :
    (sampleRun e [⟨new, lb, x1, t1⟩, ⟨new, lb, x2, t2⟩]).debounceInput_A.CurrentState = new ∧
    0 ≤ (sampleRun e [⟨new, lb, x1, t1⟩, ⟨new, lb, x2, t2⟩]).debounceInput_A.DebounceCount ∧
    (sampleRun e [⟨new, lb, x1, t1⟩, ⟨new, lb, x2, t2⟩]).debounceInput_B.CurrentState = lb ∧
    0 ≤ (sampleRun e [⟨new, lb, x1, t1⟩, ⟨new, lb, x2, t2⟩]).debounceInput_B.DebounceCount ∧
    (sampleRun e [⟨new, lb, x1, t1⟩, ⟨new, lb, x2, t2⟩])._direction
      = (if new ≠ lb then ROTATE_FORWARD else ROTATE_BACKWARD) ∧
    (sampleRun e [⟨new, lb, x1, t1⟩, ⟨new, lb, x2, t2⟩])._position
      = e._position + (if new ≠ lb then ROTATE_FORWARD else ROTATE_BACKWARD) := by
  have hrun : sampleRun e [⟨new, lb, x1, t1⟩, ⟨new, lb, x2, t2⟩]
      = devMotorControl.TimerInterruptCallback new lb x2 t2
          (devMotorControl.TimerInterruptCallback new lb x1 t1 e) := rfl
  rw [hrun]
  obtain ⟨a1, b1, d1, p1⟩ := tick_on_A e lb new x1 t1 hB
  have hB1 : (devMotorControl.TimerInterruptCallback new lb x1 t1 e).debounceInput_B.CurrentState
      = lb := by rw [b1]; exact hB
  obtain ⟨a2, b2, d2, p2⟩ := tick_on_A
    (devMotorControl.TimerInterruptCallback new lb x1 t1 e) lb new x2 t2 hB1
  obtain ⟨hcase, hlvl, hcnt⟩ := debounceInput_two_samples e.debounceInput_A new
    (by rw [hA]; exact hne) hcA
  rw [a1] at a2 d2 p2
  refine ⟨by rw [a2]; exact hlvl, by rw [a2]; exact hcnt, by rw [b2]; exact hB1,
    by rw [b2], ?_, ?_⟩
  · rw [d2, d1]
    rcases hcase with ⟨e1, l1, e2⟩ | ⟨e1, l1, e2⟩
    · rw [if_pos e2, hlvl]
    · rw [if_neg (by simp [e2]), if_pos e1, l1]
  · rw [p2, p1]
    rcases hcase with ⟨e1, l1, e2⟩ | ⟨e1, l1, e2⟩
    · rw [if_pos e2, hlvl, if_neg (by simp [e1])]
    · rw [if_neg (by simp [e2]), if_pos e1, l1]

/-- One sampling tick that reads `new` on phase B while phase A reads its
debounced level: phase A reports no edge and clears its count; when phase B
reports an edge the direction becomes forward if A equals the new B and
backward if it differs, and the position moves by that direction; otherwise
direction and position are unchanged. -/
theorem tick_on_B (e : EncoderState) (la new : Int) (x : Int) (t : Nat)
    (hA : e.debounceInput_A.CurrentState = la) :
    (devMotorControl.TimerInterruptCallback la new x t e).debounceInput_A
      = { e.debounceInput_A with DebounceCount := 0 } ∧
    (devMotorControl.TimerInterruptCallback la new x t e).debounceInput_B
      = (stdUtils.debounceInput e.debounceInput_B new AMT203_DEBOUNCE_CNT).1 ∧
    (devMotorControl.TimerInterruptCallback la new x t e)._direction
      = (if (stdUtils.debounceInput e.debounceInput_B new AMT203_DEBOUNCE_CNT).2 ≠ 0 then
          (if la = (stdUtils.debounceInput e.debounceInput_B new
                AMT203_DEBOUNCE_CNT).1.CurrentState
            then ROTATE_FORWARD else ROTATE_BACKWARD)
        else e._direction) ∧
    (devMotorControl.TimerInterruptCallback la new x t e)._position
      = (if (stdUtils.debounceInput e.debounceInput_B new AMT203_DEBOUNCE_CNT).2 ≠ 0 then
          e._position +
            (if la = (stdUtils.debounceInput e.debounceInput_B new
                  AMT203_DEBOUNCE_CNT).1.CurrentState
              then ROTATE_FORWARD else ROTATE_BACKWARD)
        else e._position) := by
  obtain ⟨a1, b1, d1, p1⟩ := TimerInterruptCallback_AB e la new x t
  have hA1 : stdUtils.debounceInput e.debounceInput_A la AMT203_DEBOUNCE_CNT
      = ({ e.debounceInput_A with DebounceCount := 0 }, INPUT_EDGE_NONE) := by
    simp [stdUtils.debounceInput, hA]
  rw [hA1] at a1
  simp only [devMotorControl.pinA_edge, devMotorControl.pinB_edge, hA1, INPUT_EDGE_NONE,
    ne_eq, not_true_eq_false, false_or, devMotorControl.quadratureStep, false_and,
    hA] at d1 p1
  refine ⟨a1, b1, ?_, ?_⟩
  · rw [d1]
    by_cases hedge : (stdUtils.debounceInput e.debounceInput_B new AMT203_DEBOUNCE_CNT).2 = 0
    · simp [hedge]
    · by_cases hl : la = (stdUtils.debounceInput e.debounceInput_B new
          AMT203_DEBOUNCE_CNT).1.CurrentState <;> simp [hedge, hl]
  · rw [p1]
    by_cases hedge : (stdUtils.debounceInput e.debounceInput_B new AMT203_DEBOUNCE_CNT).2 = 0
    · simp [hedge]
    · by_cases hl : la = (stdUtils.debounceInput e.debounceInput_B new
          AMT203_DEBOUNCE_CNT).1.CurrentState <;> simp [hedge, hl]

/-- Two consecutive samples that change phase B to `new` while phase A stays at
its debounced level, from any non-negative count on B: one edge on B is
committed, the direction is forward when A equals the new B and backward when
it differs, and the position moves by that direction. -/
theorem pair_on_B (e : EncoderState) (la lb new : Int) (x1 x2 : Int) (t1 t2 : Nat)
    (hA : e.debounceInput_A.CurrentState = la)
    (hB : e.debounceInput_B.CurrentState = lb) (hcB : 0 ≤ e.debounceInput_B.DebounceCount)
    (hne : lb ≠ new) :
    (sampleRun e [⟨la, new, x1, t1⟩, ⟨la, new, x2, t2⟩]).debounceInput_A.CurrentState = la ∧
    0 ≤ (sampleRun e [⟨la, new, x1, t1⟩, ⟨la, new, x2, t2⟩]).debounceInput_A.DebounceCount ∧
    (sampleRun e [⟨la, new, x1, t1⟩, ⟨la, new, x2, t2⟩]).debounceInput_B.CurrentState = new ∧
    0 ≤ (sampleRun e [⟨la, new, x1, t1⟩, ⟨la, new, x2, t2⟩]).debounceInput_B.DebounceCount ∧
    (sampleRun e [⟨la, new, x1, t1⟩, ⟨la, new, x2, t2⟩])._direction
      = (if la = new then ROTATE_FORWARD else ROTATE_BACKWARD) ∧
    (sampleRun e [⟨la, new, x1, t1⟩, ⟨la, new, x2, t2⟩])._position
      = e._position + (if la = new then ROTATE_FORWARD else ROTATE_BACKWARD) := by
  have hrun : sampleRun e [⟨la, new, x1, t1⟩, ⟨la, new, x2, t2⟩]
      = devMotorControl.TimerInterruptCallback la new x2 t2
          (devMotorControl.TimerInterruptCallback la new x1 t1 e) := rfl
  rw [hrun]
  obtain ⟨a1, b1, d1, p1⟩ := tick_on_B e la new x1 t1 hA
  have hA1 : (devMotorControl.TimerInterruptCallback la new x1 t1 e).debounceInput_A.CurrentState
      = la := by rw [a1]; exact hA
  obtain ⟨a2, b2, d2, p2⟩ := tick_on_B
    (devMotorControl.TimerInterruptCallback la new x1 t1 e) la new x2 t2 hA1
  obtain ⟨hcase, hlvl, hcnt⟩ := debounceInput_two_samples e.debounceInput_B new
    (by rw [hB]; exact hne) hcB
  rw [b1] at b2 d2 p2
  refine ⟨by rw [a2]; exact hA1, by rw [a2], by rw [b2]; exact hlvl,
    by rw [b2]; exact hcnt, ?_, ?_⟩
  · rw [d2, d1]
    rcases hcase with ⟨e1, l1, e2⟩ | ⟨e1, l1, e2⟩
    · rw [if_pos e2, hlvl]
    · rw [if_neg (by simp [e2]), if_pos e1, l1]
  · rw [p2, p1]
    rcases hcase with ⟨e1, l1, e2⟩ | ⟨e1, l1, e2⟩
    · rw [if_pos e2, hlvl, if_neg (by simp [e1])]
    · rw [if_neg (by simp [e2]), if_pos e1, l1]

/-- The debounce counts of the two phases are never negative: every sampling
tick keeps them non-negative, and `Init` starts them at 0. -/
theorem DebounceCount_nonneg (e : EncoderState) (samples : List PinSample)
    (hA : 0 ≤ e.debounceInput_A.DebounceCount) (hB : 0 ≤ e.debounceInput_B.DebounceCount) :
    0 ≤ (sampleRun e samples).debounceInput_A.DebounceCount ∧
    0 ≤ (sampleRun e samples).debounceInput_B.DebounceCount := by
  induction samples generalizing e with
  | nil => exact ⟨hA, hB⟩
  | cons s rest ih =>
    have hrun : sampleRun e (s :: rest)
        = sampleRun (devMotorControl.TimerInterruptCallback s.pinA s.pinB s.pinX s.micros e)
            rest := rfl
    rw [hrun]
    obtain ⟨a1, b1, -, -⟩ := TimerInterruptCallback_AB e s.pinA s.pinB s.pinX s.micros
    have step : ∀ (input : ST_PIN_DEBOUNCE) (level : Int), 0 ≤ input.DebounceCount →
        0 ≤ (stdUtils.debounceInput input level AMT203_DEBOUNCE_CNT).1.DebounceCount := by
      intro input level h
      simp only [stdUtils.debounceInput]
      split_ifs <;> simp <;> omega
    exact ih _ (by rw [a1]; exact step _ _ hA) (by rw [b1]; exact step _ _ hB)

/-- C16: starting from debounced levels A = LOW, B = LOW in any state whose
debounce counts are not negative (they never are: `DebounceCount_nonneg`), the
cycle A rises, B rises, A falls, B falls sets the direction to `ROTATE_FORWARD`
(+1) on each of the four edges and advances the position by 4, and the cycle
B rises, A rises, B falls, A falls sets it to `ROTATE_BACKWARD` (-1) on each of
the four edges and decreases the position by 4; every level is sampled twice
(the debounce threshold) and commits exactly one edge, whatever counts earlier
edges left behind and whatever the index samples and clock readings are. -/
theorem quadrature_cycle_direction (e : EncoderState) (x : Nat → Int) (t : Nat → Nat)
    (hA : e.debounceInput_A.CurrentState = LOW) (hB : e.debounceInput_B.CurrentState = LOW)
    (hcA : 0 ≤ e.debounceInput_A.DebounceCount)
    (hcB : 0 ≤ e.debounceInput_B.DebounceCount) :
    ((sampleRun e ((cycleALeads x t).take 2))._direction = ROTATE_FORWARD ∧
      (sampleRun e ((cycleALeads x t).take 2))._position = e._position + 1 ∧
      (sampleRun e ((cycleALeads x t).take 4))._direction = ROTATE_FORWARD ∧
      (sampleRun e ((cycleALeads x t).take 4))._position = e._position + 2 ∧
      (sampleRun e ((cycleALeads x t).take 6))._direction = ROTATE_FORWARD ∧
      (sampleRun e ((cycleALeads x t).take 6))._position = e._position + 3 ∧
      (sampleRun e (cycleALeads x t))._direction = ROTATE_FORWARD ∧
      (sampleRun e (cycleALeads x t))._position = e._position + 4) ∧
    ((sampleRun e ((cycleBLeads x t).take 2))._direction = ROTATE_BACKWARD ∧
      (sampleRun e ((cycleBLeads x t).take 2))._position = e._position - 1 ∧
      (sampleRun e ((cycleBLeads x t).take 4))._direction = ROTATE_BACKWARD ∧
      (sampleRun e ((cycleBLeads x t).take 4))._position = e._position - 2 ∧
      (sampleRun e ((cycleBLeads x t).take 6))._direction = ROTATE_BACKWARD ∧
      (sampleRun e ((cycleBLeads x t).take 6))._position = e._position - 3 ∧
      (sampleRun e (cycleBLeads x t))._direction = ROTATE_BACKWARD ∧
      (sampleRun e (cycleBLeads x t))._position = e._position - 4) := by
  have split4 : ∀ s1 s2 s3 s4 : PinSample,
      sampleRun e [s1, s2, s3, s4] = sampleRun (sampleRun e [s1, s2]) [s3, s4] :=
    fun s1 s2 s3 s4 => sampleRun_append e [s1, s2] [s3, s4]
  have split6 : ∀ s1 s2 s3 s4 s5 s6 : PinSample,
      sampleRun e [s1, s2, s3, s4, s5, s6]
        = sampleRun (sampleRun (sampleRun e [s1, s2]) [s3, s4]) [s5, s6] :=
    fun s1 s2 s3 s4 s5 s6 => by
      rw [← split4]; exact sampleRun_append e [s1, s2, s3, s4] [s5, s6]
  have split8 : ∀ s1 s2 s3 s4 s5 s6 s7 s8 : PinSample,
      sampleRun e [s1, s2, s3, s4, s5, s6, s7, s8]
        = sampleRun (sampleRun (sampleRun (sampleRun e [s1, s2]) [s3, s4]) [s5, s6])
            [s7, s8] :=
    fun s1 s2 s3 s4 s5 s6 s7 s8 => by
      rw [← split6]; exact sampleRun_append e [s1, s2, s3, s4, s5, s6] [s7, s8]
  constructor
  · obtain ⟨a2, ca2, b2, cb2, d2, p2⟩ :=
      pair_on_A e LOW LOW HIGH (x 0) (x 1) (t 0) (t 1) hA hcA hB (by decide)
    obtain ⟨a4, ca4, b4, cb4, d4, p4⟩ :=
      pair_on_B _ HIGH LOW HIGH (x 2) (x 3) (t 2) (t 3) a2 b2 cb2 (by decide)
    obtain ⟨a6, ca6, b6, cb6, d6, p6⟩ :=
      pair_on_A _ HIGH HIGH LOW (x 4) (x 5) (t 4) (t 5) a4 ca4 b4 (by decide)
    obtain ⟨-, -, -, -, d8, p8⟩ :=
      pair_on_B _ LOW HIGH LOW (x 6) (x 7) (t 6) (t 7) a6 b6 cb6 (by decide)
    simp only [cycleALeads, List.take_succ_cons, List.take_zero, split4, split6, split8]
    refine ⟨?_, ?_, ?_, ?_, ?_, ?_, ?_, ?_⟩
    · rw [d2]; decide
    · rw [p2]; simp [HIGH, LOW, ROTATE_FORWARD]
    · rw [d4]; decide
    · rw [p4, p2]; simp [HIGH, LOW, ROTATE_FORWARD]; ring
    · rw [d6]; decide
    · rw [p6, p4, p2]; simp [HIGH, LOW, ROTATE_FORWARD]; ring
    · rw [d8]; decide
    · rw [p8, p6, p4, p2]; simp [HIGH, LOW, ROTATE_FORWARD]; ring
  · obtain ⟨a2, ca2, b2, cb2, d2, p2⟩ :=
      pair_on_B e LOW LOW HIGH (x 0) (x 1) (t 0) (t 1) hA hB hcB (by decide)
    obtain ⟨a4, ca4, b4, cb4, d4, p4⟩ :=
      pair_on_A _ LOW HIGH HIGH (x 2) (x 3) (t 2) (t 3) a2 ca2 b2 (by decide)
    obtain ⟨a6, ca6, b6, cb6, d6, p6⟩ :=
      pair_on_B _ HIGH HIGH LOW (x 4) (x 5) (t 4) (t 5) a4 b4 cb4 (by decide)
    obtain ⟨-, -, -, -, d8, p8⟩ :=
      pair_on_A _ HIGH LOW LOW (x 6) (x 7) (t 6) (t 7) a6 ca6 b6 (by decide)
    simp only [cycleBLeads, List.take_succ_cons, List.take_zero, split4, split6, split8]
    refine ⟨?_, ?_, ?_, ?_, ?_, ?_, ?_, ?_⟩
    · rw [d2]; decide
    · rw [p2]; simp [HIGH, LOW, ROTATE_BACKWARD]; ring
    · rw [d4]; decide
    · rw [p4, p2]; simp [HIGH, LOW, ROTATE_BACKWARD]; ring
    · rw [d6]; decide
    · rw [p6, p4, p2]; simp [HIGH, LOW, ROTATE_BACKWARD]; ring
    · rw [d8]; decide
    · rw [p8, p6, p4, p2]; simp [HIGH, LOW, ROTATE_BACKWARD]; ring

/-- C16 on an encoder at -5000 pulses with the index line low, for two cycles
in a row: the first A-leading cycle ends at -4996 and leaves the count 2 on
phase B; from that state a second A-leading cycle ends at -4992 with direction
forward, and a B-leading cycle ends back at -5000 with direction backward. -/
theorem quadrature_cycle_direction_witness :
    (sampleRun encBelowZero
      (cycleALeads (fun _ => LOW) (fun n => 200 * n))).debounceInput_B = ⟨LOW, 2⟩ ∧
    ((sampleRun (sampleRun encBelowZero (cycleALeads (fun _ => LOW) (fun n => 200 * n)))
        (cycleALeads (fun _ => LOW) (fun n => 200 * n + 1600)))._direction
        = ROTATE_FORWARD ∧
      (sampleRun (sampleRun encBelowZero (cycleALeads (fun _ => LOW) (fun n => 200 * n)))
        (cycleALeads (fun _ => LOW) (fun n => 200 * n + 1600)))._position = -4992) ∧
    ((sampleRun (sampleRun encBelowZero (cycleALeads (fun _ => LOW) (fun n => 200 * n)))
        (cycleBLeads (fun _ => LOW) (fun n => 200 * n + 1600)))._direction
        = ROTATE_BACKWARD ∧
      (sampleRun (sampleRun encBelowZero (cycleALeads (fun _ => LOW) (fun n => 200 * n)))
        (cycleBLeads (fun _ => LOW) (fun n => 200 * n + 1600)))._position = -5000) :=
  have h := quadrature_cycle_direction
    (sampleRun encBelowZero (cycleALeads (fun _ => LOW) (fun n => 200 * n)))
    (fun _ => LOW) (fun n => 200 * n + 1600) (by decide) (by decide) (by decide) (by decide)
  ⟨by decide, ⟨h.1.2.2.2.2.2.2.1, h.1.2.2.2.2.2.2.2.trans (by decide)⟩,
    ⟨h.2.2.2.2.2.2.2.1, h.2.2.2.2.2.2.2.2.trans (by decide)⟩⟩

/-! ## Calibration run -/

section Calibration

variable {α : Type} [LinearOrderedField α] [FloorRing α]

theorem Start_status (clk : Clock) (w : World α) :
    stdUtils.GetStatus (appPidControl.Start clk w).SystemStatus statusPID_BUSY = true ∧
    stdUtils.GetStatus (appPidControl.Start clk w).SystemStatus statusPID_DONE = false ∧
    ∀ j : Nat, j < 8 → 3 ≠ j → 4 ≠ j →
      (appPidControl.Start clk w).SystemStatus.testBit j = w.SystemStatus.testBit j := by
  refine ⟨?_, ?_, ?_⟩
  · simp only [appPidControl.Start]
    rw [status_masks.2.2.2.1, status_masks.2.2.1, GetStatus_bit,
      testBit_ClearStatus _ _ _ (by norm_num), testBit_SetStatus]
    simp
  · simp only [appPidControl.Start]
    rw [status_masks.2.2.2.1, status_masks.2.2.1, GetStatus_bit,
      testBit_ClearStatus _ _ _ (by norm_num)]
    simp
  · intro j hj h3 h4
    simp only [appPidControl.Start]
    rw [status_masks.2.2.2.1, status_masks.2.2.1,
      testBit_ClearStatus _ _ _ (by norm_num), testBit_SetStatus]
    simp [hj, h3, h4]

theorem TimerInterruptCallback_keeps_known (e : EncoderState) (pinA pinB pinX : Int)
    (micros : Nat) (h : e._ZeroOffsetIsKnown = true) :
    (devMotorControl.TimerInterruptCallback pinA pinB pinX micros e)._ZeroOffsetIsKnown
      = true := by
  simp only [devMotorControl.TimerInterruptCallback]
  split_ifs <;> simp [devMotorControl.indexStep, devMotorControl.quadratureStep, h]

theorem PID_Process_keeps_calibration (sqrtf : α → α) (clk : Clock) (w : World α) :
    (appPidControl.PID_Process sqrtf clk w).1.ControlState = w.ControlState ∧
    (appPidControl.PID_Process sqrtf clk w).1.enc._ZeroOffsetIsKnown
      = w.enc._ZeroOffsetIsKnown := by
  by_cases hen : w.pidSettings.Enable = true
  · by_cases harr : arrivalTest w
    · rw [PID_Process_arrived sqrtf clk w hen harr]
      simp only [appPidControl.PID_arrived]
      split_ifs <;> exact ⟨rfl, rfl⟩
    · rw [PID_Process_not_arrived sqrtf clk w hen harr]
      by_cases hpoll : (timerUtils.msTimerPoll w.pidTimer clk.millis).2 = true
      · simp only [appPidControl.PID_recompute, hpoll, Bool.not_true, Bool.false_eq_true,
          if_false]
        exact ⟨by rw [(SetSpeed_degs_frame _ _).2.2.2.2], by rw [(SetSpeed_degs_frame _ _).2.1]⟩
      · have hpoll' : (timerUtils.msTimerPoll w.pidTimer clk.millis).2 = false := by
          simpa using hpoll
        simp [appPidControl.PID_recompute, hpoll']
  · have hen' : w.pidSettings.Enable = false := by simpa using hen
    rw [PID_Process_disabled sqrtf clk w hen']
    exact ⟨rfl, rfl⟩

theorem PID_arrived_not_aiming_status (clk : Clock) (w : World α)
    (h : w.pidSettings.aiming = false) :
    stdUtils.GetStatus (appPidControl.PID_arrived clk w).1.SystemStatus statusPID_DONE
      = stdUtils.GetStatus w.SystemStatus statusPID_DONE := by
  have haim : (devMotorControl.Stop clk w).pidSettings.aiming = false := by
    rw [(Stop_effect clk w).1]; exact h
  simp only [appPidControl.PID_arrived, haim, Bool.false_eq_true, if_false]
  rw [status_masks.2.2.2.1, GetStatus_bit, GetStatus_bit,
    devMotorControl_Stop_status _ _ 4 (by norm_num) (by norm_num)]
  simp

theorem PID_arrived_done (clk : Clock) (w : World α)
    (hdone : stdUtils.GetStatus w.SystemStatus statusPID_DONE = false) :
    stdUtils.GetStatus (appPidControl.PID_arrived clk w).1.SystemStatus statusPID_DONE
        = true →
      (appPidControl.PID_arrived clk w).1.pidSettings.Enable = false ∧
      (appPidControl.PID_arrived clk w).1.mot.dacLevel = 0 := by
  intro hd
  obtain ⟨e1, -, -, -, -, -, -, -, e9⟩ := PID_arrived_effect clk w
  refine ⟨?_, e1⟩
  by_cases haim : w.pidSettings.aiming = true
  · exact (e9 haim).2.1
  · have haim' : w.pidSettings.aiming = false := by simpa using haim
    rw [PID_arrived_not_aiming_status clk _ haim', hdone] at hd
    exact Bool.noConfusion hd

theorem calInv_PID_Process (sqrtf : α → α) (clk : Clock) (w : World α) (h : calInv w) :
    calInv (appPidControl.PID_Process sqrtf clk w).1 := by
  obtain ⟨hc, hk⟩ := PID_Process_keeps_calibration sqrtf clk w
  refine ⟨?_, fun hg => by rw [hk]; exact h.2 (by rw [← hc]; exact hg)⟩
  by_cases hen : w.pidSettings.Enable = true
  · have hdone : stdUtils.GetStatus w.SystemStatus statusPID_DONE = false := by
      by_contra hd
      have := (h.1 (by simpa using hd)).1
      rw [hen] at this
      exact Bool.noConfusion this
    by_cases harr : arrivalTest w
    · rw [PID_Process_arrived sqrtf clk w hen harr]
      exact PID_arrived_done clk _ hdone
    · rw [PID_Process_not_arrived sqrtf clk w hen harr]
      intro hd
      rw [(PID_recompute_keeps sqrtf clk _ _).2.2.1] at hd
      rw [hdone] at hd
      exact Bool.noConfusion hd
  · have hen' : w.pidSettings.Enable = false := by simpa using hen
    rw [PID_Process_disabled sqrtf clk w hen']
    exact h.1

theorem known_of_offset_in_range (w : World α)
    (h : Arduino.abs (devMotorControl.GetZeroOffset w) < 361) :
    w.enc._ZeroOffsetIsKnown = true := by
  by_contra hk
  have hk' : w.enc._ZeroOffsetIsKnown = false := by simpa using hk
  have hz : devMotorControl.GetZeroOffset w = -11377 * (360 / 4096) := by
    simp [devMotorControl.GetZeroOffset, hk', UNKNOWNPOS, MOTOR_POS_INCREMENT_DEG]
  rw [Arduino_abs_eq, hz, abs_of_neg (by norm_num)] at h
  norm_num at h

theorem SetPosition_frame (newPos : α) (w : World α) :
    (devMotorControl.SetPosition newPos w).1.pidSettings = w.pidSettings ∧
    (devMotorControl.SetPosition newPos w).1.mot = w.mot ∧
    (devMotorControl.SetPosition newPos w).1.SystemStatus = w.SystemStatus ∧
    (devMotorControl.SetPosition newPos w).1.enc._ZeroOffsetIsKnown
      = w.enc._ZeroOffsetIsKnown := by
  simp only [devMotorControl.SetPosition]
  split_ifs <;> exact ⟨rfl, rfl, rfl, rfl⟩

theorem calInv_Start (clk : Clock) (w : World α)
    (h : w.ControlState ≠ stateCAL_GOTO_0) : calInv (appPidControl.Start clk w) := by
  refine ⟨fun hd => ?_, fun hg => absurd hg h⟩
  rw [(Start_status clk w).2.1] at hd
  exact Bool.noConfusion hd

theorem calInv_ControlStateHandler (sqrtf : α → α) (clk : Clock) (pinX : Int)
    (w : World α) (h : calInv w) :
    calInv (appPidControl.ControlStateHandler sqrtf clk pinX w).1 := by
  unfold appPidControl.ControlStateHandler
  simp only []
  apply calInv_PID_Process
  split_ifs with h1 h2 h3 h4 h5
  · exact ⟨h.1, fun _ => known_of_offset_in_range w h2⟩
  · exact h
  · refine ⟨fun hd => ?_, fun hg => by simp [stateIDLE, stateCAL_GOTO_0] at hg⟩
    obtain ⟨f1, f2, f3, -⟩ := SetPosition_frame (0 : α) w
    have hd' : stdUtils.GetStatus w.SystemStatus statusPID_DONE = true := by
      simp only [] at hd
      rw [f3, status_masks.2.2.2.1, status_masks.2.2.2.2, GetStatus_bit,
        testBit_ClearStatus _ _ _ (by norm_num)] at hd
      rw [status_masks.2.2.2.1, GetStatus_bit]
      simpa using hd
    simp only []
    rw [f1, f2]
    exact h.1 hd'
  · exact calInv_Start clk _ (by simp [stateCAL_SEARCH, stateCAL_GOTO_0])
  · exact h
  · exact h

theorem calInv_samplingTick (pinA pinB pinX : Int) (micros : Nat) (w : World α)
    (h : calInv w) : calInv (devMotorControl.samplingTick pinA pinB pinX micros w) :=
  ⟨h.1, fun hg => TimerInterruptCallback_keeps_known _ _ _ _ _ (h.2 hg)⟩

theorem calInv_runCal (sqrtf : α → α) (evs : List CalEvent) :
    ∀ w : World α, calInv w → calInv (runCal sqrtf w evs) := by
  induction evs with
  | nil => intro w h; exact h
  | cons ev evs ih =>
    intro w h
    simp only [runCal, List.foldl_cons]
    apply ih
    cases ev with
    | handler clk pinX => exact calInv_ControlStateHandler sqrtf clk pinX w h
    | sample pinA pinB pinX micros => exact calInv_samplingTick pinA pinB pinX micros w h

theorem calInv_StartCalibration (clk : Clock) (w : World α) :
    calInv (appPidControl.StartCalibration clk w) :=
  calInv_Start clk _ (by simp [stateCAL_SEARCH, stateCAL_GOTO_0])

end Calibration

theorem roundf_zero {α : Type} [LinearOrderedField α] [FloorRing α] :
    roundf (0 : α) = 0 := by
  simp only [roundf, le_refl, if_true, zero_add]
  rw [Int.floor_eq_zero_iff]
  constructor <;> norm_num

theorem ControlStateHandler_GOTO_0 {α : Type} [LinearOrderedField α] [FloorRing α]
    (sqrtf : α → α) (clk : Clock) (pinX : Int) (w : World α)
    (hg : w.ControlState = stateCAL_GOTO_0) :
    appPidControl.ControlStateHandler sqrtf clk pinX w =
      appPidControl.PID_Process sqrtf clk
        (if stdUtils.GetStatus w.SystemStatus statusPID_DONE ∧
            ¬ stdUtils.GetStatus w.SystemStatus statusPID_BUSY then
          if pinX = HIGH then
            { (devMotorControl.SetPosition 0 w).1 with
              SystemStatus :=
                stdUtils.ClearStatus (devMotorControl.SetPosition 0 w).1.SystemStatus
                  statusCALIB_BUSY
              ControlState := stateIDLE }
          else
            appPidControl.Start clk { w with
              pidSettings := { w.pidSettings with Target := 360 }
              ControlState := stateCAL_SEARCH }
        else w) := by
  have h1 : ¬ (w.ControlState = stateCAL_SEARCH) := by
    rw [hg]; decide
  unfold appPidControl.ControlStateHandler
  simp only [if_neg h1, if_pos hg]

/-- C11: in every run that begins with `StartCalibration` and continues with any
sequence of main-loop passes through `ControlStateHandler` and sampling ticks,
a pass that takes the calibration state from `stateCAL_GOTO_0` to `stateIDLE`
happens with PID-done set, PID-busy clear and the index line high; the
`SetPosition(0)` it issues is accepted (the DAC speed is 0 and the position
becomes 0), and the state on entering `stateIDLE` has position 0, the zero
offset known and calibration-busy cleared. -/
theorem calibration_round_trip {α : Type} [LinearOrderedField α] [FloorRing α]
    (sqrtf : α → α) (clk0 : Clock) (w0 : World α) (evs : List CalEvent)
    (clk : Clock) (pinX : Int)
    (hg : (runCal sqrtf (appPidControl.StartCalibration clk0 w0) evs).ControlState
      = stateCAL_GOTO_0)
    (hI : (appPidControl.ControlStateHandler sqrtf clk pinX
        (runCal sqrtf (appPidControl.StartCalibration clk0 w0) evs)).1.ControlState
      = stateIDLE) :
    (appPidControl.ControlStateHandler sqrtf clk pinX
      (runCal sqrtf (appPidControl.StartCalibration clk0 w0) evs)).1.enc._position = 0 ∧
    (appPidControl.ControlStateHandler sqrtf clk pinX
      (runCal sqrtf (appPidControl.StartCalibration clk0 w0)
        evs)).1.enc._ZeroOffsetIsKnown = true ∧
    stdUtils.GetStatus (appPidControl.ControlStateHandler sqrtf clk pinX
      (runCal sqrtf (appPidControl.StartCalibration clk0 w0) evs)).1.SystemStatus
      statusCALIB_BUSY = false ∧
    devMotorControl.GetSpeed_DAC
      (runCal sqrtf (appPidControl.StartCalibration clk0 w0) evs) = 0 ∧
    (devMotorControl.SetPosition 0
      (runCal sqrtf (appPidControl.StartCalibration clk0 w0) evs)).1.enc._position = 0 ∧
    pinX = HIGH ∧
    stdUtils.GetStatus
      (runCal sqrtf (appPidControl.StartCalibration clk0 w0) evs).SystemStatus
      statusPID_DONE = true ∧
    stdUtils.GetStatus
      (runCal sqrtf (appPidControl.StartCalibration clk0 w0) evs).SystemStatus
      statusPID_BUSY = false := by
  have hinv := calInv_runCal sqrtf evs _ (calInv_StartCalibration clk0 w0)
  generalize runCal sqrtf (appPidControl.StartCalibration clk0 w0) evs = w at hg hI hinv ⊢
  rw [ControlStateHandler_GOTO_0 sqrtf clk pinX w hg] at hI ⊢
  rw [(PID_Process_keeps_calibration sqrtf clk _).1] at hI
  by_cases hdone : stdUtils.GetStatus w.SystemStatus statusPID_DONE = true ∧
      ¬ stdUtils.GetStatus w.SystemStatus statusPID_BUSY = true
  · by_cases hx : pinX = HIGH
    · obtain ⟨hen, hdac⟩ := hinv.1 hdone.1
      have hk := hinv.2 hg
      have hspd : devMotorControl.GetSpeed_DAC w = 0 := GetSpeed_DAC_level_zero w hdac
      have hpos : (devMotorControl.SetPosition 0 w).1.enc._position = 0 := by
        simp [devMotorControl.SetPosition, hspd, hk, roundf_zero]
      obtain ⟨f1, f2, f3, f4⟩ := SetPosition_frame (0 : α) w
      rw [if_pos hdone, if_pos hx]
      rw [PID_Process_disabled sqrtf clk _ (by simp only []; rw [f1]; exact hen)]
      refine ⟨hpos, by simp only []; rw [f4]; exact hk, ?_, hspd, hpos, hx, hdone.1,
        by simpa using hdone.2⟩
      simp only []
      rw [status_masks.2.2.2.2, GetStatus_bit, testBit_ClearStatus _ _ _ (by norm_num)]
      simp
    · rw [if_pos hdone, if_neg hx] at hI
      simp [appPidControl.Start, stateCAL_SEARCH, stateIDLE] at hI
  · rw [if_neg hdone, hg] at hI
    simp [stateCAL_GOTO_0, stateIDLE] at hI

/-- C11 on a run from a state with the zero offset unknown: two sampling ticks
commit a rising index edge, the next pass moves to `stateCAL_GOTO_0` and the
controller arrives, and the pass after it enters `stateIDLE` with position 0,
the zero offset known and calibration-busy cleared. -/
theorem calibration_round_trip_witness :
    worldCoasting.enc._ZeroOffsetIsKnown = false ∧
    (appPidControl.ControlStateHandler sqrtQ clk20 HIGH
      (runCal sqrtQ (appPidControl.StartCalibration clk10 worldCoasting)
        calRunIndexSeen)).1.enc._position = 0 ∧
    (appPidControl.ControlStateHandler sqrtQ clk20 HIGH
      (runCal sqrtQ (appPidControl.StartCalibration clk10 worldCoasting)
        calRunIndexSeen)).1.enc._ZeroOffsetIsKnown = true ∧
    stdUtils.GetStatus (appPidControl.ControlStateHandler sqrtQ clk20 HIGH
      (runCal sqrtQ (appPidControl.StartCalibration clk10 worldCoasting)
        calRunIndexSeen)).1.SystemStatus statusCALIB_BUSY = false := by
  have h := calibration_round_trip sqrtQ clk10 worldCoasting calRunIndexSeen clk20 HIGH
    (by decide!) (by decide!)
  exact ⟨rfl, h.1, h.2.1, h.2.2.1⟩

/-! ## Calibration state machine: search and return passes -/

section
variable {α : Type} [LinearOrderedField α] [FloorRing α]

theorem devMotorControl_Stop_enc (clk : Clock) (w : World α) :
    (devMotorControl.Stop clk w).enc._position = w.enc._position ∧
    (devMotorControl.Stop clk w).enc._zero_offset = w.enc._zero_offset := by
  simp only [devMotorControl.Stop, devMotorControl.ResetSpeedParams]
  exact ⟨by rw [(SetSpeed_abs_frame 0 w).2.1], by rw [(SetSpeed_abs_frame 0 w).2.1]⟩

theorem PID_arrived_frame (clk : Clock) (w : World α) :
    (appPidControl.PID_arrived clk w).1.pidSettings.Target = w.pidSettings.Target ∧
    (appPidControl.PID_arrived clk w).1.enc._position = w.enc._position ∧
    (appPidControl.PID_arrived clk w).1.enc._zero_offset = w.enc._zero_offset ∧
    (appPidControl.PID_arrived clk w).1.SystemStatus.testBit 5 = w.SystemStatus.testBit 5 := by
  have hs := devMotorControl_Stop_status clk w 5 (by norm_num) (by norm_num)
  have hp := (Stop_effect clk w).1
  obtain ⟨he1, he2⟩ := devMotorControl_Stop_enc clk w
  simp only [appPidControl.PID_arrived]
  split_ifs
  · refine ⟨by simp [hp], he1, he2, ?_⟩
    simp only
    rw [status_masks.2.2.2.1, status_masks.2.2.1, testBit_SetStatus,
      testBit_ClearStatus _ _ _ (by norm_num), hs]
    simp
  · refine ⟨by simp [hp], he1, he2, ?_⟩
    simp only [hs]
    simp

theorem PID_Process_frame (sqrtf : α → α) (clk : Clock) (w : World α) :
    (appPidControl.PID_Process sqrtf clk w).1.pidSettings.Target = w.pidSettings.Target ∧
    (appPidControl.PID_Process sqrtf clk w).1.enc._position = w.enc._position ∧
    (appPidControl.PID_Process sqrtf clk w).1.enc._zero_offset = w.enc._zero_offset ∧
    (appPidControl.PID_Process sqrtf clk w).1.SystemStatus.testBit 5
      = w.SystemStatus.testBit 5 := by
  by_cases hen : w.pidSettings.Enable = true
  · by_cases harr : arrivalTest w
    · rw [PID_Process_arrived sqrtf clk w hen harr]
      exact PID_arrived_frame clk _
    · rw [PID_Process_not_arrived sqrtf clk w hen harr]
      by_cases hpoll : (timerUtils.msTimerPoll w.pidTimer clk.millis).2 = true
      · simp only [appPidControl.PID_recompute, hpoll, Bool.not_true, Bool.false_eq_true,
          if_false]
        refine ⟨by rw [(SetSpeed_degs_frame _ _).1]; rfl,
          by rw [(SetSpeed_degs_frame _ _).2.1], by rw [(SetSpeed_degs_frame _ _).2.1], ?_⟩
        rw [SetSpeed_degs_status _ _ 5 (by norm_num) (by norm_num) (by norm_num)]
      · have hpoll' : (timerUtils.msTimerPoll w.pidTimer clk.millis).2 = false := by
          simpa using hpoll
        simp [appPidControl.PID_recompute, hpoll']
  · have hen' : w.pidSettings.Enable = false := by simpa using hen
    rw [PID_Process_disabled sqrtf clk w hen']
    exact ⟨rfl, rfl, rfl, rfl⟩

/-- Claim C21: in the calibration state `stateCAL_SEARCH`, for every tracker
state whose zero offset lies in `[-PPR/2, PPR/2)`, one pass of
`ControlStateHandler` moves to `stateCAL_GOTO_0` exactly when the zero offset is
known, and then the controller target is the zero offset in degrees; when the
zero offset is not known the calibration state and the target are unchanged. -/
theorem ControlStateHandler_search (sqrtf : α → α) (clk : Clock) (pinX : Int) (w : World α)
    (hs : w.ControlState = stateCAL_SEARCH)
    (hlo : AMT203_QUAD_PPR_NEG_OFFSET ≤ w.enc._zero_offset)
    (hhi : w.enc._zero_offset < AMT203_QUAD_PPR + AMT203_QUAD_PPR_NEG_OFFSET) :
    ((appPidControl.ControlStateHandler sqrtf clk pinX w).1.ControlState = stateCAL_GOTO_0
      ↔ w.enc._ZeroOffsetIsKnown = true) ∧
    (w.enc._ZeroOffsetIsKnown = true →
      (appPidControl.ControlStateHandler sqrtf clk pinX w).1.pidSettings.Target
        = devMotorControl.GetZeroOffset w ∧
      devMotorControl.GetZeroOffset w
        = (w.enc._zero_offset : α) * MOTOR_POS_INCREMENT_DEG) ∧
    (w.enc._ZeroOffsetIsKnown = false →
      (appPidControl.ControlStateHandler sqrtf clk pinX w).1.ControlState = stateCAL_SEARCH ∧
      (appPidControl.ControlStateHandler sqrtf clk pinX w).1.pidSettings.Target
        = w.pidSettings.Target) := by
  have hrange := (@pulses_to_degrees_range α _ w.enc._zero_offset).1
    ⟨by simpa [AMT203_QUAD_PPR_NEG_OFFSET] using hlo,
     by simpa [AMT203_QUAD_PPR_NEG_OFFSET, AMT203_QUAD_PPR] using hhi⟩
  by_cases hk : w.enc._ZeroOffsetIsKnown = true
  · have hoff : devMotorControl.GetZeroOffset w
        = (w.enc._zero_offset : α) * MOTOR_POS_INCREMENT_DEG := by
      simp [devMotorControl.GetZeroOffset, hk]
    have habs : Arduino.abs (devMotorControl.GetZeroOffset w) < 361 := by
      rw [Arduino_abs_eq, hoff, abs_lt]
      constructor <;> linarith [hrange.1, hrange.2]
    have hstep : appPidControl.ControlStateHandler sqrtf clk pinX w =
        appPidControl.PID_Process sqrtf clk
          { w with
            pidSettings := { w.pidSettings with Target := devMotorControl.GetZeroOffset w }
            ControlState := stateCAL_GOTO_0 } := by
      unfold appPidControl.ControlStateHandler
      rw [if_pos hs, if_pos habs]
    rw [hstep]
    refine ⟨⟨fun _ => hk, fun _ => ?_⟩, fun _ => ⟨?_, hoff⟩, fun hf => ?_⟩
    · rw [(PID_Process_keeps_calibration sqrtf clk _).1]
    · rw [(PID_Process_frame sqrtf clk _).1]
    · rw [hk] at hf; exact Bool.noConfusion hf
  · have hk' : w.enc._ZeroOffsetIsKnown = false := by simpa using hk
    have habs : ¬ Arduino.abs (devMotorControl.GetZeroOffset w) < 361 :=
      fun h => hk (known_of_offset_in_range w h)
    have hstep : appPidControl.ControlStateHandler sqrtf clk pinX w =
        appPidControl.PID_Process sqrtf clk w := by
      unfold appPidControl.ControlStateHandler
      rw [if_pos hs, if_neg habs]
    rw [hstep, (PID_Process_keeps_calibration sqrtf clk _).1, (PID_Process_frame sqrtf clk _).1,
      hs]
    refine ⟨⟨fun h => ?_, fun h => absurd h hk⟩, fun h => absurd h hk, fun _ => ⟨rfl, rfl⟩⟩
    exact absurd h (by decide)

theorem Start_frame (clk : Clock) (w : World α) :
    (appPidControl.Start clk w).enc = w.enc ∧
    (appPidControl.Start clk w).mot = w.mot ∧
    (appPidControl.Start clk w).ControlState = w.ControlState ∧
    (appPidControl.Start clk w).pidSettings.Target = w.pidSettings.Target ∧
    (appPidControl.Start clk w).pidSettings.MinSpeed = w.pidSettings.MinSpeed ∧
    (appPidControl.Start clk w).pidSettings.Enable = true ∧
    (appPidControl.Start clk w).pidSettings.aiming = true :=
  ⟨rfl, rfl, rfl, rfl, rfl, rfl, rfl⟩

theorem PID_recompute_aiming (sqrtf : α → α) (clk : Clock) (posError : α) (w : World α)
    (h : w.pidSettings.aiming = true) :
    (appPidControl.PID_recompute sqrtf clk posError w).1.pidSettings.aiming = true := by
  by_cases hpoll : (timerUtils.msTimerPoll w.pidTimer clk.millis).2 = true
  · simp only [appPidControl.PID_recompute, hpoll, Bool.not_true, Bool.false_eq_true,
      if_false]
    rw [(SetSpeed_degs_frame _ _).1]
    rfl
  · have hpoll' : (timerUtils.msTimerPoll w.pidTimer clk.millis).2 = false := by
      simpa using hpoll
    simp [appPidControl.PID_recompute, hpoll', h]

/-- Claim C22 (amended): in the calibration state `stateCAL_GOTO_0` the state
changes only on a pass where PID-done is set and PID-busy is clear; on such a
pass with the index pin not `HIGH` the handler sets the target to 360, returns
to `stateCAL_SEARCH` and restarts the controller before the controller tick of
the same pass, and the pass leaves calibration-busy and the position as they
were; after the pass the controller is enabled and aiming with PID-done clear
unless the arrival test already holds at the new target, in which case the
controller tick reports arrival again. -/
theorem ControlStateHandler_goto_zero (sqrtf : α → α) (clk : Clock) (pinX : Int)
    (w : World α) (hg : w.ControlState = stateCAL_GOTO_0) :
    (¬ (stdUtils.GetStatus w.SystemStatus statusPID_DONE = true ∧
        stdUtils.GetStatus w.SystemStatus statusPID_BUSY = false) →
      (appPidControl.ControlStateHandler sqrtf clk pinX w).1.ControlState
        = stateCAL_GOTO_0) ∧
    (stdUtils.GetStatus w.SystemStatus statusPID_DONE = true →
      stdUtils.GetStatus w.SystemStatus statusPID_BUSY = false → pinX ≠ HIGH →
      appPidControl.ControlStateHandler sqrtf clk pinX w =
        appPidControl.PID_Process sqrtf clk
          (appPidControl.Start clk { w with
            pidSettings := { w.pidSettings with Target := 360 }
            ControlState := stateCAL_SEARCH }) ∧
      (appPidControl.ControlStateHandler sqrtf clk pinX w).1.ControlState
        = stateCAL_SEARCH ∧
      (appPidControl.ControlStateHandler sqrtf clk pinX w).1.pidSettings.Target = 360 ∧
      stdUtils.GetStatus (appPidControl.ControlStateHandler sqrtf clk pinX w).1.SystemStatus
        statusCALIB_BUSY = stdUtils.GetStatus w.SystemStatus statusCALIB_BUSY ∧
      (appPidControl.ControlStateHandler sqrtf clk pinX w).1.enc._position
        = w.enc._position ∧
      (¬ (|360 - devMotorControl.GetPosition w| < 360 / 4096 ∧
          |devMotorControl.GetSpeed_ENC w| ≤ w.pidSettings.MinSpeed) →
        (appPidControl.ControlStateHandler sqrtf clk pinX w).1.pidSettings.Enable = true ∧
        (appPidControl.ControlStateHandler sqrtf clk pinX w).1.pidSettings.aiming = true ∧
        stdUtils.GetStatus
          (appPidControl.ControlStateHandler sqrtf clk pinX w).1.SystemStatus
          statusPID_DONE = false) ∧
      (|360 - devMotorControl.GetPosition w| < 360 / 4096 ∧
          |devMotorControl.GetSpeed_ENC w| ≤ w.pidSettings.MinSpeed →
        (appPidControl.ControlStateHandler sqrtf clk pinX w).1.pidSettings.Enable = false ∧
        (appPidControl.ControlStateHandler sqrtf clk pinX w).1.pidSettings.aiming = false ∧
        stdUtils.GetStatus
          (appPidControl.ControlStateHandler sqrtf clk pinX w).1.SystemStatus
          statusPID_DONE = true)) := by
  have hne : ¬ w.ControlState = stateCAL_SEARCH := by rw [hg]; decide
  constructor
  · intro hnot
    have hstep : appPidControl.ControlStateHandler sqrtf clk pinX w =
        appPidControl.PID_Process sqrtf clk w := by
      unfold appPidControl.ControlStateHandler
      rw [if_neg hne, if_pos hg, if_neg]
      intro h
      exact hnot ⟨h.1, by simpa using h.2⟩
    rw [hstep, (PID_Process_keeps_calibration sqrtf clk w).1, hg]
  · intro hdone hbusy hx
    have hstep : appPidControl.ControlStateHandler sqrtf clk pinX w =
        appPidControl.PID_Process sqrtf clk
          (appPidControl.Start clk { w with
            pidSettings := { w.pidSettings with Target := 360 }
            ControlState := stateCAL_SEARCH }) := by
      unfold appPidControl.ControlStateHandler
      rw [if_neg hne, if_pos hg, if_pos ⟨hdone, by simp [hbusy]⟩, if_neg hx]
    generalize hw1 : (appPidControl.Start clk { w with
            pidSettings := { w.pidSettings with Target := 360 }
            ControlState := stateCAL_SEARCH }) = w1 at hstep
    have hfr := Start_frame clk ({ w with
            pidSettings := { w.pidSettings with Target := 360 }
            ControlState := stateCAL_SEARCH } : World α)
    have hst := Start_status clk ({ w with
            pidSettings := { w.pidSettings with Target := 360 }
            ControlState := stateCAL_SEARCH } : World α)
    rw [hw1] at hfr hst
    obtain ⟨fenc, fmot, fcs, ftg, fmin, fen, faim⟩ := hfr
    have harr_iff : arrivalTest w1 ↔
        (|360 - devMotorControl.GetPosition w| < 360 / 4096 ∧
          |devMotorControl.GetSpeed_ENC w| ≤ w.pidSettings.MinSpeed) := by
      unfold arrivalTest
      rw [ftg, fmin]
      simp only [devMotorControl.GetPosition, devMotorControl.GetSpeed_ENC, fenc]
    obtain ⟨p1, p2, p3, p4⟩ := PID_Process_frame sqrtf clk w1
    refine ⟨hstep, ?_, ?_, ?_, ?_, ?_, ?_⟩
    · rw [hstep, (PID_Process_keeps_calibration sqrtf clk w1).1, fcs]
    · rw [hstep, p1, ftg]
    · rw [hstep, status_masks.2.2.2.2, GetStatus_bit, GetStatus_bit, p4,
        hst.2.2 5 (by norm_num) (by norm_num) (by norm_num)]
    · rw [hstep, p2, fenc]
    · intro hna
      have harr : ¬ arrivalTest w1 := fun h => hna (harr_iff.1 h)
      rw [hstep, PID_Process_not_arrived sqrtf clk w1 fen harr]
      refine ⟨?_, ?_, ?_⟩
      · rw [(PID_recompute_keeps sqrtf clk _ _).1]; exact fen
      · exact PID_recompute_aiming sqrtf clk _ _ faim
      · rw [(PID_recompute_keeps sqrtf clk _ _).2.2.1]; exact hst.2.1
    · intro ha
      have harr : arrivalTest w1 := harr_iff.2 ha
      rw [hstep, PID_Process_arrived sqrtf clk w1 fen harr]
      obtain ⟨-, -, -, -, -, -, -, -, e9⟩ := PID_arrived_effect clk
        ({ w1 with pidSettings := { w1.pidSettings with
            Position := devMotorControl.GetPosition w1
            TimeToTarget :=
              (((clk.millis % ULONG_RANGE + ULONG_RANGE - w1.pidSettings.startTime)
                % ULONG_RANGE : Nat) : α) / 1000 } } : World α)
      have := e9 faim
      exact ⟨this.2.1, this.1, this.2.2.1⟩

end

/-- C21 on the sweep `worldSearching` (zero offset 1400 pulses, known): the pass
moves to `stateCAL_GOTO_0` and sets the target to 1400 pulses in degrees. -/
theorem ControlStateHandler_search_witness :
    (appPidControl.ControlStateHandler sqrtQ clk20 LOW worldSearching).1.ControlState
      = stateCAL_GOTO_0 ∧
    (appPidControl.ControlStateHandler sqrtQ clk20 LOW worldSearching).1.pidSettings.Target
      = 1400 * (360 / 4096) :=
  ⟨(ControlStateHandler_search sqrtQ clk20 LOW worldSearching rfl (by decide)
      (by decide)).1.2 rfl,
    ((ControlStateHandler_search sqrtQ clk20 LOW worldSearching rfl (by decide)
      (by decide)).2.1 rfl).1.trans (by decide!)⟩

/-- C22 (counterexample): in `worldSweepDone` (state `stateCAL_GOTO_0`, PID-done
set, PID-busy clear, shaft at rest at 360 degrees) a pass with the index pin
`LOW` sets the target 360 and returns to `stateCAL_SEARCH`, but the controller
tick of the same pass arrives at once: after the pass the controller is
disabled, not aiming, and PID-done is set. -/
theorem ControlStateHandler_retry_counterexample :
    worldSweepDone.ControlState = stateCAL_GOTO_0 ∧
    stdUtils.GetStatus worldSweepDone.SystemStatus statusPID_DONE = true ∧
    stdUtils.GetStatus worldSweepDone.SystemStatus statusPID_BUSY = false ∧
    LOW ≠ HIGH ∧
    (appPidControl.ControlStateHandler sqrtQ clk20 LOW worldSweepDone).1.ControlState
      = stateCAL_SEARCH ∧
    (appPidControl.ControlStateHandler sqrtQ clk20 LOW worldSweepDone).1.pidSettings.Target
      = 360 ∧
    (appPidControl.ControlStateHandler sqrtQ clk20 LOW worldSweepDone).1.pidSettings.Enable
      = false ∧
    (appPidControl.ControlStateHandler sqrtQ clk20 LOW worldSweepDone).1.pidSettings.aiming
      = false ∧
    stdUtils.GetStatus
      (appPidControl.ControlStateHandler sqrtQ clk20 LOW worldSweepDone).1.SystemStatus
      statusPID_DONE = true := by
  decide!

/-- C22 (amended) on `worldAtOffset`: the controller has arrived at the zero
offset but the index pin reads `LOW`; the pass retargets to 360 degrees, returns
to `stateCAL_SEARCH` and leaves the controller enabled and aiming with PID-done
clear and calibration-busy still set. -/
theorem ControlStateHandler_goto_zero_witness :
    (appPidControl.ControlStateHandler sqrtQ clk20 LOW worldAtOffset).1.ControlState
      = stateCAL_SEARCH ∧
    (appPidControl.ControlStateHandler sqrtQ clk20 LOW worldAtOffset).1.pidSettings.Target
      = 360 ∧
    stdUtils.GetStatus
      (appPidControl.ControlStateHandler sqrtQ clk20 LOW worldAtOffset).1.SystemStatus
      statusCALIB_BUSY = true ∧
    (appPidControl.ControlStateHandler sqrtQ clk20 LOW worldAtOffset).1.pidSettings.Enable
      = true ∧
    (appPidControl.ControlStateHandler sqrtQ clk20 LOW worldAtOffset).1.pidSettings.aiming
      = true ∧
    stdUtils.GetStatus
      (appPidControl.ControlStateHandler sqrtQ clk20 LOW worldAtOffset).1.SystemStatus
      statusPID_DONE = false :=
  have h := (ControlStateHandler_goto_zero sqrtQ clk20 LOW worldAtOffset rfl).2
    (by decide) (by decide) (by decide)
  ⟨h.2.1, h.2.2.1, h.2.2.2.1.trans (by decide),
    (h.2.2.2.2.2.1 (by decide!)).1, (h.2.2.2.2.2.1 (by decide!)).2.1,
    (h.2.2.2.2.2.1 (by decide!)).2.2⟩

/-! ## Actuator drive, transfer function, speed and position accessors -/

section Drive

variable {α : Type} [LinearOrderedField α] [FloorRing α]

theorem SetSpeed_degs_limit_eq (s : α) :
    devMotorControl.SetSpeed_degs_limit s = sign_f s * max (1 / 2) (min |s| 36) := by
  unfold devMotorControl.SetSpeed_degs_limit sign_f MOTOR_SPD_ABS_MAX MOTOR_SPD_ABS_MIN
  rw [Arduino_abs_eq]
  by_cases h36 : |s| > 36
  · rw [if_pos h36, min_eq_right (le_of_lt h36), max_eq_right (by norm_num)]
    split_ifs <;> ring
  · rw [if_neg h36, min_eq_left (not_lt.1 h36)]
    by_cases h12 : |s| < 1 / 2
    · rw [if_pos h12, max_eq_left (le_of_lt h12)]
      split_ifs <;> ring
    · rw [if_neg h12, max_eq_right (not_lt.1 h12)]
      by_cases hs : s < 0
      · rw [if_pos hs, abs_of_neg hs]; ring
      · rw [if_neg hs, abs_of_nonneg (not_lt.1 hs)]; ring

/-- Claim C23: `SetSpeed_degs` with speed 0 requests DAC level 0 and switches
the motor-enable output off; for every non-zero speed `s` the value handed to
the transfer function `ConvertSpeed_WR_degs` is `s` with its magnitude clamped
into `[0.5, 36]` and its sign kept. -/
theorem SetSpeed_degs_drive (s : α) (w : World α) :
    ((devMotorControl.SetSpeed_degs 0 w).1.mot.dacLevel = 0 ∧
      (devMotorControl.SetSpeed_degs 0 w).1.mot.pin_EN = false ∧
      (devMotorControl.SetSpeed_degs 0 w).1.mot._enabled = false) ∧
    (s ≠ 0 →
      (devMotorControl.SetSpeed_degs s w).1 =
        (devMotorControl.SetSpeed_abs
          (truncToInt
            (devMotorControl.ConvertSpeed_WR_degs w.mot.Xfer
                (sign_f s * max (1 / 2) (min |s| 36)) / MOTOR_SPD_INCREMENT_FLT)) w).1 ∧
      |sign_f s * max (1 / 2) (min |s| 36)| = max (1 / 2) (min |s| 36) ∧
      (1 / 2 : α) ≤ max (1 / 2) (min |s| 36) ∧ max (1 / 2) (min |s| 36) ≤ (36 : α) ∧
      (0 < s → 0 < sign_f s * max (1 / 2) (min |s| 36)) ∧
      (s < 0 → sign_f s * max (1 / 2) (min |s| 36) < 0)) := by
  have hpos : (0 : α) < max (1 / 2) (min |s| 36) :=
    lt_of_lt_of_le (by norm_num) (le_max_left _ _)
  constructor
  · simp [devMotorControl.SetSpeed_degs, devMotorControl.SetSpeed_abs, halTLC5615.SetLevel,
      Arduino.absInt, TLC5615_MAX_OUTPUT_VAL]
  · intro hs
    refine ⟨?_, sign_f_mul_abs _ _ (le_of_lt hpos), le_max_left _ _,
      max_le (by norm_num) (min_le_right _ _), ?_, ?_⟩
    · unfold devMotorControl.SetSpeed_degs
      rw [if_neg hs, SetSpeed_degs_limit_eq]
    · intro h
      unfold sign_f
      rw [if_neg (not_lt.2 (le_of_lt h)), one_mul]
      exact hpos
    · intro h
      unfold sign_f
      rw [if_pos h]
      linarith

/-- Claim C24: for coefficients with non-zero slopes and every speed `s` for
which `ConvertSpeed_WR_degs s` has the sign of `s`, `ConvertSpeed_RD_degs`
undoes `ConvertSpeed_WR_degs`; both map 0 to 0; with the default coefficients
the sign condition holds for every speed. -/
theorem ConvertSpeed_round_trip (X : ST_XFER α) (s : α)
    (hP : X.Pos.M ≠ 0) (hN : X.Neg.M ≠ 0)
    (hpos : 0 < s → 0 < devMotorControl.ConvertSpeed_WR_degs X s)
    (hneg : s < 0 → devMotorControl.ConvertSpeed_WR_degs X s < 0) :
    devMotorControl.ConvertSpeed_RD_degs X (devMotorControl.ConvertSpeed_WR_degs X s) = s ∧
    devMotorControl.ConvertSpeed_WR_degs X 0 = 0 ∧
    devMotorControl.ConvertSpeed_RD_degs X 0 = 0 ∧
    (∀ t : α,
      (0 < t → 0 < devMotorControl.ConvertSpeed_WR_degs XferDefault t) ∧
      (t < 0 → devMotorControl.ConvertSpeed_WR_degs XferDefault t < 0)) := by
  refine ⟨?_, by simp [devMotorControl.ConvertSpeed_WR_degs],
    by simp [devMotorControl.ConvertSpeed_RD_degs], ?_⟩
  · rcases lt_trichotomy s 0 with h | h | h
    · have hw := hneg h
      have hw' : ¬ devMotorControl.ConvertSpeed_WR_degs X s > 0 := not_lt.2 (le_of_lt hw)
      unfold devMotorControl.ConvertSpeed_RD_degs
      rw [if_neg hw', if_pos hw]
      unfold devMotorControl.ConvertSpeed_WR_degs
      rw [if_neg (not_lt.2 (le_of_lt h)), if_pos h]
      field_simp
    · subst h
      simp [devMotorControl.ConvertSpeed_WR_degs, devMotorControl.ConvertSpeed_RD_degs]
    · have hw := hpos h
      unfold devMotorControl.ConvertSpeed_RD_degs
      rw [if_pos hw]
      unfold devMotorControl.ConvertSpeed_WR_degs
      rw [if_pos h]
      field_simp
  · intro t
    constructor
    · intro ht
      unfold devMotorControl.ConvertSpeed_WR_degs XferDefault
      rw [if_pos ht]
      apply div_pos <;> norm_num
      linarith
    · intro ht
      unfold devMotorControl.ConvertSpeed_WR_degs XferDefault
      rw [if_neg (not_lt.2 (le_of_lt ht)), if_pos ht]
      apply div_neg_of_neg_of_pos <;> norm_num
      linarith

/-- Claim C25: `GetSpeed_ENC` returns 0 exactly when the last pulse period is 0;
otherwise its magnitude is `(360000000 / 4096) / _pulsePeriod_us`, and it is
negative when the direction is backward and positive when it is forward. -/
theorem GetSpeed_ENC_value (w : World α) :
    (devMotorControl.GetSpeed_ENC w = 0 ↔ w.enc._pulsePeriod_us = 0) ∧
    (w.enc._pulsePeriod_us ≠ 0 →
      |devMotorControl.GetSpeed_ENC w|
        = (360000000 / 4096) / ((w.enc._pulsePeriod_us : Nat) : α) ∧
      (w.enc._direction = ROTATE_BACKWARD → devMotorControl.GetSpeed_ENC w < 0) ∧
      (w.enc._direction = ROTATE_FORWARD → 0 < devMotorControl.GetSpeed_ENC w)) := by
  by_cases hp : w.enc._pulsePeriod_us = 0
  · refine ⟨⟨fun _ => hp, fun _ => ?_⟩, fun h => absurd hp h⟩
    simp [devMotorControl.GetSpeed_ENC, hp]
  · have hp0 : w.enc._pulsePeriod_us > 0 := Nat.pos_of_ne_zero hp
    have hq : (0 : α) < (360000000 / 4096) / ((w.enc._pulsePeriod_us : Nat) : α) :=
      div_pos (by norm_num) (by exact_mod_cast hp0)
    unfold devMotorControl.GetSpeed_ENC
    simp only [if_pos hp0]
    by_cases hd : w.enc._direction = ROTATE_BACKWARD
    · rw [if_pos hd]
      refine ⟨⟨fun h => ?_, fun h => absurd h hp⟩, fun _ => ⟨?_, fun _ => ?_, fun hf => ?_⟩⟩
      · linarith
      · rw [mul_neg_one, abs_neg, abs_of_pos hq]
      · linarith
      · rw [hd] at hf; exact absurd hf (by decide)
    · rw [if_neg hd]
      refine ⟨⟨fun h => ?_, fun h => absurd h hp⟩, fun _ => ⟨?_, fun hb => absurd hb hd,
        fun _ => ?_⟩⟩
      · linarith
      · rw [mul_one, abs_of_pos hq]
      · linarith

/-- Claim C28: for every `newPos`, when the zero offset is not known and the
set is accepted (the DAC speed is 0), `SetPosition` only redefines the position,
to `newPos` converted to pulses by truncation, and leaves the zero offset and
the known flag unchanged. -/
theorem SetPosition_unknown (newPos : α) (w : World α)
    (hacc : devMotorControl.GetSpeed_DAC w = 0)
    (hk : w.enc._ZeroOffsetIsKnown = false) :
    (devMotorControl.SetPosition newPos w).1 =
      { w with enc :=
        { w.enc with _position := truncToInt (newPos / MOTOR_POS_INCREMENT_DEG) } } ∧
    (devMotorControl.SetPosition newPos w).1.enc._zero_offset = w.enc._zero_offset ∧
    (devMotorControl.SetPosition newPos w).1.enc._ZeroOffsetIsKnown = false ∧
    |(((devMotorControl.SetPosition newPos w).1.enc._position : Int) : α)
        - newPos / MOTOR_POS_INCREMENT_DEG| < 1 ∧
    (devMotorControl.SetPosition newPos w).2 =
      (((devMotorControl.SetPosition newPos w).1.enc._position : Int) : α)
        * MOTOR_POS_INCREMENT_DEG := by
  have hstep : (devMotorControl.SetPosition newPos w).1 =
      { w with enc :=
        { w.enc with _position := truncToInt (newPos / MOTOR_POS_INCREMENT_DEG) } } := by
    unfold devMotorControl.SetPosition
    simp only
    rw [if_neg (by simp [hacc]), if_neg (by simp [hk])]
  refine ⟨hstep, by rw [hstep], by rw [hstep]; exact hk, ?_, ?_⟩
  · rw [hstep]
    simp only
    generalize newPos / MOTOR_POS_INCREMENT_DEG = x
    unfold truncToInt
    split_ifs with h
    · rw [abs_lt]
      constructor <;> linarith [Int.floor_le x, Int.lt_floor_add_one x]
    · rw [abs_lt]
      constructor <;> linarith [Int.le_ceil x, Int.ceil_lt_add_one x]
  · rfl

end Drive

/-- C23 on the state `worldCoasting`: a request of 100 deg/s hands 36 deg/s to
the transfer function, and a request of -0.1 deg/s hands -0.5 deg/s to it. -/
theorem SetSpeed_degs_drive_witness :
    (devMotorControl.SetSpeed_degs (100 : ℚ) worldCoasting).1 =
      (devMotorControl.SetSpeed_abs
        (truncToInt
          (devMotorControl.ConvertSpeed_WR_degs worldCoasting.mot.Xfer (36 : ℚ)
            / MOTOR_SPD_INCREMENT_FLT)) worldCoasting).1 ∧
    (devMotorControl.SetSpeed_degs (-1 / 10 : ℚ) worldCoasting).1 =
      (devMotorControl.SetSpeed_abs
        (truncToInt
          (devMotorControl.ConvertSpeed_WR_degs worldCoasting.mot.Xfer (-1 / 2 : ℚ)
            / MOTOR_SPD_INCREMENT_FLT)) worldCoasting).1 :=
  ⟨((SetSpeed_degs_drive (100 : ℚ) worldCoasting).2 (by norm_num)).1.trans (by decide!),
    ((SetSpeed_degs_drive (-1 / 10 : ℚ) worldCoasting).2 (by norm_num)).1.trans
      (by decide!)⟩

/-- C24 with the default coefficients: 10 deg/s and -10 deg/s survive the round
trip through both transforms. -/
theorem ConvertSpeed_round_trip_witness :
    devMotorControl.ConvertSpeed_RD_degs (XferDefault : ST_XFER ℚ)
      (devMotorControl.ConvertSpeed_WR_degs XferDefault 10) = 10 ∧
    devMotorControl.ConvertSpeed_RD_degs (XferDefault : ST_XFER ℚ)
      (devMotorControl.ConvertSpeed_WR_degs XferDefault (-10)) = -10 :=
  ⟨(ConvertSpeed_round_trip (XferDefault : ST_XFER ℚ) 10 (by decide!) (by decide!)
      (fun _ => by decide!) (fun h => absurd h (by norm_num))).1,
    (ConvertSpeed_round_trip (XferDefault : ST_XFER ℚ) (-10) (by decide!) (by decide!)
      (fun h => absurd h (by norm_num)) (fun _ => by decide!)).1⟩

/-- C25 on the encoder `encSlow` (period 60000 µs, forward) and on the shaft at
rest: the speed is `(360000000 / 4096) / 60000` and 0. -/
theorem GetSpeed_ENC_value_witness :
    devMotorControl.GetSpeed_ENC worldCoasting = (360000000 / 4096) / 60000 ∧
    devMotorControl.GetSpeed_ENC worldQuarterTurn = 0 :=
  ⟨by
    have h := (GetSpeed_ENC_value worldCoasting).2 (by decide)
    have h3 := h.2.2 rfl
    rw [abs_of_pos h3] at h
    exact h.1.trans (by decide!),
   (GetSpeed_ENC_value worldQuarterTurn).1.2 rfl⟩

/-- C28 on the state `worldCoasting` (zero offset unknown, DAC level 0): setting
the position to 90.05 degrees gives pulse 1024; offset and flag are kept. -/
theorem SetPosition_unknown_witness :
    (devMotorControl.SetPosition (9005 / 100 : ℚ) worldCoasting).1.enc._position = 1024 ∧
    (devMotorControl.SetPosition (9005 / 100 : ℚ) worldCoasting).1.enc._zero_offset = 0 ∧
    (devMotorControl.SetPosition (9005 / 100 : ℚ) worldCoasting).1.enc._ZeroOffsetIsKnown
      = false :=
  have h := SetPosition_unknown (9005 / 100 : ℚ) worldCoasting (by decide!) rfl
  ⟨(congrArg (fun v : World ℚ => v.enc._position) h.1).trans (by decide!), h.2.1, h.2.2.1⟩

/-! ## The recomputing controller tick: speed bound and PID terms -/

section Terms

variable {α : Type} [LinearOrderedField α] [FloorRing α]

theorem PID_output_terms (sqrtf : α → α) (posError : α) (p : ST_PID α) :
    (appPidControl.PID_output sqrtf posError p).error
      = appPidControl.PID_spdBound sqrtf p.MaxAccel posError - p.Speed ∧
    (appPidControl.PID_output sqrtf posError p).intError
      = p.intError
        + (appPidControl.PID_spdBound sqrtf p.MaxAccel posError - p.Speed) * p.Period ∧
    (appPidControl.PID_output sqrtf posError p).derError
      = (appPidControl.PID_spdBound sqrtf p.MaxAccel posError - p.Speed - p.error)
        / p.Period :=
  ⟨rfl, rfl, rfl⟩

theorem msTimerPoll_not_expired (t : ST_MS_TIMER) (millis : Nat)
    (h : (timerUtils.msTimerPoll t millis).2 = false) :
    (timerUtils.msTimerPoll t millis).1 = t := by
  unfold timerUtils.msTimerPoll at h ⊢
  by_cases hE : t.Enabled = false
  · rw [if_pos hE]
  · rw [if_neg hE] at h ⊢
    by_cases hx : t.Expired = true
    · simp [hx] at h
    · have hx' : t.Expired = false := by simpa using hx
      by_cases hm : millis ≥ t.msExpire
      · simp [hx', hm] at h
      · simp [hx', hm]

/-- Claim C27: the speed bound of a recomputing controller tick is
`sign_f posError * sqrtf (2 * MaxAccel * |posError|)`; for a square root
function and `MaxAccel ≥ 0` its square is `2 * MaxAccel * |posError|` and its
sign is that of the position error; for `MaxAccel = 9` and a position error of
90 degrees it is `sqrtf 1620`, strictly between 40.2 and 40.3. -/
theorem PID_spdBound_value (sqrtf : α → α)
    (hsq : ∀ x : α, 0 ≤ x → 0 ≤ sqrtf x ∧ sqrtf x * sqrtf x = x)
    (clk : Clock) (w : World α)
    (hen : w.pidSettings.Enable = true) (harr : ¬ arrivalTest w)
    (hdue : periodElapsed clk w) (hA : 0 ≤ w.pidSettings.MaxAccel) :
    (appPidControl.PID_Process sqrtf clk w).1.pidSettings.error
      = appPidControl.PID_spdBound sqrtf w.pidSettings.MaxAccel
          (w.pidSettings.Target - devMotorControl.GetPosition w) - w.pidSettings.Speed ∧
    appPidControl.PID_spdBound sqrtf w.pidSettings.MaxAccel
        (w.pidSettings.Target - devMotorControl.GetPosition w)
      = sign_f (w.pidSettings.Target - devMotorControl.GetPosition w)
        * sqrtf (2 * w.pidSettings.MaxAccel
            * |w.pidSettings.Target - devMotorControl.GetPosition w|) ∧
    appPidControl.PID_spdBound sqrtf w.pidSettings.MaxAccel
        (w.pidSettings.Target - devMotorControl.GetPosition w) ^ 2
      = 2 * w.pidSettings.MaxAccel
          * |w.pidSettings.Target - devMotorControl.GetPosition w| ∧
    (0 < w.pidSettings.Target - devMotorControl.GetPosition w →
      0 ≤ appPidControl.PID_spdBound sqrtf w.pidSettings.MaxAccel
        (w.pidSettings.Target - devMotorControl.GetPosition w) ∧
      (0 < w.pidSettings.MaxAccel →
        0 < appPidControl.PID_spdBound sqrtf w.pidSettings.MaxAccel
          (w.pidSettings.Target - devMotorControl.GetPosition w))) ∧
    (w.pidSettings.Target - devMotorControl.GetPosition w < 0 →
      appPidControl.PID_spdBound sqrtf w.pidSettings.MaxAccel
        (w.pidSettings.Target - devMotorControl.GetPosition w) ≤ 0 ∧
      (0 < w.pidSettings.MaxAccel →
        appPidControl.PID_spdBound sqrtf w.pidSettings.MaxAccel
          (w.pidSettings.Target - devMotorControl.GetPosition w) < 0)) ∧
    (w.pidSettings.MaxAccel = 9 → w.pidSettings.Target = 90 →
      devMotorControl.GetPosition w = 0 →
      appPidControl.PID_spdBound sqrtf w.pidSettings.MaxAccel
        (w.pidSettings.Target - devMotorControl.GetPosition w) = sqrtf 1620 ∧
      402 / 10 < sqrtf 1620 ∧ sqrtf 1620 < 403 / 10) := by
  generalize he : w.pidSettings.Target - devMotorControl.GetPosition w = e
  generalize ha : w.pidSettings.MaxAccel = a at hA
  have harg : 0 ≤ 2 * a * |e| := by positivity
  obtain ⟨hs0, hs2⟩ := hsq _ harg
  have hstrict : 0 < a → e ≠ 0 → 0 < sqrtf (2 * a * |e|) := by
    intro h1 h2
    rcases lt_or_eq_of_le hs0 with h | h
    · exact h
    · exfalso
      rw [← h] at hs2
      have : 0 < 2 * a * |e| := by
        have := abs_pos.2 h2
        positivity
      linarith
  refine ⟨?_, ?_, ?_, ?_, ?_, ?_⟩
  · rw [(PID_Process_recomputes sqrtf clk w hen harr hdue).1, ← he, ← ha]
    rfl
  · unfold appPidControl.PID_spdBound
    rw [Arduino_abs_eq, mul_comm]
  · unfold appPidControl.PID_spdBound sign_f
    rw [Arduino_abs_eq]
    split_ifs <;> nlinarith
  · intro h
    have hsign : sign_f e = 1 := by
      unfold sign_f; rw [if_neg (not_lt.2 (le_of_lt h))]
    unfold appPidControl.PID_spdBound
    rw [Arduino_abs_eq, hsign, mul_one]
    exact ⟨hs0, fun h1 => hstrict h1 (ne_of_gt h)⟩
  · intro h
    have hsign : sign_f e = -1 := by
      unfold sign_f; rw [if_pos h]
    unfold appPidControl.PID_spdBound
    rw [Arduino_abs_eq, hsign, mul_neg_one]
    exact ⟨by linarith, fun h1 => by linarith [hstrict h1 (ne_of_lt h)]⟩
  · intro h9 h90 h0
    have he90 : e = 90 := by rw [← he, h90, h0]; ring
    have hval : 2 * a * |e| = 1620 := by
      rw [he90, h9, abs_of_pos (by norm_num : (0 : α) < 90)]; norm_num
    rw [hval] at hs0 hs2
    refine ⟨?_, ?_, ?_⟩
    · unfold appPidControl.PID_spdBound sign_f
      rw [Arduino_abs_eq, hval, he90, if_neg (by norm_num), mul_one]
    · by_contra hc
      have hc' := not_lt.1 hc
      nlinarith
    · by_contra hc
      have hc' := not_lt.1 hc
      nlinarith

/-- Claim C29: on every recomputing controller tick with `Period > 0`, with
`e = spdBound - Speed`: `intError` becomes `intError + e * Period`, the
derivative term is `(e - error) / Period`, `error` becomes `e`, and the new
`Speed` is the raw output `Kp*e + Ki*intError + Kd*derError + bias` passed
through the acceleration limit and then the speed limit. -/
theorem PID_Process_terms (sqrtf : α → α) (clk : Clock) (w : World α)
    (hen : w.pidSettings.Enable = true) (harr : ¬ arrivalTest w)
    (hdue : periodElapsed clk w) (hP : 0 < w.pidSettings.Period)
    (e I D raw out : α)
    (he : e = appPidControl.PID_spdBound sqrtf w.pidSettings.MaxAccel
        (w.pidSettings.Target - devMotorControl.GetPosition w) - w.pidSettings.Speed)
    (hI : I = w.pidSettings.intError + e * w.pidSettings.Period)
    (hD : D = (e - w.pidSettings.error) / w.pidSettings.Period)
    (hraw : raw = w.pidSettings.Kp * e + w.pidSettings.Ki * I + w.pidSettings.Kd * D
        + w.pidSettings.bias)
    (hout : out =
      if |(raw - w.pidSettings.Speed) / w.pidSettings.Period| > w.pidSettings.MaxAccel then
        w.pidSettings.Speed
          + sign_f ((raw - w.pidSettings.Speed) / w.pidSettings.Period)
            * w.pidSettings.MaxAccel * w.pidSettings.Period
      else raw) :
    (appPidControl.PID_Process sqrtf clk w).1.pidSettings.intError = I ∧
    (appPidControl.PID_Process sqrtf clk w).1.pidSettings.derError = D ∧
    (appPidControl.PID_Process sqrtf clk w).1.pidSettings.error = e ∧
    (appPidControl.PID_Process sqrtf clk w).1.pidSettings.Speed
      = (if |out| > w.pidSettings.MaxSpeed then sign_f out * w.pidSettings.MaxSpeed
         else out) := by
  rw [(PID_Process_recomputes sqrtf clk w hen harr hdue).1]
  subst hout hraw hD hI he
  simp only [appPidControl.PID_output, appPidControl.PID_spdBound, Arduino_abs_eq]
  exact ⟨trivial, trivial, trivial, trivial⟩

/-- Claim C30: for every enabled state that does not satisfy the arrival test, a
controller tick made while the control-period timer has not elapsed changes
nothing but the sampled `Position` and the elapsed `TimeToTarget`: the stored
speed, the integral and previous error, `aiming`, `Enable`, the status flags
and the actuator are as before. -/
theorem PID_Process_holds_between_periods (sqrtf : α → α) (clk : Clock) (w : World α)
    (hen : w.pidSettings.Enable = true) (harr : ¬ arrivalTest w)
    (hnd : ¬ periodElapsed clk w) :
    appPidControl.PID_Process sqrtf clk w =
      ({ w with pidSettings := { w.pidSettings with
            Position := devMotorControl.GetPosition w
            TimeToTarget :=
              (((clk.millis % ULONG_RANGE + ULONG_RANGE - w.pidSettings.startTime)
                % ULONG_RANGE : Nat) : α) / 1000 } }, true) ∧
    (appPidControl.PID_Process sqrtf clk w).1.pidSettings.Speed = w.pidSettings.Speed ∧
    (appPidControl.PID_Process sqrtf clk w).1.pidSettings.intError
      = w.pidSettings.intError ∧
    (appPidControl.PID_Process sqrtf clk w).1.pidSettings.error = w.pidSettings.error ∧
    (appPidControl.PID_Process sqrtf clk w).1.pidSettings.aiming = w.pidSettings.aiming ∧
    (appPidControl.PID_Process sqrtf clk w).1.pidSettings.Enable = true ∧
    (appPidControl.PID_Process sqrtf clk w).1.SystemStatus = w.SystemStatus ∧
    (appPidControl.PID_Process sqrtf clk w).1.mot = w.mot := by
  have hpoll : (timerUtils.msTimerPoll w.pidTimer clk.millis).2 = false := by
    unfold periodElapsed at hnd
    simpa using hnd
  have hstep : appPidControl.PID_Process sqrtf clk w =
      ({ w with pidSettings := { w.pidSettings with
            Position := devMotorControl.GetPosition w
            TimeToTarget :=
              (((clk.millis % ULONG_RANGE + ULONG_RANGE - w.pidSettings.startTime)
                % ULONG_RANGE : Nat) : α) / 1000 } }, true) := by
    rw [PID_Process_not_arrived sqrtf clk w hen harr]
    simp only [appPidControl.PID_recompute, hpoll, Bool.not_false, if_true,
      msTimerPoll_not_expired _ _ hpoll, hen]
  rw [hstep]
  exact ⟨rfl, rfl, rfl, rfl, rfl, hen, rfl, rfl⟩

end Terms

/-- C27 over the reals with `Real.sqrt`, for the default `MaxAccel = 9`, target
90 degrees and the shaft at position 0: the recomputing tick stores the error
`Real.sqrt 1620 - 0`, and the bound lies strictly between 40.2 and 40.3. -/
theorem PID_spdBound_value_witness :
    (appPidControl.PID_Process Real.sqrt clk10
        (worldTarget90 : World ℝ)).1.pidSettings.error = Real.sqrt 1620 - 0 ∧
    appPidControl.PID_spdBound Real.sqrt (worldTarget90 : World ℝ).pidSettings.MaxAccel
      ((worldTarget90 : World ℝ).pidSettings.Target
        - devMotorControl.GetPosition (worldTarget90 : World ℝ)) ^ 2 = 2 * 9 * |90 - 0| ∧
    (402 / 10 : ℝ) < Real.sqrt 1620 ∧ Real.sqrt 1620 < 403 / 10 := by
  have hpos : devMotorControl.GetPosition (worldTarget90 : World ℝ) = 0 := by
    simp [devMotorControl.GetPosition, worldTarget90, encSlow]
  have h := PID_spdBound_value Real.sqrt
    (fun x hx => ⟨Real.sqrt_nonneg x, Real.mul_self_sqrt hx⟩) clk10
    (worldTarget90 : World ℝ) rfl
    (by
      intro ha
      have h1 := ha.1
      rw [hpos] at h1
      norm_num [worldTarget90] at h1)
    (by unfold periodElapsed; rfl)
    (by show (0 : ℝ) ≤ 9; norm_num)
  have h6 := h.2.2.2.2.2 rfl rfl hpos
  refine ⟨?_, ?_, h6.2.1, h6.2.2⟩
  · rw [h.1, h6.1]; rfl
  · rw [h.2.2.1, hpos]; rfl

/-- C29 on the state `worldFast` (target 2 degrees from position 0, stored speed
36 deg/s, bound `sqrtQ 36 = 6`): `e = -30`, the integral becomes -0.3, the
derivative term is -3000, the raw output -8400.12 is cut by the acceleration
limit to 35.91 deg/s. -/
theorem PID_Process_terms_witness :
    (appPidControl.PID_Process sqrtQ clk10 worldFast).1.pidSettings.intError = -3 / 10 ∧
    (appPidControl.PID_Process sqrtQ clk10 worldFast).1.pidSettings.derError = -3000 ∧
    (appPidControl.PID_Process sqrtQ clk10 worldFast).1.pidSettings.error = -30 ∧
    (appPidControl.PID_Process sqrtQ clk10 worldFast).1.pidSettings.Speed = 3591 / 100 :=
  have h := PID_Process_terms sqrtQ clk10 worldFast rfl worldFast_not_arrived
    (by unfold periodElapsed; rfl) (by decide!)
    (-30) (-3 / 10) (-3000) (-840012 / 100) (3591 / 100)
    (by decide!) (by decide!) (by decide!) (by decide!) (by decide!)
  ⟨h.1, h.2.1, h.2.2.1, h.2.2.2.trans (by decide!)⟩

theorem worldFastPending_not_arrived : ¬ arrivalTest worldFastPending := by
  intro h
  have h1 := h.1
  norm_num [worldFastPending, worldFast, worldArriving, pidControlDefault,
    devMotorControl.GetPosition, encSlow, MOTOR_POS_INCREMENT_DEG] at h1

/-- C30 on the state `worldFastPending` at 20 ms, 10 ms before the period timer
expires: the tick returns `true` and keeps the stored speed 36, the errors, the
flags, the status and the actuator. -/
theorem PID_Process_holds_between_periods_witness :
    (appPidControl.PID_Process sqrtQ clk20 worldFastPending).2 = true ∧
    (appPidControl.PID_Process sqrtQ clk20 worldFastPending).1.pidSettings.Speed = 36 ∧
    (appPidControl.PID_Process sqrtQ clk20 worldFastPending).1.pidSettings.TimeToTarget
      = 20 / 1000 ∧
    (appPidControl.PID_Process sqrtQ clk20 worldFastPending).1.SystemStatus
      = worldFastPending.SystemStatus ∧
    (appPidControl.PID_Process sqrtQ clk20 worldFastPending).1.mot = worldFastPending.mot :=
  have h := PID_Process_holds_between_periods sqrtQ clk20 worldFastPending rfl
    worldFastPending_not_arrived (by unfold periodElapsed; decide)
  ⟨congrArg Prod.snd h.1, h.2.1,
    (congrArg (fun r : World ℚ × Bool => r.1.pidSettings.TimeToTarget) h.1).trans
      (by decide!),
    h.2.2.2.2.2.2.1, h.2.2.2.2.2.2.2⟩

/-! ## Settings writes and the order of the speed limits -/

theorem menuCmd_MinSpd_keeps_order {α : Type} [LinearOrderedField α]
    (value : α) (w : World α) (h : w.pidSettings.MinSpeed ≤ w.pidSettings.MaxSpeed) :
    (appPidControl.menuCmd appPidControl.MenuParam.MinSpd value w).pidSettings.MinSpeed
      ≤ (appPidControl.menuCmd appPidControl.MenuParam.MinSpd value w).pidSettings.MaxSpeed := by
  simp only [appPidControl.menuCmd, stdUtils.setFloatParamStr]
  split_ifs with hc
  · exact h
  · push_neg at hc
    exact hc.2

/-- Claim C26 (failing inputs): from the default limits `MinSpeed = 1.5` and
`MaxSpeed = 36` the accepted settings message `seta maxspd:2.0,minspd:5.0`
leaves `MinSpeed = 5 > MaxSpeed = 2`, and the accepted console command
`MaxSpd 1` leaves `MaxSpeed = 1 < MinSpeed = 1.5`. -/
theorem settings_write_breaks_speed_order :
    worldCoasting.pidSettings.MinSpeed ≤ worldCoasting.pidSettings.MaxSpeed ∧
    devComms.isWrSettingsValid [(3, (2 : ℚ)), (4, 5)] = true ∧
    (devComms.writeSetting clk10 [(3, (2 : ℚ)), (4, 5)] worldCoasting).pidSettings.MaxSpeed
      = 2 ∧
    (devComms.writeSetting clk10 [(3, (2 : ℚ)), (4, 5)] worldCoasting).pidSettings.MinSpeed
      = 5 ∧
    ¬ (devComms.writeSetting clk10 [(3, (2 : ℚ)), (4, 5)] worldCoasting).pidSettings.MinSpeed
      ≤ (devComms.writeSetting clk10 [(3, (2 : ℚ)), (4, 5)]
          worldCoasting).pidSettings.MaxSpeed ∧
    (appPidControl.menuCmd appPidControl.MenuParam.MaxSpd (1 : ℚ)
        worldCoasting).pidSettings.MaxSpeed = 1 ∧
    (appPidControl.menuCmd appPidControl.MenuParam.MaxSpd (1 : ℚ)
        worldCoasting).pidSettings.MinSpeed = 3 / 2 ∧
    ¬ (appPidControl.menuCmd appPidControl.MenuParam.MaxSpd (1 : ℚ)
        worldCoasting).pidSettings.MinSpeed
      ≤ (appPidControl.menuCmd appPidControl.MenuParam.MaxSpd (1 : ℚ)
          worldCoasting).pidSettings.MaxSpeed := by
  decide!

/-! ## Position redefinition with a known zero offset -/

section Known

variable {α : Type} [LinearOrderedField α] [FloorRing α]

theorem roundf_nearest (x : α) : |((roundf x : Int) : α) - x| ≤ 1 / 2 := by
  unfold roundf
  split_ifs with h
  · rw [abs_le]
    constructor <;> linarith [Int.floor_le (x + 1 / 2), Int.lt_floor_add_one (x + 1 / 2)]
  · rw [abs_le]
    constructor <;> linarith [Int.le_ceil (x - 1 / 2), Int.ceil_lt_add_one (x - 1 / 2)]

/-- Claim C31: for every accepted `SetPosition newPos` with the zero offset
known, whatever the prior position and offset: the new position is
`newPos / (360/4096)` rounded to the nearest pulse, the new zero offset lies in
`[-2048, 2048)`, and the real position is preserved modulo 4096. -/
theorem SetPosition_known (newPos : α) (w : World α)
    (hacc : devMotorControl.GetSpeed_DAC w = 0)
    (hk : w.enc._ZeroOffsetIsKnown = true) :
    (devMotorControl.SetPosition newPos w).1.enc._position
      = roundf (newPos / MOTOR_POS_INCREMENT_DEG) ∧
    |(((devMotorControl.SetPosition newPos w).1.enc._position : Int) : α)
        - newPos / MOTOR_POS_INCREMENT_DEG| ≤ 1 / 2 ∧
    AMT203_QUAD_PPR_NEG_OFFSET ≤ (devMotorControl.SetPosition newPos w).1.enc._zero_offset ∧
    (devMotorControl.SetPosition newPos w).1.enc._zero_offset
      < AMT203_QUAD_PPR + AMT203_QUAD_PPR_NEG_OFFSET ∧
    (((devMotorControl.SetPosition newPos w).1.enc._position
        - (devMotorControl.SetPosition newPos w).1.enc._zero_offset)
      - (w.enc._position - w.enc._zero_offset)) % AMT203_QUAD_PPR = 0 ∧
    (devMotorControl.SetPosition newPos w).1.enc._ZeroOffsetIsKnown = true := by
  have hstep : (devMotorControl.SetPosition newPos w).1 =
      { w with enc := { w.enc with
          _position := roundf (newPos / MOTOR_POS_INCREMENT_DEG)
          _zero_offset :=
            SetOffsetWithinLimit
              ((roundf (newPos / MOTOR_POS_INCREMENT_DEG)
                - SetOffsetWithinLimit
                    ((w.enc._position - w.enc._zero_offset).tmod AMT203_QUAD_PPR)).tmod
                AMT203_QUAD_PPR) } } := by
    unfold devMotorControl.SetPosition
    simp only
    rw [if_neg (by simp [hacc]), if_pos hk]
  rw [hstep]
  obtain ⟨a1, a2, a3⟩ := SetOffsetWithinLimit_tmod (w.enc._position - w.enc._zero_offset)
  obtain ⟨b1, b2, b3⟩ := SetOffsetWithinLimit_tmod
    (roundf (newPos / MOTOR_POS_INCREMENT_DEG)
      - SetOffsetWithinLimit ((w.enc._position - w.enc._zero_offset).tmod AMT203_QUAD_PPR))
  refine ⟨rfl, roundf_nearest _, ?_, ?_, ?_, hk⟩
  · simpa [AMT203_QUAD_PPR_NEG_OFFSET] using b1
  · simpa [AMT203_QUAD_PPR_NEG_OFFSET, AMT203_QUAD_PPR] using b2
  · show ((roundf (newPos / MOTOR_POS_INCREMENT_DEG)
        - SetOffsetWithinLimit
            ((roundf (newPos / MOTOR_POS_INCREMENT_DEG)
              - SetOffsetWithinLimit
                  ((w.enc._position - w.enc._zero_offset).tmod AMT203_QUAD_PPR)).tmod
              AMT203_QUAD_PPR))
        - (w.enc._position - w.enc._zero_offset)) % AMT203_QUAD_PPR = 0
    simp only [AMT203_QUAD_PPR] at a3 b3 ⊢
    omega

/-- Claim C37: whenever the calibration state is not `stateIDLE`, `GotoPos`
returns false for every `newPos` and leaves the whole state, the target
included, unchanged. -/
theorem GotoPos_rejected_while_calibrating (clk : Clock) (newPos : α) (w : World α)
    (h : w.ControlState ≠ stateIDLE) :
    appPidControl.GotoPos clk newPos w = (w, false) ∧
    (appPidControl.GotoPos clk newPos w).2 = false ∧
    (appPidControl.GotoPos clk newPos w).1.pidSettings.Target = w.pidSettings.Target := by
  have hstep : appPidControl.GotoPos clk newPos w = (w, false) := by
    unfold appPidControl.GotoPos
    rw [if_pos h]
  rw [hstep]
  exact ⟨rfl, rfl, rfl⟩

end Known

/-- C31 on the state `worldOneTurn` (pulse 4096, zero offset 0, known): setting
the position to 90.05 degrees gives pulse 1025 and zero offset 1025, so the
real position stays 0 modulo 4096. -/
theorem SetPosition_known_witness :
    (devMotorControl.SetPosition (9005 / 100 : ℚ) worldOneTurn).1.enc._position = 1025 ∧
    (devMotorControl.SetPosition (9005 / 100 : ℚ) worldOneTurn).1.enc._zero_offset = 1025 :=
  have h := SetPosition_known (9005 / 100 : ℚ) worldOneTurn (by decide!) rfl
  ⟨h.1.trans (by decide!), by decide!⟩

/-- C37 during the calibration sweep `worldSearching`: a request for 10 degrees
(in range) and one for 1000 degrees (out of range) are both refused and change
nothing. -/
theorem GotoPos_rejected_while_calibrating_witness :
    appPidControl.GotoPos clk20 (10 : ℚ) worldSearching = (worldSearching, false) ∧
    appPidControl.GotoPos clk20 (1000 : ℚ) worldSearching = (worldSearching, false) :=
  ⟨(GotoPos_rejected_while_calibrating clk20 (10 : ℚ) worldSearching (by decide)).1,
    (GotoPos_rejected_while_calibrating clk20 (1000 : ℚ) worldSearching (by decide)).1⟩

/-! ## The DAC level of a non-zero speed request -/

section Level

variable {α : Type} [LinearOrderedField α] [FloorRing α]

theorem SetSpeed_degs_limit_bounds (s : α) :
    (0 < s → 1 / 2 ≤ devMotorControl.SetSpeed_degs_limit s ∧
      devMotorControl.SetSpeed_degs_limit s ≤ 36) ∧
    (s < 0 → -36 ≤ devMotorControl.SetSpeed_degs_limit s ∧
      devMotorControl.SetSpeed_degs_limit s ≤ -(1 / 2)) := by
  have h1 : (1 / 2 : α) ≤ max (1 / 2) (min |s| 36) := le_max_left _ _
  have h2 : max (1 / 2) (min |s| 36) ≤ (36 : α) := max_le (by norm_num) (min_le_right _ _)
  rw [SetSpeed_degs_limit_eq]
  unfold sign_f
  constructor
  · intro h
    rw [if_neg (not_lt.2 (le_of_lt h)), one_mul]
    exact ⟨h1, h2⟩
  · intro h
    rw [if_pos h]
    constructor <;> linarith

theorem level_positive (x : α) (h1 : 1 / 2 ≤ x) (h2 : x ≤ 36) :
    46 ≤ truncToInt
      (devMotorControl.ConvertSpeed_WR_degs XferDefault x / MOTOR_SPD_INCREMENT_FLT) ∧
    truncToInt
      (devMotorControl.ConvertSpeed_WR_degs XferDefault x / MOTOR_SPD_INCREMENT_FLT)
      ≤ 931 := by
  have hx : x > 0 := by linarith
  have hval : devMotorControl.ConvertSpeed_WR_degs (XferDefault : ST_XFER α) x
      / MOTOR_SPD_INCREMENT_FLT = (x + 13754 / 10000) * (10000 / 11417) * (1023 / 36) := by
    unfold devMotorControl.ConvertSpeed_WR_degs XferDefault MOTOR_SPD_INCREMENT_FLT
    rw [if_pos hx]
    field_simp
  rw [hval]
  have hlo : (46 : α) ≤ (x + 13754 / 10000) * (10000 / 11417) * (1023 / 36) := by
    have : (x + 13754 / 10000) * (10000 / 11417) * (1023 / 36)
        = (x + 13754 / 10000) * (852500 / 34251) := by ring
    rw [this]
    nlinarith
  have hhi : (x + 13754 / 10000) * (10000 / 11417) * (1023 / 36) ≤ (931 : α) := by
    have : (x + 13754 / 10000) * (10000 / 11417) * (1023 / 36)
        = (x + 13754 / 10000) * (852500 / 34251) := by ring
    rw [this]
    nlinarith
  unfold truncToInt
  rw [if_pos (by linarith)]
  constructor
  · exact Int.le_floor.2 (by exact_mod_cast hlo)
  · have := Int.floor_le ((x + 13754 / 10000) * (10000 / 11417) * (1023 / 36))
    have h3 : ((⌊(x + 13754 / 10000) * (10000 / 11417) * (1023 / 36)⌋ : Int) : α)
        ≤ ((931 : Int) : α) := by push_cast; linarith
    exact_mod_cast h3

theorem level_negative (x : α) (h1 : -36 ≤ x) (h2 : x ≤ -(1 / 2)) :
    -910 ≤ truncToInt
      (devMotorControl.ConvertSpeed_WR_degs XferDefault x / MOTOR_SPD_INCREMENT_FLT) ∧
    truncToInt
      (devMotorControl.ConvertSpeed_WR_degs XferDefault x / MOTOR_SPD_INCREMENT_FLT)
      ≤ -39 := by
  have hx : x < 0 := by linarith
  have hval : devMotorControl.ConvertSpeed_WR_degs (XferDefault : ST_XFER α) x
      / MOTOR_SPD_INCREMENT_FLT = (x - 11071 / 10000) * (852500 / 34794) := by
    unfold devMotorControl.ConvertSpeed_WR_degs XferDefault MOTOR_SPD_INCREMENT_FLT
    rw [if_neg (not_lt.2 (le_of_lt hx)), if_pos hx]
    field_simp
    ring
  rw [hval]
  have hlo : (-910 : α) ≤ (x - 11071 / 10000) * (852500 / 34794) := by nlinarith
  have hhi : (x - 11071 / 10000) * (852500 / 34794) ≤ (-39 : α) := by nlinarith
  unfold truncToInt
  rw [if_neg (by linarith)]
  constructor
  · have := Int.le_ceil ((x - 11071 / 10000) * (852500 / 34794))
    have h3 : ((-910 : Int) : α)
        ≤ ((⌈(x - 11071 / 10000) * (852500 / 34794)⌉ : Int) : α) := by push_cast; linarith
    exact_mod_cast h3
  · exact Int.ceil_le.2 (by exact_mod_cast hhi)

end Level

section LevelClaim

variable {α : Type} [LinearOrderedField α] [FloorRing α]

/-- Claim C35: with the default transfer coefficients and 1023 DAC levels, for
every non-zero speed `s` the level that `SetSpeed_degs` hands to `SetSpeed_abs`
is non-zero, has the sign of `s` and magnitude at most 1023; the motor-enable
output is switched on and the direction output is reversed exactly when
`s < 0`. -/
theorem SetSpeed_degs_level (s : α) (w : World α)
    (hX : w.mot.Xfer = XferDefault) (hs : s ≠ 0) :
    (devMotorControl.SetSpeed_degs s w).1 =
      (devMotorControl.SetSpeed_abs
        (truncToInt
          (devMotorControl.ConvertSpeed_WR_degs XferDefault
            (devMotorControl.SetSpeed_degs_limit s) / MOTOR_SPD_INCREMENT_FLT)) w).1 ∧
    truncToInt
      (devMotorControl.ConvertSpeed_WR_degs XferDefault
        (devMotorControl.SetSpeed_degs_limit s) / MOTOR_SPD_INCREMENT_FLT) ≠ 0 ∧
    (0 < s → 0 < truncToInt
      (devMotorControl.ConvertSpeed_WR_degs XferDefault
        (devMotorControl.SetSpeed_degs_limit s) / MOTOR_SPD_INCREMENT_FLT)) ∧
    (s < 0 → truncToInt
      (devMotorControl.ConvertSpeed_WR_degs XferDefault
        (devMotorControl.SetSpeed_degs_limit s) / MOTOR_SPD_INCREMENT_FLT) < 0) ∧
    Arduino.absInt (truncToInt
      (devMotorControl.ConvertSpeed_WR_degs XferDefault
        (devMotorControl.SetSpeed_degs_limit s) / MOTOR_SPD_INCREMENT_FLT))
      ≤ TLC5615_MAX_OUTPUT_VAL ∧
    (devMotorControl.SetSpeed_degs s w).1.mot.pin_EN = true ∧
    (devMotorControl.SetSpeed_degs s w).1.mot._enabled = true ∧
    ((devMotorControl.SetSpeed_degs s w).1.mot.pin_REV = true ↔ s < 0) ∧
    ((devMotorControl.SetSpeed_degs s w).1.mot.dacLevel : Int)
      = Arduino.absInt (truncToInt
          (devMotorControl.ConvertSpeed_WR_degs XferDefault
            (devMotorControl.SetSpeed_degs_limit s) / MOTOR_SPD_INCREMENT_FLT)) := by
  have hstep : (devMotorControl.SetSpeed_degs s w).1 =
      (devMotorControl.SetSpeed_abs
        (truncToInt
          (devMotorControl.ConvertSpeed_WR_degs XferDefault
            (devMotorControl.SetSpeed_degs_limit s) / MOTOR_SPD_INCREMENT_FLT)) w).1 := by
    unfold devMotorControl.SetSpeed_degs
    rw [if_neg hs, hX]
  rw [hstep]
  generalize hL : truncToInt
      (devMotorControl.ConvertSpeed_WR_degs XferDefault
        (devMotorControl.SetSpeed_degs_limit s) / MOTOR_SPD_INCREMENT_FLT) = level
  have hb := SetSpeed_degs_limit_bounds s
  rcases lt_or_gt_of_ne hs with hneg | hpos
  · obtain ⟨l1, l2⟩ := level_negative _ (hb.2 hneg).1 (hb.2 hneg).2
    rw [hL] at l1 l2
    have hnp : ¬ 0 < s := not_lt.2 (le_of_lt hneg)
    have habs : Arduino.absInt level = -level := by
      unfold Arduino.absInt; rw [if_neg (by omega)]
    have hle : ¬ Arduino.absInt level > TLC5615_MAX_OUTPUT_VAL := by
      rw [habs]; unfold TLC5615_MAX_OUTPUT_VAL; omega
    refine ⟨rfl, by omega, fun h => absurd h hnp, fun _ => by omega,
      by rw [habs]; unfold TLC5615_MAX_OUTPUT_VAL; omega, ?_, ?_, ?_, ?_⟩
    · simp only [devMotorControl.SetSpeed_abs, halTLC5615.SetLevel, if_neg hle]
      simp; omega
    · simp only [devMotorControl.SetSpeed_abs, halTLC5615.SetLevel, if_neg hle]
      simp; omega
    · simp only [devMotorControl.SetSpeed_abs, halTLC5615.SetLevel, if_neg hle]
      simp [MOTOR_REV, hneg]; omega
    · simp only [devMotorControl.SetSpeed_abs, halTLC5615.SetLevel, if_neg hle]
      rw [habs]; omega
  · obtain ⟨l1, l2⟩ := level_positive _ (hb.1 hpos).1 (hb.1 hpos).2
    rw [hL] at l1 l2
    have hnn : ¬ s < 0 := not_lt.2 (le_of_lt hpos)
    have habs : Arduino.absInt level = level := by
      unfold Arduino.absInt; rw [if_pos (by omega)]
    have hle : ¬ Arduino.absInt level > TLC5615_MAX_OUTPUT_VAL := by
      rw [habs]; unfold TLC5615_MAX_OUTPUT_VAL; omega
    refine ⟨rfl, by omega, fun _ => by omega, fun h => absurd h hnn,
      by rw [habs]; unfold TLC5615_MAX_OUTPUT_VAL; omega, ?_, ?_, ?_, ?_⟩
    · simp only [devMotorControl.SetSpeed_abs, halTLC5615.SetLevel, if_neg hle]
      simp; omega
    · simp only [devMotorControl.SetSpeed_abs, halTLC5615.SetLevel, if_neg hle]
      simp; omega
    · simp only [devMotorControl.SetSpeed_abs, halTLC5615.SetLevel, if_neg hle]
      simp [MOTOR_REV, MOTOR_FWD, hnn]; omega
    · simp only [devMotorControl.SetSpeed_abs, halTLC5615.SetLevel, if_neg hle]
      rw [habs]; omega

end LevelClaim

/-- C35 on the state `worldCoasting`: -0.1 deg/s is driven as level -39 with the
direction output reversed, 100 deg/s as level 930 forward. -/
theorem SetSpeed_degs_level_witness :
    (devMotorControl.SetSpeed_degs (-1 / 10 : ℚ) worldCoasting).1.mot.dacLevel = 39 ∧
    (devMotorControl.SetSpeed_degs (-1 / 10 : ℚ) worldCoasting).1.mot.pin_REV = true ∧
    (devMotorControl.SetSpeed_degs (-1 / 10 : ℚ) worldCoasting).1.mot.pin_EN = true ∧
    (devMotorControl.SetSpeed_degs (100 : ℚ) worldCoasting).1.mot.dacLevel = 930 ∧
    (devMotorControl.SetSpeed_degs (100 : ℚ) worldCoasting).1.mot.pin_EN = true :=
  have h1 := SetSpeed_degs_level (-1 / 10 : ℚ) worldCoasting rfl (by norm_num)
  have h2 := SetSpeed_degs_level (100 : ℚ) worldCoasting rfl (by norm_num)
  ⟨by decide!, h1.2.2.2.2.2.2.2.1.2 (by norm_num), h1.2.2.2.2.2.1, by decide!,
    h2.2.2.2.2.2.1⟩

/-! ## Range columns of the settings table -/

/-- Claim C38 (failing input): row 5 of `SettingsArray` (`maxaccel`) is writable
and carries `Min = 36` and `Max = 1`, so no value passes `isWrSettingsValid`,
not even the default 9.0; every other writable row that carries both bounds has
`Min ≤ Max`. -/
theorem SettingsArray_maxaccel_rejects_all {α : Type} [LinearOrderedField α] [FloorRing α]
    (val : α) :
    (devComms.SettingsArray : List (ST_SETTING_ITEM α)).get? 5
      = some ⟨PARAM_READABLE ||| PARAM_WRITABLE, some 36, some 1⟩ ∧
    devComms.isWrSettingValid 5 val = false ∧
    devComms.isWrSettingsValid [(5, (9 : ℚ))] = false ∧
    devComms.writeSetting clk10 [(5, (9 : ℚ))] worldCoasting = worldCoasting ∧
    ((devComms.SettingsArray : List (ST_SETTING_ITEM ℚ)).enum.all
      (fun r =>
        match r.2.Min, r.2.Max with
        | some mn, some mx =>
          decide (r.1 = 5) || decide (r.2.rdwr &&& PARAM_WRITABLE ≠ PARAM_WRITABLE)
            || decide (mn ≤ mx)
        | _, _ => true)) = true := by
  refine ⟨rfl, ?_, by decide!, by decide!, by decide!⟩
  unfold devComms.isWrSettingValid
  rw [if_neg (by norm_num)]
  have hget : (devComms.SettingsArray : List (ST_SETTING_ITEM α)).get? 5
      = some ⟨PARAM_READABLE ||| PARAM_WRITABLE, some 36, some 1⟩ := rfl
  rw [hget]
  have hw : ¬ ((PARAM_READABLE ||| PARAM_WRITABLE) &&& PARAM_WRITABLE ≠ PARAM_WRITABLE) := by
    decide
  simp only [hw, if_false]
  by_cases h : val < 36
  · simp [h]
  · have h2 : val > 1 := by linarith [not_lt.1 h]
    simp [h, h2]

/-! ## Flag invariants over the operations of the controller interface -/

section Flags

variable {α : Type} [LinearOrderedField α] [FloorRing α]

theorem appPidControl_Stop_flags (clk : Clock) (w : World α) :
    (appPidControl.Stop clk w).pidSettings.Enable = false ∧
    (appPidControl.Stop clk w).pidSettings.aiming = false ∧
    (appPidControl.Stop clk w).SystemStatus.testBit 3 = false ∧
    (appPidControl.Stop clk w).SystemStatus.testBit 4 = false ∧
    (appPidControl.Stop clk w).SystemStatus.testBit 5 = w.SystemStatus.testBit 5 ∧
    (appPidControl.Stop clk w).ControlState = w.ControlState := by
  unfold appPidControl.Stop
  simp only
  refine ⟨by rw [(Stop_effect clk _).1], by rw [(Stop_effect clk _).1], ?_, ?_, ?_,
    by rw [(Stop_effect clk _).2.2.2.1]⟩
  · rw [devMotorControl_Stop_status _ _ 3 (by norm_num) (by norm_num)]
    simp only
    rw [status_masks.2.2.2.1, status_masks.2.2.1, testBit_ClearStatus _ _ _ (by norm_num),
      testBit_ClearStatus _ _ _ (by norm_num)]
    simp
  · rw [devMotorControl_Stop_status _ _ 4 (by norm_num) (by norm_num)]
    simp only
    rw [status_masks.2.2.2.1, status_masks.2.2.1, testBit_ClearStatus _ _ _ (by norm_num),
      testBit_ClearStatus _ _ _ (by norm_num)]
    simp
  · rw [devMotorControl_Stop_status _ _ 5 (by norm_num) (by norm_num)]
    simp only
    rw [status_masks.2.2.2.1, status_masks.2.2.1, testBit_ClearStatus _ _ _ (by norm_num),
      testBit_ClearStatus _ _ _ (by norm_num)]
    simp

theorem pidFlagsInv_bits (w : World α) :
    pidFlagsInv w ↔
      (w.pidSettings.Enable = w.pidSettings.aiming ∧
        w.SystemStatus.testBit 3 = w.pidSettings.Enable ∧
        ¬ (w.SystemStatus.testBit 3 = true ∧ w.SystemStatus.testBit 4 = true)) := by
  unfold pidFlagsInv
  rw [status_masks.2.2.2.1, status_masks.2.2.1, GetStatus_bit, GetStatus_bit]

theorem calBusyInv_bits (w : World α) :
    calBusyInv w ↔ (w.SystemStatus.testBit 5 = true ↔ w.ControlState ≠ stateIDLE) := by
  unfold calBusyInv
  rw [status_masks.2.2.2.2, GetStatus_bit]

theorem Start_bits (clk : Clock) (w : World α) :
    (appPidControl.Start clk w).SystemStatus.testBit 3 = true ∧
    (appPidControl.Start clk w).SystemStatus.testBit 4 = false ∧
    (appPidControl.Start clk w).SystemStatus.testBit 5 = w.SystemStatus.testBit 5 := by
  obtain ⟨h1, h2, h3⟩ := Start_status clk w
  rw [status_masks.2.2.1, GetStatus_bit] at h1
  rw [status_masks.2.2.2.1, GetStatus_bit] at h2
  exact ⟨h1, h2, h3 5 (by norm_num) (by norm_num) (by norm_num)⟩

theorem pidFlagsInv_Start (clk : Clock) (w : World α) :
    pidFlagsInv (appPidControl.Start clk w) := by
  rw [pidFlagsInv_bits]
  obtain ⟨h1, h2, -⟩ := Start_bits clk w
  obtain ⟨-, -, -, -, -, fen, faim⟩ := Start_frame clk w
  rw [fen, faim, h1, h2]
  simp

theorem PID_Process_bits (sqrtf : α → α) (clk : Clock) (w : World α)
    (h : pidFlagsInv w) : pidFlagsInv (appPidControl.PID_Process sqrtf clk w).1 := by
  by_cases hen : w.pidSettings.Enable = true
  · have haim : w.pidSettings.aiming = true := by rw [← h.1]; exact hen
    by_cases harr : arrivalTest w
    · rw [PID_Process_arrived sqrtf clk w hen harr]
      obtain ⟨-, -, -, -, -, -, -, -, e9⟩ := PID_arrived_effect clk
        ({ w with pidSettings := { w.pidSettings with
            Position := devMotorControl.GetPosition w
            TimeToTarget :=
              (((clk.millis % ULONG_RANGE + ULONG_RANGE - w.pidSettings.startTime)
                % ULONG_RANGE : Nat) : α) / 1000 } } : World α)
      obtain ⟨a1, a2, a3, a4⟩ := e9 haim
      refine ⟨by rw [a1, a2], by rw [a4, a2], ?_⟩
      rw [a4]
      simp
    · rw [PID_Process_not_arrived sqrtf clk w hen harr]
      obtain ⟨k1, -, k3, k4⟩ := PID_recompute_keeps sqrtf clk
        (w.pidSettings.Target - devMotorControl.GetPosition w)
        ({ w with pidSettings := { w.pidSettings with
            Position := devMotorControl.GetPosition w
            TimeToTarget :=
              (((clk.millis % ULONG_RANGE + ULONG_RANGE - w.pidSettings.startTime)
                % ULONG_RANGE : Nat) : α) / 1000 } } : World α)
      have k5 := PID_recompute_aiming sqrtf clk
        (w.pidSettings.Target - devMotorControl.GetPosition w)
        ({ w with pidSettings := { w.pidSettings with
            Position := devMotorControl.GetPosition w
            TimeToTarget :=
              (((clk.millis % ULONG_RANGE + ULONG_RANGE - w.pidSettings.startTime)
                % ULONG_RANGE : Nat) : α) / 1000 } } : World α) haim
      refine ⟨by rw [k1, k5]; exact hen, by rw [k4, k1]; exact h.2.1, ?_⟩
      rw [k3, k4]
      exact h.2.2
  · have hen' : w.pidSettings.Enable = false := by simpa using hen
    rw [PID_Process_disabled sqrtf clk w hen']
    exact h

theorem pidFlagsInv_congr (w v : World α)
    (hp : v.pidSettings.Enable = w.pidSettings.Enable)
    (ha : v.pidSettings.aiming = w.pidSettings.aiming)
    (h3 : v.SystemStatus.testBit 3 = w.SystemStatus.testBit 3)
    (h4 : v.SystemStatus.testBit 4 = w.SystemStatus.testBit 4)
    (h : pidFlagsInv w) : pidFlagsInv v := by
  rw [pidFlagsInv_bits] at h ⊢
  rw [hp, ha, h3, h4]
  exact h

theorem ControlStateHandler_switch (sqrtf : α → α) (clk : Clock) (pinX : Int)
    (w : World α) :
    ∃ w1 : World α,
      appPidControl.ControlStateHandler sqrtf clk pinX w
        = appPidControl.PID_Process sqrtf clk w1 ∧
      (w1 = w ∨
        (w.ControlState = stateCAL_SEARCH ∧
          w1 = { w with
            pidSettings := { w.pidSettings with Target := devMotorControl.GetZeroOffset w }
            ControlState := stateCAL_GOTO_0 }) ∨
        (w.ControlState = stateCAL_GOTO_0 ∧
          w1 = { (devMotorControl.SetPosition 0 w).1 with
            SystemStatus :=
              stdUtils.ClearStatus (devMotorControl.SetPosition 0 w).1.SystemStatus
                statusCALIB_BUSY
            ControlState := stateIDLE }) ∨
        (w.ControlState = stateCAL_GOTO_0 ∧
          w1 = appPidControl.Start clk { w with
            pidSettings := { w.pidSettings with Target := 360 }
            ControlState := stateCAL_SEARCH })) := by
  unfold appPidControl.ControlStateHandler
  by_cases hs : w.ControlState = stateCAL_SEARCH
  · rw [if_pos hs]
    by_cases ho : Arduino.abs (devMotorControl.GetZeroOffset w) < 361
    · exact ⟨_, by simp only [if_pos ho], Or.inr (Or.inl ⟨hs, rfl⟩)⟩
    · exact ⟨w, by simp only [if_neg ho], Or.inl rfl⟩
  · rw [if_neg hs]
    by_cases hg : w.ControlState = stateCAL_GOTO_0
    · rw [if_pos hg]
      by_cases hd : stdUtils.GetStatus w.SystemStatus statusPID_DONE ∧
          ¬ stdUtils.GetStatus w.SystemStatus statusPID_BUSY
      · rw [if_pos hd]
        by_cases hx : pinX = HIGH
        · exact ⟨_, by rw [if_pos hx], Or.inr (Or.inr (Or.inl ⟨hg, rfl⟩))⟩
        · exact ⟨_, by rw [if_neg hx], Or.inr (Or.inr (Or.inr ⟨hg, rfl⟩))⟩
      · rw [if_neg hd]
        exact ⟨w, rfl, Or.inl rfl⟩
    · rw [if_neg hg]
      exact ⟨w, rfl, Or.inl rfl⟩

theorem pidFlagsInv_stepOp (sqrtf : α → α) (w : World α) (op : Op α)
    (h : pidFlagsInv w) : pidFlagsInv (stepOp sqrtf w op) := by
  cases op with
  | Start clk => exact pidFlagsInv_Start clk w
  | Stop clk =>
    obtain ⟨s1, s2, s3, s4, -, -⟩ := appPidControl_Stop_flags clk w
    show pidFlagsInv (appPidControl.Stop clk w)
    rw [pidFlagsInv_bits, s1, s2, s3, s4]
    simp
  | GotoPos clk newPos =>
    show pidFlagsInv (appPidControl.GotoPos clk newPos w).1
    unfold appPidControl.GotoPos
    by_cases hidle : w.ControlState ≠ stateIDLE
    · rw [if_pos hidle]
      exact h
    · rw [if_neg hidle]
      simp only
      by_cases hr : (stdUtils.setFloatParam w.pidSettings.Target newPos
          MOTOR_POS_WRAP_MIN MOTOR_POS_WRAP_MAX).2 ≠ 0
      · rw [if_pos hr]
        exact pidFlagsInv_congr w _ rfl rfl rfl rfl h
      · rw [if_neg hr]
        exact pidFlagsInv_Start clk _
  | StartCalibration clk => exact pidFlagsInv_Start clk _
  | ControlStateHandler clk pinX =>
    show pidFlagsInv (appPidControl.ControlStateHandler sqrtf clk pinX w).1
    obtain ⟨w1, hw1, hc⟩ := ControlStateHandler_switch sqrtf clk pinX w
    rw [hw1]
    apply PID_Process_bits
    rcases hc with rfl | ⟨-, rfl⟩ | ⟨-, rfl⟩ | ⟨-, rfl⟩
    · exact h
    · exact pidFlagsInv_congr w _ rfl rfl rfl rfl h
    · obtain ⟨f1, -, f3, -⟩ := SetPosition_frame (0 : α) w
      refine pidFlagsInv_congr w _ (by simp only [f1]) (by simp only [f1]) ?_ ?_ h
      · simp only
        rw [status_masks.2.2.2.2, testBit_ClearStatus _ _ _ (by norm_num), f3]
        simp
      · simp only
        rw [status_masks.2.2.2.2, testBit_ClearStatus _ _ _ (by norm_num), f3]
        simp
    · exact pidFlagsInv_Start clk _
  | PID_Process clk => exact PID_Process_bits sqrtf clk w h
  | TimerInterruptCallback pinA pinB pinX micros =>
    exact pidFlagsInv_congr w _ rfl rfl rfl rfl h

theorem pidFlagsInv_runOps (sqrtf : α → α) (ops : List (Op α)) (w : World α)
    (h : pidFlagsInv w) : pidFlagsInv (runOps sqrtf w ops) := by
  induction ops generalizing w with
  | nil => exact h
  | cons op rest ih => exact ih _ (pidFlagsInv_stepOp sqrtf w op h)

theorem Init_flags (samples : List PinSample) (pinX : Int) (clk : Clock) (w : World α) :
    (appPidControl.Init samples pinX clk w).pidSettings.Enable = false ∧
    (appPidControl.Init samples pinX clk w).pidSettings.aiming = false ∧
    (appPidControl.Init samples pinX clk w).ControlState = stateIDLE ∧
    (∀ j : Nat, j < 8 → 1 ≠ j → 2 ≠ j →
      (appPidControl.Init samples pinX clk w).SystemStatus.testBit j
        = w.SystemStatus.testBit j) := by
  unfold appPidControl.Init devMotorControl.Init
  simp only
  refine ⟨?_, ?_, trivial, ?_⟩
  · rw [(Stop_effect clk _).1, (SetPosition_frame _ _).1]; rfl
  · rw [(Stop_effect clk _).1, (SetPosition_frame _ _).1]; rfl
  · intro j hj h1 h2
    rw [devMotorControl_Stop_status _ _ j hj h2, (SetPosition_frame _ _).2.2.1]
    simp only
    rw [status_masks.1, status_masks.2.1, testBit_ClearStatus _ _ _ (by norm_num),
      testBit_ClearStatus _ _ _ (by norm_num)]
    simp [hj, h1, h2]

end Flags

section FlagClaims

variable {α : Type} [LinearOrderedField α] [FloorRing α]

theorem pidFlagsInv_Init (samples : List PinSample) (pinX : Int) (clk : Clock) :
    pidFlagsInv (appPidControl.Init samples pinX clk (powerOn : World α)) := by
  obtain ⟨i1, i2, -, i4⟩ := Init_flags samples pinX clk (powerOn : World α)
  rw [pidFlagsInv_bits, i1, i2, i4 3 (by norm_num) (by norm_num) (by norm_num)]
  simp [powerOn]

/-- Claim C33: in every state reached from `Init` through `Start`, `Stop`,
`GotoPos`, `StartCalibration`, `ControlStateHandler`, `PID_Process` (and
sampling ticks), `Enable` equals `aiming`, PID-busy is set exactly when `Enable`
is true, and PID-busy and PID-done are not both set. -/
theorem pid_flags_invariant (sqrtf : α → α) (samples : List PinSample) (pinX : Int)
    (clk : Clock) (ops : List (Op α)) :
    (runOps sqrtf (appPidControl.Init samples pinX clk powerOn) ops).pidSettings.Enable
      = (runOps sqrtf (appPidControl.Init samples pinX clk powerOn) ops).pidSettings.aiming ∧
    stdUtils.GetStatus
        (runOps sqrtf (appPidControl.Init samples pinX clk powerOn) ops).SystemStatus
        statusPID_BUSY
      = (runOps sqrtf (appPidControl.Init samples pinX clk powerOn) ops).pidSettings.Enable ∧
    ¬ (stdUtils.GetStatus
          (runOps sqrtf (appPidControl.Init samples pinX clk powerOn) ops).SystemStatus
          statusPID_BUSY = true ∧
        stdUtils.GetStatus
          (runOps sqrtf (appPidControl.Init samples pinX clk powerOn) ops).SystemStatus
          statusPID_DONE = true) :=
  pidFlagsInv_runOps sqrtf ops _ (pidFlagsInv_Init samples pinX clk)

theorem calBusyInv_congr (w v : World α) (hc : v.ControlState = w.ControlState)
    (h5 : v.SystemStatus.testBit 5 = w.SystemStatus.testBit 5)
    (h : calBusyInv w) : calBusyInv v := by
  rw [calBusyInv_bits] at h ⊢
  rw [hc, h5]
  exact h

theorem calBusyInv_PID_Process (sqrtf : α → α) (clk : Clock) (w : World α)
    (h : calBusyInv w) : calBusyInv (appPidControl.PID_Process sqrtf clk w).1 :=
  calBusyInv_congr w _ (PID_Process_keeps_calibration sqrtf clk w).1
    (PID_Process_frame sqrtf clk w).2.2.2 h

theorem calBusyInv_Start (clk : Clock) (w : World α) (h : calBusyInv w) :
    calBusyInv (appPidControl.Start clk w) :=
  calBusyInv_congr w _ (Start_frame clk w).2.2.1 (Start_bits clk w).2.2 h

theorem calBusyInv_stepOp (sqrtf : α → α) (w : World α) (op : Op α)
    (h : calBusyInv w) : calBusyInv (stepOp sqrtf w op) := by
  cases op with
  | Start clk => exact calBusyInv_Start clk w h
  | Stop clk =>
    obtain ⟨-, -, -, -, s5, s6⟩ := appPidControl_Stop_flags clk w
    exact calBusyInv_congr w _ s6 s5 h
  | GotoPos clk newPos =>
    show calBusyInv (appPidControl.GotoPos clk newPos w).1
    unfold appPidControl.GotoPos
    by_cases hidle : w.ControlState ≠ stateIDLE
    · rw [if_pos hidle]
      exact h
    · rw [if_neg hidle]
      simp only
      by_cases hr : (stdUtils.setFloatParam w.pidSettings.Target newPos
          MOTOR_POS_WRAP_MIN MOTOR_POS_WRAP_MAX).2 ≠ 0
      · rw [if_pos hr]
        exact calBusyInv_congr w _ rfl rfl h
      · rw [if_neg hr]
        exact calBusyInv_Start clk _ (calBusyInv_congr w _ rfl rfl h)
  | StartCalibration clk =>
    show calBusyInv (appPidControl.StartCalibration clk w)
    rw [calBusyInv_bits]
    unfold appPidControl.StartCalibration
    rw [(Start_bits clk _).2.2, (Start_frame clk _).2.2.1]
    simp only
    rw [status_masks.2.2.2.2, testBit_SetStatus]
    simp [stateCAL_SEARCH, stateIDLE]
  | ControlStateHandler clk pinX =>
    show calBusyInv (appPidControl.ControlStateHandler sqrtf clk pinX w).1
    obtain ⟨w1, hw1, hc⟩ := ControlStateHandler_switch sqrtf clk pinX w
    rw [hw1]
    apply calBusyInv_PID_Process
    have hb := (calBusyInv_bits w).1 h
    rcases hc with rfl | ⟨hs, rfl⟩ | ⟨hg, rfl⟩ | ⟨hg, rfl⟩
    · exact h
    · rw [calBusyInv_bits]
      have h5 : w.SystemStatus.testBit 5 = true := hb.2 (by rw [hs]; decide)
      simp only [h5]
      simp [stateCAL_GOTO_0, stateIDLE]
    · rw [calBusyInv_bits]
      simp only
      rw [status_masks.2.2.2.2, testBit_ClearStatus _ _ _ (by norm_num)]
      simp
    · apply calBusyInv_Start
      rw [calBusyInv_bits]
      have h5 : w.SystemStatus.testBit 5 = true := hb.2 (by rw [hg]; decide)
      simp only [h5]
      simp [stateCAL_SEARCH, stateIDLE]
  | PID_Process clk => exact calBusyInv_PID_Process sqrtf clk w h
  | TimerInterruptCallback pinA pinB pinX micros =>
    exact calBusyInv_congr w _ rfl rfl h

theorem calBusyInv_runOps (sqrtf : α → α) (ops : List (Op α)) (w : World α)
    (h : calBusyInv w) : calBusyInv (runOps sqrtf w ops) := by
  induction ops generalizing w with
  | nil => exact h
  | cons op rest ih => exact ih _ (calBusyInv_stepOp sqrtf w op h)

theorem calBusyInv_Init (samples : List PinSample) (pinX : Int) (clk : Clock) :
    calBusyInv (appPidControl.Init samples pinX clk (powerOn : World α)) := by
  obtain ⟨-, -, i3, i4⟩ := Init_flags samples pinX clk (powerOn : World α)
  rw [calBusyInv_bits, i3, i4 5 (by norm_num) (by norm_num) (by norm_num)]
  simp [powerOn]

/-- Claim C34: in every state reached from `Init` through `StartCalibration`,
`ControlStateHandler`, `GotoPos`, `Start`, `Stop` (and `PID_Process` and
sampling ticks), the calibration-busy flag is set if and only if the calibration
state is not `stateIDLE`. -/
theorem calibration_busy_invariant (sqrtf : α → α) (samples : List PinSample)
    (pinX : Int) (clk : Clock) (ops : List (Op α)) :
    stdUtils.GetStatus
        (runOps sqrtf (appPidControl.Init samples pinX clk powerOn) ops).SystemStatus
        statusCALIB_BUSY = true ↔
      (runOps sqrtf (appPidControl.Init samples pinX clk powerOn) ops).ControlState
        ≠ stateIDLE :=
  calBusyInv_runOps sqrtf ops _ (calBusyInv_Init samples pinX clk)

end FlagClaims

/-! ## The pulse-period history buffer -/

theorem TimerInterruptCallback_history (e : EncoderState) (pinA pinB pinX : Int)
    (micros : Nat) :
    (devMotorControl.pinA_edge e pinA ≠ 0 ∨ devMotorControl.pinB_edge e pinB ≠ 0 →
      (devMotorControl.TimerInterruptCallback pinA pinB pinX micros e)._pulsePeriod_us_arr
        = e._pulsePeriod_us_arr.set e._pulsePeriod_us_cnt
            (devMotorControl.TimerInterruptCallback pinA pinB pinX micros e)._pulsePeriod_us ∧
      (devMotorControl.TimerInterruptCallback pinA pinB pinX micros e)._pulsePeriod_us_cnt
        = (e._pulsePeriod_us_cnt + 1) % AMT203_PULSEWIDTH_ARR_CNT ∧
      (devMotorControl.TimerInterruptCallback pinA pinB pinX micros e)._pulsePeriod_us
        = (micros % ULONG_RANGE + ULONG_RANGE - e._lastEdge_us) % ULONG_RANGE) ∧
    (¬ (devMotorControl.pinA_edge e pinA ≠ 0 ∨ devMotorControl.pinB_edge e pinB ≠ 0) →
      (devMotorControl.TimerInterruptCallback pinA pinB pinX micros e)._pulsePeriod_us_arr
        = e._pulsePeriod_us_arr ∧
      (devMotorControl.TimerInterruptCallback pinA pinB pinX micros e)._pulsePeriod_us_cnt
        = e._pulsePeriod_us_cnt ∧
      (devMotorControl.TimerInterruptCallback pinA pinB pinX micros e)._pulsePeriod_us
        = e._pulsePeriod_us) := by
  unfold devMotorControl.pinA_edge devMotorControl.pinB_edge
  constructor
  · intro h
    simp only [devMotorControl.TimerInterruptCallback, if_pos h]
    split_ifs <;>
      simp [devMotorControl.indexStep, devMotorControl.quadratureStep]
  · intro h
    simp only [devMotorControl.TimerInterruptCallback, if_neg h]
    split_ifs <;> simp [devMotorControl.indexStep]

theorem historyInv_edge (log : List Nat) (p : Nat)
    (e e1 : EncoderState) (h : historyInv log e)
    (harr : e1._pulsePeriod_us_arr = e._pulsePeriod_us_arr.set e._pulsePeriod_us_cnt p)
    (hcnt : e1._pulsePeriod_us_cnt = (e._pulsePeriod_us_cnt + 1) % AMT203_PULSEWIDTH_ARR_CNT) :
    historyInv (log ++ [p]) e1 := by
  obtain ⟨h1, h2, h3, h4⟩ := h
  unfold AMT203_PULSEWIDTH_ARR_CNT at h1 h2 h3 h4 hcnt
  unfold historyInv AMT203_PULSEWIDTH_ARR_CNT
  rw [harr, hcnt, h1, List.length_set, List.length_append, List.length_singleton]
  refine ⟨by omega, h2, ?_, ?_⟩
  · intro j hj hle
    rw [List.getElem?_set]
    by_cases hlast : j = log.length
    · subst hlast
      rw [if_pos rfl, if_pos (by rw [h2]; omega)]
      simp
    · have hne : ¬ log.length % 20 = j % 20 := by omega
      rw [if_neg hne, h3 j (by omega) (by omega), List.getElem?_append_left (by omega)]
  · intro k hk hle
    rw [List.getElem?_set]
    have hne : ¬ log.length % 20 = k := by omega
    rw [if_neg hne]
    exact h4 k hk (by omega)

theorem historyInv_sampleRun (samples : List PinSample) (log : List Nat) (e : EncoderState)
    (h : historyInv log e) : historyInv (log ++ periodLog e samples) (sampleRun e samples) := by
  induction samples generalizing log e with
  | nil => simpa [periodLog, sampleRun] using h
  | cons s rest ih =>
    have hrun : sampleRun e (s :: rest)
        = sampleRun (devMotorControl.TimerInterruptCallback s.pinA s.pinB s.pinX s.micros e)
            rest := rfl
    rw [hrun]
    obtain ⟨t1, t2⟩ := TimerInterruptCallback_history e s.pinA s.pinB s.pinX s.micros
    by_cases hedge : devMotorControl.pinA_edge e s.pinA ≠ 0 ∨
        devMotorControl.pinB_edge e s.pinB ≠ 0
    · have hlog : log ++ periodLog e (s :: rest)
          = (log ++ [(devMotorControl.TimerInterruptCallback s.pinA s.pinB s.pinX s.micros
              e)._pulsePeriod_us])
            ++ periodLog
              (devMotorControl.TimerInterruptCallback s.pinA s.pinB s.pinX s.micros e)
              rest := by
        simp only [periodLog, if_pos hedge, List.append_assoc, List.singleton_append]
      rw [hlog]
      exact ih _ _ (historyInv_edge log _ e _ h
        (t1 hedge).1 (t1 hedge).2.1)
    · have hlog : log ++ periodLog e (s :: rest)
          = log ++ periodLog
              (devMotorControl.TimerInterruptCallback s.pinA s.pinB s.pinX s.micros e)
              rest := by
        simp only [periodLog, if_neg hedge]
      rw [hlog]
      refine ih _ _ ?_
      unfold historyInv
      rw [(t2 hedge).1, (t2 hedge).2.1]
      exact h

theorem historyInv_ResetSpeedParams {α : Type} [LinearOrderedField α] [FloorRing α]
    (clk : Clock) (w : World α) :
    historyInv [] (devMotorControl.ResetSpeedParams clk w).enc := by
  unfold historyInv devMotorControl.ResetSpeedParams AMT203_PULSEWIDTH_ARR_CNT
  refine ⟨rfl, by simp, ?_, ?_⟩
  · intro j hj
    exact absurd hj (by simp)
  · intro k hk _
    simp only [List.getElem?_replicate, if_pos hk]

/-- Claim C32: after `ResetSpeedParams` and any run of sampling ticks, with
`log` the periods recorded at the qualifying edges: the write index is
`log.length % 20` and so below 20, the array keeps its 20 slots, each of the
last 20 recorded periods sits in the slot of its index modulo 20 (so after 20
or more edges the array holds exactly the 20 most recent periods and the write
index points at the oldest of them), unwritten slots hold 0, and a further
qualifying edge writes the new `_pulsePeriod_us` at the write index. -/
theorem period_history_circular {α : Type} [LinearOrderedField α] [FloorRing α]
    (clk : Clock) (w : World α) (samples : List PinSample) :
    (sampleRun (devMotorControl.ResetSpeedParams clk w).enc samples)._pulsePeriod_us_cnt
      < AMT203_PULSEWIDTH_ARR_CNT ∧
    (sampleRun (devMotorControl.ResetSpeedParams clk w).enc samples)._pulsePeriod_us_cnt
      = (periodLog (devMotorControl.ResetSpeedParams clk w).enc samples).length
          % AMT203_PULSEWIDTH_ARR_CNT ∧
    (sampleRun (devMotorControl.ResetSpeedParams clk w).enc
        samples)._pulsePeriod_us_arr.length = AMT203_PULSEWIDTH_ARR_CNT ∧
    (∀ j : Nat, j < (periodLog (devMotorControl.ResetSpeedParams clk w).enc samples).length →
      (periodLog (devMotorControl.ResetSpeedParams clk w).enc samples).length
        ≤ j + AMT203_PULSEWIDTH_ARR_CNT →
      (sampleRun (devMotorControl.ResetSpeedParams clk w).enc
          samples)._pulsePeriod_us_arr[j % AMT203_PULSEWIDTH_ARR_CNT]?
        = (periodLog (devMotorControl.ResetSpeedParams clk w).enc samples)[j]?) ∧
    (∀ k : Nat, k < AMT203_PULSEWIDTH_ARR_CNT →
      (periodLog (devMotorControl.ResetSpeedParams clk w).enc samples).length ≤ k →
      (sampleRun (devMotorControl.ResetSpeedParams clk w).enc
          samples)._pulsePeriod_us_arr[k]? = some 0) ∧
    (AMT203_PULSEWIDTH_ARR_CNT
        ≤ (periodLog (devMotorControl.ResetSpeedParams clk w).enc samples).length →
      (sampleRun (devMotorControl.ResetSpeedParams clk w).enc samples)._pulsePeriod_us_arr[
          (sampleRun (devMotorControl.ResetSpeedParams clk w).enc
            samples)._pulsePeriod_us_cnt]?
        = (periodLog (devMotorControl.ResetSpeedParams clk w).enc samples)[
            (periodLog (devMotorControl.ResetSpeedParams clk w).enc samples).length
              - AMT203_PULSEWIDTH_ARR_CNT]?) ∧
    (∀ s : PinSample,
      devMotorControl.pinA_edge
          (sampleRun (devMotorControl.ResetSpeedParams clk w).enc samples) s.pinA ≠ 0 ∨
        devMotorControl.pinB_edge
          (sampleRun (devMotorControl.ResetSpeedParams clk w).enc samples) s.pinB ≠ 0 →
      (sampleRun (devMotorControl.ResetSpeedParams clk w).enc
          (samples ++ [s]))._pulsePeriod_us_arr
        = (sampleRun (devMotorControl.ResetSpeedParams clk w).enc
            samples)._pulsePeriod_us_arr.set
            (sampleRun (devMotorControl.ResetSpeedParams clk w).enc
              samples)._pulsePeriod_us_cnt
            (sampleRun (devMotorControl.ResetSpeedParams clk w).enc
              (samples ++ [s]))._pulsePeriod_us) := by
  have h := historyInv_sampleRun samples [] _ (historyInv_ResetSpeedParams clk w)
  rw [List.nil_append] at h
  generalize (devMotorControl.ResetSpeedParams clk w).enc = e0 at h ⊢
  obtain ⟨h1, h2, h3, h4⟩ := h
  refine ⟨?_, h1, h2, h3, h4, ?_, ?_⟩
  · rw [h1]
    exact Nat.mod_lt _ (by decide)
  · intro hn
    have := h3 ((periodLog e0 samples).length - AMT203_PULSEWIDTH_ARR_CNT)
      (by unfold AMT203_PULSEWIDTH_ARR_CNT at hn ⊢; omega)
      (by unfold AMT203_PULSEWIDTH_ARR_CNT at hn ⊢; omega)
    rw [← this, h1]
    congr 1
    unfold AMT203_PULSEWIDTH_ARR_CNT at hn ⊢
    omega
  · intro s hs
    rw [sampleRun_append]
    exact ((TimerInterruptCallback_history _ s.pinA s.pinB s.pinX s.micros).1 hs).1

/-- C32 on a run of two samples after `ResetSpeedParams` at 10000 µs with one
`HIGH` sample pending on phase A: the first sample commits the edge and the
period 200 µs is written to slot 0; the second sample is no edge. -/
theorem period_history_circular_witness :
    (sampleRun (devMotorControl.ResetSpeedParams clk10 worldPendingA).enc
      [⟨HIGH, LOW, LOW, 10200⟩, ⟨HIGH, LOW, LOW, 10400⟩])._pulsePeriod_us_arr
      = 200 :: List.replicate 19 0 ∧
    (sampleRun (devMotorControl.ResetSpeedParams clk10 worldPendingA).enc
      [⟨HIGH, LOW, LOW, 10200⟩, ⟨HIGH, LOW, LOW, 10400⟩])._pulsePeriod_us_cnt = 1 :=
  have h := period_history_circular clk10 worldPendingA
    [⟨HIGH, LOW, LOW, 10200⟩, ⟨HIGH, LOW, LOW, 10400⟩]
  ⟨by decide, h.2.1.trans (by decide)⟩

/-- Claim C36 (failing input): `ResetSpeedParams` runs at 1000 µs while phase A
has one `HIGH` sample pending, and the sampling tick at 1012 µs commits the
edge: the last period is 12 µs, so the guard `_pulsePeriod_us > 0` of
`GetSpeed_AVG` passes, but the integer mean of the 20 history slots, the
divisor, is `12 / 20 = 0`. -/
theorem GetSpeed_AVG_zero_mean :
    (devMotorControl.samplingTick HIGH LOW LOW 1012
      (devMotorControl.ResetSpeedParams ⟨1, 1000⟩ worldPendingA)).enc._pulsePeriod_us = 12 ∧
    (devMotorControl.samplingTick HIGH LOW LOW 1012
      (devMotorControl.ResetSpeedParams ⟨1, 1000⟩ worldPendingA)).enc._pulsePeriod_us > 0 ∧
    stdUtils.avgULong
      (devMotorControl.samplingTick HIGH LOW LOW 1012
        (devMotorControl.ResetSpeedParams ⟨1, 1000⟩ worldPendingA)).enc._pulsePeriod_us_arr
      AMT203_PULSEWIDTH_ARR_CNT = 0 ∧
    devMotorControl.GetSpeed_AVG
      (devMotorControl.samplingTick HIGH LOW LOW 1012
        (devMotorControl.ResetSpeedParams ⟨1, 1000⟩ worldPendingA))
      = (360000000 / 4096) / ((0 : Nat) : ℚ) * 1 := by
  decide!

/-! ## Serial responses and their CRC -/

theorem crc8_str_append (crc : Nat) (a b : List Nat) :
    stdUtils.crc8_str crc (a ++ b) = stdUtils.crc8_str (stdUtils.crc8_str crc a) b := by
  simp [stdUtils.crc8_str, List.foldl_append]

theorem serialputc_append (a b : List Nat) :
    devComms.serialputc (a ++ b) = devComms.serialputc a ++ devComms.serialputc b := by
  simp [devComms.serialputc, List.flatMap_append]

theorem serialputc_no_newline (a : List Nat) (h : 10 ∉ a) : devComms.serialputc a = a := by
  induction a with
  | nil => rfl
  | cons x rest ih =>
    have hx : x ≠ 10 := fun e => h (by simp [e])
    have hr : 10 ∉ rest := fun e => h (by simp [e])
    have := ih hr
    simp only [devComms.serialputc, List.flatMap_cons, if_neg hx] at this ⊢
    rw [this]
    rfl

/-- The response of `CmdResponseOK` for a message without a newline: the CRC
printed after the bar is the CRC-8 of all the characters before it. -/
theorem CmdResponseOK_crc (msg : List Nat) (h : 10 ∉ msg) :
    (devComms.CmdResponseOK msg).2 =
      (devComms.ResponseMsgHeader ++ cstr "OK" ++ (if msg = [] then [] else cstr " ") ++ msg)
        ++ cstr "|"
        ++ devComms.fmt02X
            (stdUtils.crc8_str 0
              (devComms.ResponseMsgHeader ++ cstr "OK"
                ++ (if msg = [] then [] else cstr " ") ++ msg))
        ++ [13, 10] := by
  have hcrc : (devComms.CmdResponseOK msg).1 =
      stdUtils.crc8_str 0
        (devComms.ResponseMsgHeader ++ cstr "OK"
          ++ (if msg = [] then [] else cstr " ") ++ msg) := by
    unfold devComms.CmdResponseOK
    by_cases hm : msg = []
    · simp [hm, crc8_str_append, stdUtils.crc8_str]
    · simp [hm, crc8_str_append]
  have hout : (devComms.CmdResponseOK msg).2 =
      devComms.serialputc (devComms.ResponseMsgHeader ++ cstr "OK"
        ++ (if msg = [] then [] else cstr " ") ++ msg ++ cstr "|"
        ++ devComms.fmt02X (devComms.CmdResponseOK msg).1 ++ cstr "\n") := rfl
  rw [hout, hcrc, serialputc_append, serialputc_append, serialputc_append,
    serialputc_append, serialputc_append]
  have h1 : devComms.serialputc (devComms.ResponseMsgHeader ++ cstr "OK")
      = devComms.ResponseMsgHeader ++ cstr "OK" := by decide
  have h2 : devComms.serialputc (if msg = [] then [] else cstr " ")
      = (if msg = [] then [] else cstr " ") := by
    split_ifs <;> decide
  have h3 : devComms.serialputc (cstr "|") = cstr "|" := by decide
  have h4 : devComms.serialputc (cstr "\n") = [13, 10] := by decide
  have h5 : ∀ b : Nat, devComms.serialputc (devComms.fmt02X b) = devComms.fmt02X b := by
    intro b
    apply serialputc_no_newline
    simp only [devComms.fmt02X, devComms.hexDigit, List.mem_cons, List.mem_singleton,
      List.not_mem_nil, or_false]
    split_ifs <;> omega
  rw [h1, h2, h3, h4, h5, serialputc_no_newline msg h]

/-- Claim C39 (failing input): `CmdResponseError(903, "7")`, the response to a
carriage return received in the payload state, transmits
`[ROT-R]ERR 903 7|97`; the CRC 0x97 is that of `[ROT-R]ERR 9037`, without the
space that is transmitted before the message, while the CRC-8 of the characters
before the bar is 0x2D. -/
theorem CmdResponseError_crc_skips_space :
    (devComms.CmdResponseError 903 (cstr "7")).2 = cstr "[ROT-R]ERR 903 7|97\r\n" ∧
    (devComms.CmdResponseError 903 (cstr "7")).1 = 0x97 ∧
    stdUtils.crc8_str 0 (cstr "[ROT-R]ERR 9037") = 0x97 ∧
    stdUtils.crc8_str 0 (cstr "[ROT-R]ERR 903 7") = 0x2D ∧
    devComms.fmt02X (stdUtils.crc8_str 0 (cstr "[ROT-R]ERR 903 7")) = cstr "2D" := by
  decide!

/-! ## The receive buffer index -/

/-- Claim C40 (failing input): the command header followed by 81 payload bytes
`a` with no bar and no carriage return. After 80 payload bytes `InPtr` is 80;
the 81st passes the overflow test, is stored at `RxBuff[80]` and leaves
`InPtr = 81`, and the terminating NUL of `Read` is then written to `RxBuff[81]`,
outside the 81 bytes of the array. -/
theorem Read_overflows_RxBuff :
    devComms.Read devComms.stDev_Comms (devComms.CmdMsgHeader ++ List.replicate 80 97)
      = Except.ok { InPtr := 80, CRC_rx := 0, CRC_calc := 57, MsgState := msMESSAGE } ∧
    devComms.ParseByteForPayload 97
        { InPtr := 80, CRC_rx := 0, CRC_calc := 57, MsgState := msMESSAGE }
      = Except.ok
          ({ InPtr := 81, CRC_rx := 0, CRC_calc := stdUtils.crc8 57 97, MsgState := msMESSAGE },
            msMESSAGE) ∧
    COMMS_RX_BUFF_LEN < 81 ∧
    devComms.Read devComms.stDev_Comms (devComms.CmdMsgHeader ++ List.replicate 81 97)
      = Except.error 81 := by
  decide!
